import Mathlib

/-!
# Map projections of `boost/geometry/srs/projections`

A shallow embedding of the projection kernels `ortho`, `laea`, `somerc` and
`qsc` together with the parameter block `pj_consts`.

Modelling conventions.

* `CalculationType` is the field of real numbers: `sin`, `cos`, `sqrt`, `asin`,
  `acos`, `atan`, `exp`, `log` are the exact real functions, `fabs` is the
  absolute value, `hypot x y` is `sqrt (x*x + y*y)` and `atan2 y x` is the
  argument of the point `(x, y)` in `(-pi, pi]` (with `atan2 0 0 = 0`).
* `BOOST_THROW_EXCEPTION(projection_exception(c))` is `Except.error c`.
* `fwd` returns the pair `(xy_x, xy_y)`, `inv` returns `(lp_lon, lp_lat)`.
* A `goto` or a switch fall-through is unfolded into the branch it jumps from.
* A quotient or a logarithm is the total function of the real numbers (`x / 0 = 0`,
  `log 0 = 0`), with no infinity and no NaN.
-/

set_option genInjectivity false
set_option genSizeOf false
set_option genSizeOfSpec false

noncomputable section

namespace Projections

/-! ## Shared numeric helpers -/

/-- The constant `detail::half_pi<T>()`. -/
def half_pi : ℝ := Real.pi / 2

/-- The constant `detail::fourth_pi<T>()`. -/
def fourth_pi : ℝ := Real.pi / 4

/-- The constant `detail::pi<T>()`. -/
def pi : ℝ := Real.pi

/-- The constant `detail::two_pi<T>()`. -/
def two_pi : ℝ := 2 * Real.pi

/-- The C function `fabs`. -/
def fabs (x : ℝ) : ℝ := |x|

/-- The function `boost::math::hypot`. -/
def hypot (x y : ℝ) : ℝ := Real.sqrt (x * x + y * y)

/-- The C function `atan2(y, x)`: the angle of the point `(x, y)`, in `(-pi, pi]`, `0` at the origin. -/
def atan2 (y x : ℝ) : ℝ := Complex.arg ⟨x, y⟩

/-- The parameter block `pj_consts<T>` of `impl/projects.hpp`. -/
structure pj_consts where
  a : ℝ
  ra : ℝ
  e : ℝ
  es : ℝ
  one_es : ℝ
  rone_es : ℝ
  es_orig : ℝ
  a_orig : ℝ
  over : Int
  geoc : Int
  is_latlong : Int
  is_geocent : Int
  lam0 : ℝ
  phi0 : ℝ
  x0 : ℝ
  y0 : ℝ
  k0 : ℝ
  to_meter : ℝ
  fr_meter : ℝ
  vto_meter : ℝ
  vfr_meter : ℝ
  datum_type : Int
  datum_params : Fin 7 → ℝ
  from_greenwich : ℝ
  long_wrap_center : ℝ
  is_long_wrap_set : Bool

/-- The datum type tag `PJD_UNKNOWN`. -/
def PJD_UNKNOWN : Int := 0

/-- The constructor `pj_consts()`: every member initialised as in the source. -/
def pj_consts.init : pj_consts where
  a := 0
  ra := 0
  e := 0
  es := 0
  one_es := 0
  rone_es := 0
  es_orig := 0
  a_orig := 0
  over := 0
  geoc := 0
  is_latlong := 0
  is_geocent := 0
  lam0 := 0
  phi0 := 0
  x0 := 0
  y0 := 0
  k0 := 0
  to_meter := 0
  fr_meter := 0
  vto_meter := 0
  vfr_meter := 0
  datum_type := PJD_UNKNOWN
  datum_params := fun _ => 0
  from_greenwich := 0
  long_wrap_center := 0
  is_long_wrap_set := false

/-! ## Orthographic (`proj/ortho.hpp`) -/

namespace ortho

/-- The `enum Mode` of `detail::ortho`. -/
inductive Mode where
  | N_POLE
  | S_POLE
  | EQUIT
  | OBLIQ
  deriving DecidableEq

/-- The derived constants `par_ortho<T>`. -/
structure par_ortho where
  sinph0 : ℝ
  cosph0 : ℝ
  mode : Mode

/-- The tolerance `EPS10` of `detail::ortho`. -/
def EPS10 : ℝ := 1e-10

/-- The members of `base_ortho_spheroid`: the parameter block and the derived constants. -/
structure base_ortho_spheroid where
  m_par : pj_consts
  m_proj_parm : par_ortho

/-- The member `base_ortho_spheroid::fwd`; the result is `(xy_x, xy_y)`. -/
@[reducible]
def base_ortho_spheroid.fwd (P : base_ortho_spheroid) (lp_lon lp_lat : ℝ) : Except Int (ℝ × ℝ) :=
  let cosphi := Real.cos lp_lat
  let coslam := Real.cos lp_lon
  match P.m_proj_parm.mode with
  | Mode.EQUIT =>
    if cosphi * coslam < -EPS10 then Except.error (-20)
    else Except.ok (cosphi * Real.sin lp_lon, Real.sin lp_lat)
  | Mode.OBLIQ =>
    let sinphi := Real.sin lp_lat
    if P.m_proj_parm.sinph0 * sinphi + P.m_proj_parm.cosph0 * cosphi * coslam < -EPS10 then
      Except.error (-20)
    else
      Except.ok (cosphi * Real.sin lp_lon,
        P.m_proj_parm.cosph0 * sinphi - P.m_proj_parm.sinph0 * cosphi * coslam)
  | Mode.N_POLE =>
    let coslam := -coslam
    if fabs (lp_lat - P.m_par.phi0) - EPS10 > half_pi then Except.error (-20)
    else Except.ok (cosphi * Real.sin lp_lon, cosphi * coslam)
  | Mode.S_POLE =>
    if fabs (lp_lat - P.m_par.phi0) - EPS10 > half_pi then Except.error (-20)
    else Except.ok (cosphi * Real.sin lp_lon, cosphi * coslam)

/-- Lines 144-149 of `inv`: the sine `sinc` of the angular distance, from `rh = hypot(x, y)`. -/
@[reducible]
def inv_sinc (rh : ℝ) : Except Int ℝ :=
  if rh > 1 then
    if rh - 1 > EPS10 then Except.error (-20) else Except.ok 1
  else Except.ok rh

/-- Line 150 of `inv`: `cosc = sqrt(1. - sinc * sinc)`. -/
@[reducible]
def inv_cosc (sinc : ℝ) : ℝ := Real.sqrt (1 - sinc * sinc)

/-- The `sinchk` label of `inv`. -/
def sinchk (lp_lat : ℝ) : ℝ :=
  if fabs lp_lat ≥ 1 then (if lp_lat < 0 then -half_pi else half_pi)
  else Real.arcsin lp_lat

/-- Lines 179-181 of `inv`: the longitude from the rotated `xy_x`, `xy_y`. -/
def inv_lon (mode : Mode) (xy_x xy_y : ℝ) : ℝ :=
  if xy_y = 0 ∧ (mode = Mode.OBLIQ ∨ mode = Mode.EQUIT) then
    (if xy_x = 0 then 0 else if xy_x < 0 then -half_pi else half_pi)
  else atan2 xy_x xy_y

/-- Lines 150-182 of `inv`, after `sinc` has been fixed; the result is `(lp_lon, lp_lat)`. -/
@[reducible]
def inv_tail (P : base_ortho_spheroid) (xy_x xy_y rh sinc : ℝ) : ℝ × ℝ :=
  let cosc := inv_cosc sinc
  if fabs rh ≤ EPS10 then (0, P.m_par.phi0)
  else
    match P.m_proj_parm.mode with
    | Mode.N_POLE =>
      let xy_y := -xy_y
      let lp_lat := Real.arccos sinc
      (inv_lon Mode.N_POLE xy_x xy_y, lp_lat)
    | Mode.S_POLE =>
      let lp_lat := -Real.arccos sinc
      (inv_lon Mode.S_POLE xy_x xy_y, lp_lat)
    | Mode.EQUIT =>
      let lp_lat := xy_y * sinc / rh
      let xy_x := xy_x * sinc
      let xy_y := cosc * rh
      let lp_lat := sinchk lp_lat
      (inv_lon Mode.EQUIT xy_x xy_y, lp_lat)
    | Mode.OBLIQ =>
      let lp_lat := cosc * P.m_proj_parm.sinph0 + xy_y * sinc * P.m_proj_parm.cosph0 / rh
      let xy_y := (cosc - P.m_proj_parm.sinph0 * lp_lat) * rh
      let xy_x := xy_x * (sinc * P.m_proj_parm.cosph0)
      let lp_lat := sinchk lp_lat
      (inv_lon Mode.OBLIQ xy_x xy_y, lp_lat)

/-- The member `base_ortho_spheroid::inv`; the result is `(lp_lon, lp_lat)`. -/
@[reducible]
def base_ortho_spheroid.inv (P : base_ortho_spheroid) (xy_x xy_y : ℝ) : Except Int (ℝ × ℝ) :=
  let rh := hypot xy_x xy_y
  match inv_sinc rh with
  | Except.error c => Except.error c
  | Except.ok sinc => Except.ok (inv_tail P xy_x xy_y rh sinc)

/-- The routine `setup_ortho`: the updated parameter block and derived constants. Members of
`proj_parm` that the source does not assign keep the value they had. -/
def setup_ortho (par : pj_consts) (proj_parm : par_ortho) : pj_consts × par_ortho :=
  let proj_parm :=
    if fabs (fabs par.phi0 - half_pi) ≤ EPS10 then
      { proj_parm with mode := if par.phi0 < 0 then Mode.S_POLE else Mode.N_POLE }
    else if fabs par.phi0 > EPS10 then
      { proj_parm with mode := Mode.OBLIQ,
                       sinph0 := Real.sin par.phi0,
                       cosph0 := Real.cos par.phi0 }
    else
      { proj_parm with mode := Mode.EQUIT }
  ({ par with es := 0 }, proj_parm)

/-- The constructor `ortho_spheroid(par)`: copies `par` and runs `setup_ortho`;
`proj_parm0` stands for the indeterminate initial content of `m_proj_parm`. -/
def ortho_spheroid (par : pj_consts) (proj_parm0 : par_ortho) : base_ortho_spheroid :=
  let r := setup_ortho par proj_parm0
  { m_par := r.1, m_proj_parm := r.2 }

end ortho

/-! ## Lambert Azimuthal Equal Area (`proj/laea.hpp`)

The helpers `pj_qsfn`, `pj_authset`, `pj_authlat` and the type `detail::apa<T>` live in
headers outside the embedded sources; they are parameters of the definitions that
call them. -/

namespace laea

/-- The tolerance `EPS10` of `detail::laea`. -/
def EPS10 : ℝ := 1e-10

/-- The `enum Mode` of `detail::laea`. -/
inductive Mode where
  | N_POLE
  | S_POLE
  | EQUIT
  | OBLIQ
  deriving DecidableEq

/-- The derived constants `par_laea<T>`; `Apa` is the type `detail::apa<T>`. -/
structure par_laea (Apa : Type) where
  sinb1 : ℝ
  cosb1 : ℝ
  xmf : ℝ
  ymf : ℝ
  mmf : ℝ
  qp : ℝ
  dd : ℝ
  rq : ℝ
  apa : Apa
  mode : Mode

/-- The members of `base_laea_ellipsoid`. -/
structure base_laea_ellipsoid (Apa : Type) where
  m_par : pj_consts
  m_proj_parm : par_laea Apa

/-- The members of `base_laea_spheroid`. -/
structure base_laea_spheroid (Apa : Type) where
  m_par : pj_consts
  m_proj_parm : par_laea Apa

/-- Lines 113-140 of `base_laea_ellipsoid::fwd`: the values of `sinb`, `cosb`, `b` and `q`
when the test `fabs(b) < EPS10` is reached, as `(sinb, cosb, b, q)`. -/
@[reducible]
def base_laea_ellipsoid.fwd_b {Apa : Type} (pj_qsfn : ℝ → ℝ → ℝ → ℝ)
    (P : base_laea_ellipsoid Apa) (lp_lon lp_lat : ℝ) : ℝ × ℝ × ℝ × ℝ :=
  let coslam := Real.cos lp_lon
  let sinphi := Real.sin lp_lat
  let q := pj_qsfn sinphi P.m_par.e P.m_par.one_es
  let sinb : ℝ :=
    if P.m_proj_parm.mode = Mode.OBLIQ ∨ P.m_proj_parm.mode = Mode.EQUIT then
      q / P.m_proj_parm.qp
    else 0.0
  let cosb : ℝ :=
    if P.m_proj_parm.mode = Mode.OBLIQ ∨ P.m_proj_parm.mode = Mode.EQUIT then
      Real.sqrt (1 - sinb * sinb)
    else 0.0
  match P.m_proj_parm.mode with
  | Mode.OBLIQ =>
    (sinb, cosb, 1 + P.m_proj_parm.sinb1 * sinb + P.m_proj_parm.cosb1 * cosb * coslam, q)
  | Mode.EQUIT => (sinb, cosb, 1 + cosb * coslam, q)
  | Mode.N_POLE => (sinb, cosb, half_pi + lp_lat, P.m_proj_parm.qp - q)
  | Mode.S_POLE => (sinb, cosb, lp_lat - half_pi, P.m_proj_parm.qp + q)

/-- The member `base_laea_ellipsoid::fwd`; the result is `(xy_x, xy_y)`. -/
@[reducible]
def base_laea_ellipsoid.fwd {Apa : Type} (pj_qsfn : ℝ → ℝ → ℝ → ℝ)
    (P : base_laea_ellipsoid Apa) (lp_lon lp_lat : ℝ) : Except Int (ℝ × ℝ) :=
  let coslam := Real.cos lp_lon
  let sinlam := Real.sin lp_lon
  let s := P.fwd_b pj_qsfn lp_lon lp_lat
  let sinb := s.1
  let cosb := s.2.1
  let b := s.2.2.1
  let q := s.2.2.2
  if fabs b < EPS10 then Except.error (-20)
  else
    match P.m_proj_parm.mode with
    | Mode.OBLIQ =>
      let b := Real.sqrt (2 / b)
      let xy_y := P.m_proj_parm.ymf * b *
        (P.m_proj_parm.cosb1 * sinb - P.m_proj_parm.sinb1 * cosb * coslam)
      Except.ok (P.m_proj_parm.xmf * b * cosb * sinlam, xy_y)
    | Mode.EQUIT =>
      let b := Real.sqrt (2 / (1 + cosb * coslam))
      let xy_y := b * sinb * P.m_proj_parm.ymf
      Except.ok (P.m_proj_parm.xmf * b * cosb * sinlam, xy_y)
    | Mode.N_POLE =>
      if q ≥ 0 then
        let b := Real.sqrt q
        Except.ok (b * sinlam, coslam * (-b))
      else Except.ok (0, 0)
    | Mode.S_POLE =>
      if q ≥ 0 then
        let b := Real.sqrt q
        Except.ok (b * sinlam, coslam * b)
      else Except.ok (0, 0)

/-- The member `base_laea_ellipsoid::inv`; the result is `(lp_lon, lp_lat)`. -/
def base_laea_ellipsoid.inv {Apa : Type} (pj_authlat : ℝ → Apa → ℝ)
    (P : base_laea_ellipsoid Apa) (xy_x xy_y : ℝ) : Except Int (ℝ × ℝ) :=
  match P.m_proj_parm.mode with
  | Mode.EQUIT =>
    let xy_x := xy_x / P.m_proj_parm.dd
    let xy_y := xy_y * P.m_proj_parm.dd
    let rho := hypot xy_x xy_y
    if rho < EPS10 then Except.ok (0, P.m_par.phi0)
    else
      let sCe := 2 * Real.arcsin (0.5 * rho / P.m_proj_parm.rq)
      let cCe := Real.cos sCe
      let sCe := Real.sin sCe
      let xy_x := xy_x * sCe
      let ab := xy_y * sCe / rho
      let xy_y := rho * cCe
      Except.ok (atan2 xy_x xy_y, pj_authlat (Real.arcsin ab) P.m_proj_parm.apa)
  | Mode.OBLIQ =>
    let xy_x := xy_x / P.m_proj_parm.dd
    let xy_y := xy_y * P.m_proj_parm.dd
    let rho := hypot xy_x xy_y
    if rho < EPS10 then Except.ok (0, P.m_par.phi0)
    else
      let sCe := 2 * Real.arcsin (0.5 * rho / P.m_proj_parm.rq)
      let cCe := Real.cos sCe
      let sCe := Real.sin sCe
      let xy_x := xy_x * sCe
      let ab := cCe * P.m_proj_parm.sinb1 + xy_y * sCe * P.m_proj_parm.cosb1 / rho
      let xy_y := rho * P.m_proj_parm.cosb1 * cCe - xy_y * P.m_proj_parm.sinb1 * sCe
      Except.ok (atan2 xy_x xy_y, pj_authlat (Real.arcsin ab) P.m_proj_parm.apa)
  | Mode.N_POLE =>
    let xy_y := -xy_y
    let q := xy_x * xy_x + xy_y * xy_y
    if q = 0.0 then Except.ok (0, P.m_par.phi0)
    else
      let ab := 1 - q / P.m_proj_parm.qp
      Except.ok (atan2 xy_x xy_y, pj_authlat (Real.arcsin ab) P.m_proj_parm.apa)
  | Mode.S_POLE =>
    let q := xy_x * xy_x + xy_y * xy_y
    if q = 0.0 then Except.ok (0, P.m_par.phi0)
    else
      let ab := 1 - q / P.m_proj_parm.qp
      let ab := -ab
      Except.ok (atan2 xy_x xy_y, pj_authlat (Real.arcsin ab) P.m_proj_parm.apa)

/-- The member `base_laea_spheroid::fwd`; the result is `(xy_x, xy_y)`. -/
@[reducible]
def base_laea_spheroid.fwd {Apa : Type} (P : base_laea_spheroid Apa) (lp_lon lp_lat : ℝ) :
    Except Int (ℝ × ℝ) :=
  let sinphi := Real.sin lp_lat
  let cosphi := Real.cos lp_lat
  let coslam := Real.cos lp_lon
  match P.m_proj_parm.mode with
  | Mode.EQUIT =>
    let xy_y := 1 + cosphi * coslam
    if xy_y ≤ EPS10 then Except.error (-20)
    else
      let xy_y := Real.sqrt (2 / xy_y)
      let xy_x := xy_y * cosphi * Real.sin lp_lon
      Except.ok (xy_x, xy_y * sinphi)
  | Mode.OBLIQ =>
    let xy_y := 1 + P.m_proj_parm.sinb1 * sinphi + P.m_proj_parm.cosb1 * cosphi * coslam
    if xy_y ≤ EPS10 then Except.error (-20)
    else
      let xy_y := Real.sqrt (2 / xy_y)
      let xy_x := xy_y * cosphi * Real.sin lp_lon
      Except.ok (xy_x,
        xy_y * (P.m_proj_parm.cosb1 * sinphi - P.m_proj_parm.sinb1 * cosphi * coslam))
  | Mode.N_POLE =>
    let coslam := -coslam
    if fabs (lp_lat + P.m_par.phi0) < EPS10 then Except.error (-20)
    else
      let xy_y := fourth_pi - lp_lat * 0.5
      let xy_y := 2 * Real.sin xy_y
      let xy_x := xy_y * Real.sin lp_lon
      Except.ok (xy_x, xy_y * coslam)
  | Mode.S_POLE =>
    if fabs (lp_lat + P.m_par.phi0) < EPS10 then Except.error (-20)
    else
      let xy_y := fourth_pi - lp_lat * 0.5
      let xy_y := 2 * Real.cos xy_y
      let xy_x := xy_y * Real.sin lp_lon
      Except.ok (xy_x, xy_y * coslam)

/-- Lines 317-318 of `base_laea_spheroid::inv`: the longitude from the rotated `xy_x`, `xy_y`. -/
@[reducible]
def s_inv_lon (mode : Mode) (xy_x xy_y : ℝ) : ℝ :=
  if xy_y = 0 ∧ (mode = Mode.EQUIT ∨ mode = Mode.OBLIQ) then 0 else atan2 xy_x xy_y

/-- The member `base_laea_spheroid::inv`; the result is `(lp_lon, lp_lat)`. -/
@[reducible]
def base_laea_spheroid.inv {Apa : Type} (P : base_laea_spheroid Apa) (xy_x xy_y : ℝ) :
    Except Int (ℝ × ℝ) :=
  let rh := hypot xy_x xy_y
  let lp_lat := rh * 0.5
  if lp_lat > 1 then Except.error (-20)
  else
    let lp_lat := 2 * Real.arcsin lp_lat
    let sinz : ℝ :=
      if P.m_proj_parm.mode = Mode.OBLIQ ∨ P.m_proj_parm.mode = Mode.EQUIT then Real.sin lp_lat
      else 0.0
    let cosz : ℝ :=
      if P.m_proj_parm.mode = Mode.OBLIQ ∨ P.m_proj_parm.mode = Mode.EQUIT then Real.cos lp_lat
      else 0.0
    match P.m_proj_parm.mode with
    | Mode.EQUIT =>
      let lp_lat := if fabs rh ≤ EPS10 then 0 else Real.arcsin (xy_y * sinz / rh)
      let xy_x := xy_x * sinz
      let xy_y := cosz * rh
      Except.ok (s_inv_lon Mode.EQUIT xy_x xy_y, lp_lat)
    | Mode.OBLIQ =>
      let lp_lat := if fabs rh ≤ EPS10 then P.m_par.phi0
        else Real.arcsin (cosz * P.m_proj_parm.sinb1 + xy_y * sinz * P.m_proj_parm.cosb1 / rh)
      let xy_x := xy_x * (sinz * P.m_proj_parm.cosb1)
      let xy_y := (cosz - Real.sin lp_lat * P.m_proj_parm.sinb1) * rh
      Except.ok (s_inv_lon Mode.OBLIQ xy_x xy_y, lp_lat)
    | Mode.N_POLE =>
      let xy_y := -xy_y
      let lp_lat := half_pi - lp_lat
      Except.ok (s_inv_lon Mode.N_POLE xy_x xy_y, lp_lat)
    | Mode.S_POLE =>
      let lp_lat := lp_lat - half_pi
      Except.ok (s_inv_lon Mode.S_POLE xy_x xy_y, lp_lat)

/-- Lines 336-342 of `setup_laea`: the mode chosen from `par.phi0`. -/
def setup_laea_mode (phi0 : ℝ) : Mode :=
  let t := fabs phi0
  if fabs (t - half_pi) < EPS10 then
    (if phi0 < 0 then Mode.S_POLE else Mode.N_POLE)
  else if fabs t < EPS10 then Mode.EQUIT
  else Mode.OBLIQ

/-- The routine `setup_laea`: the updated parameter block and derived constants. Members of
`proj_parm` that the source does not assign keep the value they had. -/
def setup_laea {Apa : Type} (pj_qsfn : ℝ → ℝ → ℝ → ℝ) (pj_authset : ℝ → Apa)
    (par : pj_consts) (proj_parm : par_laea Apa) : pj_consts × par_laea Apa :=
  let proj_parm := { proj_parm with mode := setup_laea_mode par.phi0 }
  if par.es ≠ 0.0 then
    let par := { par with e := Real.sqrt par.es }
    let proj_parm := { proj_parm with qp := pj_qsfn 1 par.e par.one_es }
    let proj_parm := { proj_parm with mmf := 0.5 / (1 - par.es) }
    let proj_parm := { proj_parm with apa := pj_authset par.es }
    match proj_parm.mode with
    | Mode.N_POLE => (par, { proj_parm with dd := 1 })
    | Mode.S_POLE => (par, { proj_parm with dd := 1 })
    | Mode.EQUIT =>
      let proj_parm := { proj_parm with rq := Real.sqrt (0.5 * proj_parm.qp) }
      let proj_parm := { proj_parm with dd := 1 / proj_parm.rq }
      let proj_parm := { proj_parm with xmf := 1 }
      (par, { proj_parm with ymf := 0.5 * proj_parm.qp })
    | Mode.OBLIQ =>
      let proj_parm := { proj_parm with rq := Real.sqrt (0.5 * proj_parm.qp) }
      let sinphi := Real.sin par.phi0
      let proj_parm := { proj_parm with sinb1 := pj_qsfn sinphi par.e par.one_es / proj_parm.qp }
      let proj_parm :=
        { proj_parm with cosb1 := Real.sqrt (1 - proj_parm.sinb1 * proj_parm.sinb1) }
      let proj_parm :=
        { proj_parm with dd := Real.cos par.phi0 /
            (Real.sqrt (1 - par.es * sinphi * sinphi) * proj_parm.rq * proj_parm.cosb1) }
      let proj_parm := { proj_parm with xmf := proj_parm.rq }
      let proj_parm := { proj_parm with ymf := proj_parm.xmf / proj_parm.dd }
      (par, { proj_parm with xmf := proj_parm.xmf * proj_parm.dd })
  else
    if proj_parm.mode = Mode.OBLIQ then
      (par, { proj_parm with sinb1 := Real.sin par.phi0, cosb1 := Real.cos par.phi0 })
    else (par, proj_parm)

/-- The constructor `laea_ellipsoid(par)`: copies `par` and runs `setup_laea`;
`proj_parm0` stands for the indeterminate initial content of `m_proj_parm`. -/
def laea_ellipsoid {Apa : Type} (pj_qsfn : ℝ → ℝ → ℝ → ℝ) (pj_authset : ℝ → Apa)
    (par : pj_consts) (proj_parm0 : par_laea Apa) : base_laea_ellipsoid Apa :=
  let r := setup_laea pj_qsfn pj_authset par proj_parm0
  { m_par := r.1, m_proj_parm := r.2 }

/-- The constructor `laea_spheroid(par)`: copies `par` and runs `setup_laea`;
`proj_parm0` stands for the indeterminate initial content of `m_proj_parm`. -/
def laea_spheroid {Apa : Type} (pj_qsfn : ℝ → ℝ → ℝ → ℝ) (pj_authset : ℝ → Apa)
    (par : pj_consts) (proj_parm0 : par_laea Apa) : base_laea_spheroid Apa :=
  let r := setup_laea pj_qsfn pj_authset par proj_parm0
  { m_par := r.1, m_proj_parm := r.2 }

/-- The member `laea_entry::create_new`: the test `if (par.es)` chooses the kernel.
`Sum.inl` stands for `base_v_fi<laea_ellipsoid>` and `Sum.inr` for
`base_v_fi<laea_spheroid>`. -/
def laea_entry.create_new {Apa : Type} (pj_qsfn : ℝ → ℝ → ℝ → ℝ) (pj_authset : ℝ → Apa)
    (par : pj_consts) (proj_parm0 : par_laea Apa) :
    base_laea_ellipsoid Apa ⊕ base_laea_spheroid Apa :=
  if par.es ≠ 0 then Sum.inl (laea_ellipsoid pj_qsfn pj_authset par proj_parm0)
  else Sum.inr (laea_spheroid pj_qsfn pj_authset par proj_parm0)

end laea

/-! ## Swiss Oblique Mercator (`proj/somerc.hpp`)

The helper `aasin` lives in a header outside the embedded sources; it is a parameter of
the definitions that call it, and it may raise like any other call. -/

namespace somerc

/-- The tolerance `EPS` of `detail::somerc`. -/
def EPS : ℝ := 1e-10

/-- The iteration cap `NITER` of `detail::somerc`. -/
def NITER : Nat := 6

/-- The derived constants `par_somerc<T>`. -/
structure par_somerc where
  K : ℝ
  c : ℝ
  hlf_e : ℝ
  kR : ℝ
  cosp0 : ℝ
  sinp0 : ℝ

/-- The members of `base_somerc_ellipsoid`. -/
structure base_somerc_ellipsoid where
  m_par : pj_consts
  m_proj_parm : par_somerc

/-- Lines 98-101 of `fwd`: the conformal latitude `phip` of the geodetic latitude `lp_lat`. -/
def base_somerc_ellipsoid.fwd_phip (P : base_somerc_ellipsoid) (lp_lat : ℝ) : ℝ :=
  let sp := P.m_par.e * Real.sin lp_lat
  2 * Real.arctan (Real.exp (P.m_proj_parm.c * (
      Real.log (Real.tan (fourth_pi + 0.5 * lp_lat)) -
        P.m_proj_parm.hlf_e * Real.log ((1 + sp) / (1 - sp)))
      + P.m_proj_parm.K)) - half_pi

/-- The member `base_somerc_ellipsoid::fwd`; the result is `(xy_x, xy_y)`. -/
def base_somerc_ellipsoid.fwd (aasin : ℝ → Except Int ℝ) (P : base_somerc_ellipsoid)
    (lp_lon lp_lat : ℝ) : Except Int (ℝ × ℝ) :=
  let sp := P.m_par.e * Real.sin lp_lat
  let phip := 2 * Real.arctan (Real.exp (P.m_proj_parm.c * (
      Real.log (Real.tan (fourth_pi + 0.5 * lp_lat)) -
        P.m_proj_parm.hlf_e * Real.log ((1 + sp) / (1 - sp)))
      + P.m_proj_parm.K)) - half_pi
  let lamp := P.m_proj_parm.c * lp_lon
  let cp := Real.cos phip
  match aasin (P.m_proj_parm.cosp0 * Real.sin phip - P.m_proj_parm.sinp0 * cp * Real.cos lamp) with
  | Except.error code => Except.error code
  | Except.ok phipp =>
    match aasin (cp * Real.sin lamp / Real.cos phipp) with
    | Except.error code => Except.error code
    | Except.ok lampp =>
      Except.ok (P.m_proj_parm.kR * lampp,
        P.m_proj_parm.kR * Real.log (Real.tan (fourth_pi + 0.5 * phipp)))

/-- Lines 126-129 of `inv`: the correction `delp` computed by one pass of the loop body
from the current `phip`. -/
@[reducible]
def base_somerc_ellipsoid.delp (P : base_somerc_ellipsoid) (con phip : ℝ) : ℝ :=
  let esp := P.m_par.e * Real.sin phip
  (con + Real.log (Real.tan (fourth_pi + 0.5 * phip)) - P.m_proj_parm.hlf_e *
      Real.log ((1 + esp) / (1 - esp))) *
    (1 - esp * esp) * Real.cos phip * P.m_par.rone_es

/-- Lines 125-139 of `inv`: the loop `for (i = NITER; i; --i)` entered with counter `i`
and estimate `phip`, followed by the test `if (i)`; the result is the final `phip`. -/
def base_somerc_ellipsoid.inv_loop (P : base_somerc_ellipsoid) (con : ℝ) : Nat → ℝ → Except Int ℝ
  | 0, _ => Except.error (-20)
  | i + 1, phip =>
    let delp := P.delp con phip
    let phip := phip - delp
    if fabs delp < EPS then Except.ok phip
    else base_somerc_ellipsoid.inv_loop P con i phip

/-- The member `base_somerc_ellipsoid::inv`; the result is `(lp_lon, lp_lat)`. -/
@[reducible]
def base_somerc_ellipsoid.inv (aasin : ℝ → Except Int ℝ) (P : base_somerc_ellipsoid)
    (xy_x xy_y : ℝ) : Except Int (ℝ × ℝ) :=
  let phipp := 2 * (Real.arctan (Real.exp (xy_y / P.m_proj_parm.kR)) - fourth_pi)
  let lampp := xy_x / P.m_proj_parm.kR
  let cp := Real.cos phipp
  match aasin (P.m_proj_parm.cosp0 * Real.sin phipp + P.m_proj_parm.sinp0 * cp * Real.cos lampp) with
  | Except.error code => Except.error code
  | Except.ok phip =>
    match aasin (cp * Real.sin lampp / Real.cos phip) with
    | Except.error code => Except.error code
    | Except.ok lamp =>
      let con := (P.m_proj_parm.K - Real.log (Real.tan (fourth_pi + 0.5 * phip))) / P.m_proj_parm.c
      match P.inv_loop con NITER phip with
      | Except.error code => Except.error code
      | Except.ok phip => Except.ok (lamp / P.m_proj_parm.c, phip)

/-- The routine `setup_somerc`: the derived constants (the parameter block is only read). -/
def setup_somerc (aasin : ℝ → Except Int ℝ) (par : pj_consts) : Except Int par_somerc :=
  let hlf_e := 0.5 * par.e
  let cp := Real.cos par.phi0
  let cp := cp * cp
  let c := Real.sqrt (1 + par.es * cp * cp * par.rone_es)
  let sp := Real.sin par.phi0
  let sinp0 := sp / c
  match aasin sinp0 with
  | Except.error code => Except.error code
  | Except.ok phip0 =>
    let cosp0 := Real.cos phip0
    let sp := sp * par.e
    let K := Real.log (Real.tan (fourth_pi + 0.5 * phip0)) - c * (
      Real.log (Real.tan (fourth_pi + 0.5 * par.phi0)) - hlf_e *
      Real.log ((1 + sp) / (1 - sp)))
    let kR := par.k0 * Real.sqrt par.one_es / (1 - sp * sp)
    Except.ok { K := K, c := c, hlf_e := hlf_e, kR := kR, cosp0 := cosp0, sinp0 := sinp0 }

/-- The constructor `somerc_ellipsoid(par)`: copies `par` and runs `setup_somerc`. -/
def somerc_ellipsoid (aasin : ℝ → Except Int ℝ) (par : pj_consts) :
    Except Int base_somerc_ellipsoid :=
  match setup_somerc aasin par with
  | Except.error code => Except.error code
  | Except.ok proj_parm => Except.ok { m_par := par, m_proj_parm := proj_parm }

end somerc

/-! ## Quadrilateralized Spherical Cube (`proj/qsc.hpp`) -/

namespace qsc

/-- The six cube faces, `enum Face`. -/
inductive Face where
  | FACE_FRONT
  | FACE_RIGHT
  | FACE_BACK
  | FACE_LEFT
  | FACE_TOP
  | FACE_BOTTOM
  deriving DecidableEq

/-- The derived constants `par_qsc<T>`. -/
structure par_qsc where
  face : Face
  a_squared : ℝ
  b : ℝ
  one_minus_f : ℝ
  one_minus_f_squared : ℝ

/-- The tolerance `EPS10` of `detail::qsc`. -/
def EPS10 : ℝ := 1e-10

/-- The four areas on a cube face, `enum Area`. -/
inductive Area where
  | AREA_0
  | AREA_1
  | AREA_2
  | AREA_3
  deriving DecidableEq

/-- The helper `qsc_fwd_equat_face_theta`; the result is `(theta, *area)`. -/
def qsc_fwd_equat_face_theta (phi y x : ℝ) : ℝ × Area :=
  if phi < EPS10 then (0.0, Area.AREA_0)
  else
    let theta := atan2 y x
    if fabs theta ≤ fourth_pi then (theta, Area.AREA_0)
    else if theta > fourth_pi ∧ theta ≤ half_pi + fourth_pi then (theta - half_pi, Area.AREA_1)
    else if theta > half_pi + fourth_pi ∨ theta ≤ -(half_pi + fourth_pi) then
      ((if theta ≥ 0.0 then theta - pi else theta + pi), Area.AREA_2)
    else (theta + half_pi, Area.AREA_3)

/-- The helper `qsc_shift_lon_origin`. -/
def qsc_shift_lon_origin (lon offset : ℝ) : ℝ :=
  let slon := lon + offset
  if slon < -pi then slon + two_pi
  else if slon > pi then slon - two_pi
  else slon

/-- The members of `base_qsc_ellipsoid`. -/
structure base_qsc_ellipsoid where
  m_par : pj_consts
  m_proj_parm : par_qsc

/-- Lines 211-218 of `fwd`: the shift from the ellipsoid to the sphere. -/
def base_qsc_ellipsoid.fwd_lat (P : base_qsc_ellipsoid) (lp_lat : ℝ) : ℝ :=
  if P.m_par.es ≠ 0.0 then Real.arctan (P.m_proj_parm.one_minus_f_squared * Real.tan lp_lat)
  else lp_lat

/-- Lines 225-293 of `fwd`: the angles and the area on the face, as `(theta, phi, area)`. -/
def base_qsc_ellipsoid.fwd_theta_phi (P : base_qsc_ellipsoid) (lon lat : ℝ) : ℝ × ℝ × Area :=
  match P.m_proj_parm.face with
  | Face.FACE_TOP =>
    let phi := half_pi - lat
    if lon ≥ fourth_pi ∧ lon ≤ half_pi + fourth_pi then (lon - half_pi, phi, Area.AREA_0)
    else if lon > half_pi + fourth_pi ∨ lon ≤ -(half_pi + fourth_pi) then
      ((if lon > 0.0 then lon - pi else lon + pi), phi, Area.AREA_1)
    else if lon > -(half_pi + fourth_pi) ∧ lon ≤ -fourth_pi then
      (lon + half_pi, phi, Area.AREA_2)
    else (lon, phi, Area.AREA_3)
  | Face.FACE_BOTTOM =>
    let phi := half_pi + lat
    if lon ≥ fourth_pi ∧ lon ≤ half_pi + fourth_pi then (-lon + half_pi, phi, Area.AREA_0)
    else if lon < fourth_pi ∧ lon ≥ -fourth_pi then (-lon, phi, Area.AREA_1)
    else if lon < -fourth_pi ∧ lon ≥ -(half_pi + fourth_pi) then
      (-lon - half_pi, phi, Area.AREA_2)
    else ((if lon > 0.0 then -lon + pi else -lon - pi), phi, Area.AREA_3)
  | Face.FACE_FRONT =>
    let q := Real.cos lat * Real.cos lon
    let r := Real.cos lat * Real.sin lon
    let s := Real.sin lat
    let phi := Real.arccos q
    let ta := qsc_fwd_equat_face_theta phi s r
    (ta.1, phi, ta.2)
  | Face.FACE_RIGHT =>
    let lon := qsc_shift_lon_origin lon half_pi
    let q := Real.cos lat * Real.cos lon
    let r := Real.cos lat * Real.sin lon
    let s := Real.sin lat
    let phi := Real.arccos r
    let ta := qsc_fwd_equat_face_theta phi s (-q)
    (ta.1, phi, ta.2)
  | Face.FACE_BACK =>
    let lon := qsc_shift_lon_origin lon pi
    let q := Real.cos lat * Real.cos lon
    let r := Real.cos lat * Real.sin lon
    let s := Real.sin lat
    let phi := Real.arccos (-q)
    let ta := qsc_fwd_equat_face_theta phi s (-r)
    (ta.1, phi, ta.2)
  | Face.FACE_LEFT =>
    let lon := qsc_shift_lon_origin lon (-half_pi)
    let q := Real.cos lat * Real.cos lon
    let r := Real.cos lat * Real.sin lon
    let s := Real.sin lat
    let phi := Real.arccos (-r)
    let ta := qsc_fwd_equat_face_theta phi s q
    (ta.1, phi, ta.2)

/-- Line 298 of `fwd`: the angle `mu` on the area of definition. -/
def fwd_mu (theta : ℝ) : ℝ :=
  Real.arctan ((12.0 / pi) * (theta + Real.arccos (Real.sin theta * Real.cos fourth_pi) - half_pi))

/-- Lines 303-310 of `fwd`: the rotation of `mu` into the real area. -/
def fwd_rotate_mu (area : Area) (mu : ℝ) : ℝ :=
  match area with
  | Area.AREA_0 => mu
  | Area.AREA_1 => mu + half_pi
  | Area.AREA_2 => mu + pi
  | Area.AREA_3 => mu + (half_pi + pi)

/-- The member `base_qsc_ellipsoid::fwd`; the result is `(xy_x, xy_y)`. -/
def base_qsc_ellipsoid.fwd (P : base_qsc_ellipsoid) (lp_lon lp_lat : ℝ) : Except Int (ℝ × ℝ) :=
  let lat := P.fwd_lat lp_lat
  let lon := lp_lon
  let tpa := P.fwd_theta_phi lon lat
  let theta := tpa.1
  let phi := tpa.2.1
  let area := tpa.2.2
  let mu := fwd_mu theta
  let t := Real.sqrt ((1.0 - Real.cos phi) / (Real.cos mu * Real.cos mu) /
    (1.0 - Real.cos (Real.arctan (1.0 / Real.cos theta))))
  let mu := fwd_rotate_mu area mu
  Except.ok (t * Real.cos mu, t * Real.sin mu)

/-- Lines 333-346 of `inv`: the area and the angle `mu` rotated back, as `(mu, area)`. -/
def inv_mu_area (xy_x xy_y : ℝ) : ℝ × Area :=
  let mu := atan2 xy_y xy_x
  if xy_x ≥ 0.0 ∧ xy_x ≥ fabs xy_y then (mu, Area.AREA_0)
  else if xy_y ≥ 0.0 ∧ xy_y ≥ fabs xy_x then (mu - half_pi, Area.AREA_1)
  else if xy_x < 0.0 ∧ -xy_x ≥ fabs xy_y then
    ((if mu < 0.0 then mu + pi else mu - pi), Area.AREA_2)
  else (mu + half_pi, Area.AREA_3)

/-- Lines 353-355 of `inv`: the angle `theta` recovered from `mu`. -/
def inv_theta (mu : ℝ) : ℝ :=
  let t := (pi / 12.0) * Real.tan mu
  let tantheta := Real.sin t / (Real.cos t - (1.0 / Real.sqrt 2.0))
  Real.arctan tantheta

/-- Lines 356-363 of `inv`: the clamped `cosphi`. -/
@[reducible]
def inv_cosphi (mu nu theta : ℝ) : ℝ :=
  let cosmu := Real.cos mu
  let tannu := Real.tan nu
  let cosphi := 1.0 - cosmu * cosmu * tannu * tannu *
    (1.0 - Real.cos (Real.arctan (1.0 / Real.cos theta)))
  if cosphi < -1.0 then -1.0
  else if cosphi > 1.0 then 1.0
  else cosphi

/-- Lines 369-445 of `inv`: the real area on the cube face, as `(lp_lon, lp_lat)`. -/
def base_qsc_ellipsoid.inv_face (P : base_qsc_ellipsoid) (area : Area) (theta cosphi : ℝ) : ℝ × ℝ :=
  match P.m_proj_parm.face with
  | Face.FACE_TOP =>
    let phi := Real.arccos cosphi
    let lp_lat := half_pi - phi
    match area with
    | Area.AREA_0 => (theta + half_pi, lp_lat)
    | Area.AREA_1 => ((if theta < 0.0 then theta + pi else theta - pi), lp_lat)
    | Area.AREA_2 => (theta - half_pi, lp_lat)
    | Area.AREA_3 => (theta, lp_lat)
  | Face.FACE_BOTTOM =>
    let phi := Real.arccos cosphi
    let lp_lat := phi - half_pi
    match area with
    | Area.AREA_0 => (-theta + half_pi, lp_lat)
    | Area.AREA_1 => (-theta, lp_lat)
    | Area.AREA_2 => (-theta - half_pi, lp_lat)
    | Area.AREA_3 => ((if theta < 0.0 then -theta - pi else -theta + pi), lp_lat)
  | face =>
    let q := cosphi
    let t := q * q
    let s := if t ≥ 1.0 then 0.0 else Real.sqrt (1.0 - t) * Real.sin theta
    let t := t + s * s
    let r := if t ≥ 1.0 then 0.0 else Real.sqrt (1.0 - t)
    let rs : ℝ × ℝ :=
      match area with
      | Area.AREA_0 => (r, s)
      | Area.AREA_1 => (-s, r)
      | Area.AREA_2 => (-r, -s)
      | Area.AREA_3 => (s, -r)
    let r := rs.1
    let s := rs.2
    let qr : ℝ × ℝ :=
      if face = Face.FACE_RIGHT then (-r, q)
      else if face = Face.FACE_BACK then (-q, -r)
      else if face = Face.FACE_LEFT then (r, -q)
      else (q, r)
    let q := qr.1
    let r := qr.2
    let lp_lat := Real.arccos (-s) - half_pi
    let lp_lon := atan2 r q
    let lp_lon :=
      if face = Face.FACE_RIGHT then qsc_shift_lon_origin lp_lon (-half_pi)
      else if face = Face.FACE_BACK then qsc_shift_lon_origin lp_lon (-pi)
      else if face = Face.FACE_LEFT then qsc_shift_lon_origin lp_lon half_pi
      else lp_lon
    (lp_lon, lp_lat)

/-- Lines 447-459 of `inv`: the shift from the sphere to the ellipsoid. -/
def base_qsc_ellipsoid.inv_lat (P : base_qsc_ellipsoid) (lp_lat : ℝ) : ℝ :=
  if P.m_par.es ≠ 0.0 then
    let invert_sign := decide (lp_lat < 0.0)
    let tanphi := Real.tan lp_lat
    let xa := P.m_proj_parm.b / Real.sqrt (tanphi * tanphi + P.m_proj_parm.one_minus_f_squared)
    let lp_lat := Real.arctan
      (Real.sqrt (P.m_par.a * P.m_par.a - xa * xa) / (P.m_proj_parm.one_minus_f * xa))
    if invert_sign then -lp_lat else lp_lat
  else lp_lat

/-- The member `base_qsc_ellipsoid::inv`; the result is `(lp_lon, lp_lat)`. -/
def base_qsc_ellipsoid.inv (P : base_qsc_ellipsoid) (xy_x xy_y : ℝ) : Except Int (ℝ × ℝ) :=
  let nu := Real.arctan (Real.sqrt (xy_x * xy_x + xy_y * xy_y))
  let ma := inv_mu_area xy_x xy_y
  let mu := ma.1
  let area := ma.2
  let theta := inv_theta mu
  let cosphi := inv_cosphi mu nu theta
  let ll := P.inv_face area theta cosphi
  Except.ok (ll.1, P.inv_lat ll.2)

/-- Lines 476-487 of `setup_qsc`: the cube face chosen from the centre of projection. -/
def setup_qsc_face (phi0 lam0 : ℝ) : Face :=
  if phi0 ≥ half_pi - fourth_pi / 2.0 then Face.FACE_TOP
  else if phi0 ≤ -(half_pi - fourth_pi / 2.0) then Face.FACE_BOTTOM
  else if fabs lam0 ≤ fourth_pi then Face.FACE_FRONT
  else if fabs lam0 ≤ half_pi + fourth_pi then
    (if lam0 > 0.0 then Face.FACE_RIGHT else Face.FACE_LEFT)
  else Face.FACE_BACK

/-- The routine `setup_qsc`: the derived constants (the parameter block is only read).
Members of `proj_parm` that the source does not assign keep the value they had. -/
def setup_qsc (par : pj_consts) (proj_parm : par_qsc) : par_qsc :=
  let proj_parm := { proj_parm with face := setup_qsc_face par.phi0 par.lam0 }
  if par.es ≠ 0.0 then
    let proj_parm := { proj_parm with a_squared := par.a * par.a }
    let proj_parm := { proj_parm with b := par.a * Real.sqrt (1.0 - par.es) }
    let proj_parm := { proj_parm with one_minus_f := 1.0 - (par.a - proj_parm.b) / par.a }
    { proj_parm with one_minus_f_squared := proj_parm.one_minus_f * proj_parm.one_minus_f }
  else proj_parm

/-- The constructor `qsc_ellipsoid(par)`: copies `par` and runs `setup_qsc`;
`proj_parm0` stands for the indeterminate initial content of `m_proj_parm`. -/
def qsc_ellipsoid (par : pj_consts) (proj_parm0 : par_qsc) : base_qsc_ellipsoid :=
  { m_par := par, m_proj_parm := setup_qsc par proj_parm0 }

end qsc

/-! ## Dispatch by name

The registry class `base_factory` lives in headers outside the embedded sources; only
the calls `factory.add_to_factory(name, entry)` of the `*_init` functions are. -/

namespace factory

/-- Modelled from the spec: the Factory Registry `base_factory`, whose header is not among
the sources: "a mapping from projection name (string) to a constructor callback". The
entries are kept in registration order, the latest first. -/
structure Registry (Entry : Type) where
  entries : List (String × Entry)

/-- Modelled from the spec: the registry before any registration (the constructor of
`base_factory`, not among the sources). -/
@[reducible]
def Registry.empty {Entry : Type} : Registry Entry := { entries := [] }

/-- Modelled from the spec: the member `add_to_factory` of `base_factory`, not among the
sources: "`register(name, constructor)` inserts into the name→constructor mapping;
duplicate names overwrite silently". -/
@[reducible]
def Registry.add_to_factory {Entry : Type} (reg : Registry Entry) (name : String)
    (entry : Entry) : Registry Entry :=
  { entries := (name, entry) :: reg.entries }

/-- Modelled from the spec: the outcome "not found" of a lookup, a configuration error. -/
inductive FactoryError where
  | not_found
  deriving DecidableEq

/-- Modelled from the spec: the lookup of `base_factory`, not among the sources: "exact
string match, case-sensitive, no aliasing layer"; the latest registration wins. -/
def Registry.find {Entry : Type} (reg : Registry Entry) (name : String) : Option Entry :=
  match reg.entries.find? (fun e => e.1 == name) with
  | some e => some e.2
  | none => none

/-- Modelled from the spec: the member `create_new` of `base_factory`, not among the
sources: "`create(name, parameter_block) → projection_instance` fails with a "not found"
condition for an unregistered name"; `create_new entry par` is the virtual call
`entry->create_new(par)`. -/
def Registry.create {Entry Instance : Type} (create_new : Entry → pj_consts → Instance)
    (reg : Registry Entry) (name : String) (par : pj_consts) :
    Except FactoryError Instance :=
  match reg.find name with
  | none => Except.error FactoryError.not_found
  | some entry => Except.ok (create_new entry par)

/-- The factory entry classes `laea_entry`, `ortho_entry`, `qsc_entry` and `somerc_entry`
of the four `proj` headers; a value stands for an object of the class. -/
inductive Entry where
  | laea_entry
  | ortho_entry
  | qsc_entry
  | somerc_entry
  deriving DecidableEq

/-- The function `laea_init` of `proj/laea.hpp`. -/
def laea_init (factory : Registry Entry) : Registry Entry :=
  factory.add_to_factory "laea" Entry.laea_entry

/-- The function `ortho_init` of `proj/ortho.hpp`. -/
def ortho_init (factory : Registry Entry) : Registry Entry :=
  factory.add_to_factory "ortho" Entry.ortho_entry

/-- The function `qsc_init` of `proj/qsc.hpp`. -/
def qsc_init (factory : Registry Entry) : Registry Entry :=
  factory.add_to_factory "qsc" Entry.qsc_entry

/-- The function `somerc_init` of `proj/somerc.hpp`. -/
def somerc_init (factory : Registry Entry) : Registry Entry :=
  factory.add_to_factory "somerc" Entry.somerc_entry

end factory

/-! ## Shared lemmas -/

theorem ortho_EPS10_pos : 0 < ortho.EPS10 := by
  unfold ortho.EPS10; norm_num

theorem laea_EPS10_pos : 0 < laea.EPS10 := by
  unfold laea.EPS10; norm_num

/-! ## Orthographic: domain of `fwd` and `inv` -/

/-- C1: in the modes EQUIT and OBLIQ the orthographic `fwd` raises `-20` exactly when the
visibility dot product `d` is below `-EPS10` (with `EPS10 = 1e-10`), and for every
`d ≥ -EPS10` it returns `x = cos lat * sin lon` with the mode's `y`. -/
theorem ortho_fwd_visibility (P : ortho.base_ortho_spheroid) (lp_lon lp_lat : ℝ) :
    ortho.EPS10 = 1 / 10 ^ 10 ∧
    (P.m_proj_parm.mode = ortho.Mode.EQUIT →
      (P.fwd lp_lon lp_lat = Except.error (-20) ↔
        Real.cos lp_lat * Real.cos lp_lon < -ortho.EPS10) ∧
      (-ortho.EPS10 ≤ Real.cos lp_lat * Real.cos lp_lon →
        P.fwd lp_lon lp_lat =
          Except.ok (Real.cos lp_lat * Real.sin lp_lon, Real.sin lp_lat))) ∧
    (P.m_proj_parm.mode = ortho.Mode.OBLIQ →
      (P.fwd lp_lon lp_lat = Except.error (-20) ↔
        P.m_proj_parm.sinph0 * Real.sin lp_lat +
          P.m_proj_parm.cosph0 * Real.cos lp_lat * Real.cos lp_lon < -ortho.EPS10) ∧
      (-ortho.EPS10 ≤ P.m_proj_parm.sinph0 * Real.sin lp_lat +
          P.m_proj_parm.cosph0 * Real.cos lp_lat * Real.cos lp_lon →
        P.fwd lp_lon lp_lat =
          Except.ok (Real.cos lp_lat * Real.sin lp_lon,
            P.m_proj_parm.cosph0 * Real.sin lp_lat -
              P.m_proj_parm.sinph0 * Real.cos lp_lat * Real.cos lp_lon))) := by
  refine ⟨by unfold ortho.EPS10; norm_num, ?_, ?_⟩
  · intro hm
    constructor
    · simp only [ortho.base_ortho_spheroid.fwd, hm]
      split_ifs with h <;> simp [h]
    · intro hd
      simp only [ortho.base_ortho_spheroid.fwd, hm]
      rw [if_neg (not_lt.mpr hd)]
  · intro hm
    constructor
    · simp only [ortho.base_ortho_spheroid.fwd, hm]
      split_ifs with h <;> simp [h]
    · intro hd
      simp only [ortho.base_ortho_spheroid.fwd, hm]
      rw [if_neg (not_lt.mpr hd)]

/-- Witness for C1: the equatorial instance at `(lon, lat) = (0, 0)`. -/
theorem ortho_fwd_visibility_witness :
    (ortho.base_ortho_spheroid.fwd ⟨pj_consts.init, ⟨0, 0, ortho.Mode.EQUIT⟩⟩ 0 0 =
        Except.error (-20) ↔
        Real.cos 0 * Real.cos 0 < -ortho.EPS10) ∧
      (-ortho.EPS10 ≤ Real.cos 0 * Real.cos 0 →
        ortho.base_ortho_spheroid.fwd ⟨pj_consts.init, ⟨0, 0, ortho.Mode.EQUIT⟩⟩ 0 0 =
          Except.ok (Real.cos 0 * Real.sin 0, Real.sin 0)) :=
  (ortho_fwd_visibility ⟨pj_consts.init, ⟨0, 0, ortho.Mode.EQUIT⟩⟩ 0 0).2.1 rfl

/-- C2: the orthographic `inv` raises `-20` exactly when `hypot(x, y) - 1 > EPS10`; for
`1 < hypot(x, y) ≤ 1 + EPS10` it computes with `sinc = 1` (and `cosc = 0`); for
`hypot(x, y) ≤ 1` it computes with `sinc = hypot(x, y)`. -/
theorem ortho_inv_domain (P : ortho.base_ortho_spheroid) (xy_x xy_y : ℝ) :
    (P.inv xy_x xy_y = Except.error (-20) ↔ hypot xy_x xy_y - 1 > ortho.EPS10) ∧
    ((∃ c, P.inv xy_x xy_y = Except.error c) ↔ hypot xy_x xy_y - 1 > ortho.EPS10) ∧
    (1 < hypot xy_x xy_y → hypot xy_x xy_y ≤ 1 + ortho.EPS10 →
      ortho.inv_sinc (hypot xy_x xy_y) = Except.ok 1 ∧
      ortho.inv_cosc 1 = 0 ∧
      P.inv xy_x xy_y = Except.ok (ortho.inv_tail P xy_x xy_y (hypot xy_x xy_y) 1)) ∧
    (hypot xy_x xy_y ≤ 1 →
      ortho.inv_sinc (hypot xy_x xy_y) = Except.ok (hypot xy_x xy_y) ∧
      P.inv xy_x xy_y =
        Except.ok (ortho.inv_tail P xy_x xy_y (hypot xy_x xy_y) (hypot xy_x xy_y))) := by
  have hpos := ortho_EPS10_pos
  refine ⟨?_, ?_, ?_, ?_⟩
  · simp only [ortho.base_ortho_spheroid.inv, ortho.inv_sinc]
    by_cases h1 : hypot xy_x xy_y > 1
    · by_cases h2 : hypot xy_x xy_y - 1 > ortho.EPS10
      · simp [h1, h2]
      · simp [h1, h2]
    · have h2 : ¬ hypot xy_x xy_y - 1 > ortho.EPS10 := by
        intro h; apply h1; linarith
      simp [h1, h2]
  · simp only [ortho.base_ortho_spheroid.inv, ortho.inv_sinc]
    by_cases h1 : hypot xy_x xy_y > 1
    · by_cases h2 : hypot xy_x xy_y - 1 > ortho.EPS10
      · simp [h1, h2]
      · simp [h1, h2]
    · have h2 : ¬ hypot xy_x xy_y - 1 > ortho.EPS10 := by
        intro h; apply h1; linarith
      simp [h1, h2]
  · intro h1 h2
    have h3 : ¬ hypot xy_x xy_y - 1 > ortho.EPS10 := by
      intro h; linarith
    refine ⟨?_, ?_, ?_⟩
    · simp [ortho.inv_sinc, h1, h3]
    · simp [ortho.inv_cosc]
    · simp [ortho.base_ortho_spheroid.inv, ortho.inv_sinc, h1, h3]
  · intro h1
    have h3 : ¬ hypot xy_x xy_y > 1 := not_lt.mpr h1
    refine ⟨?_, ?_⟩
    · simp [ortho.inv_sinc, h3]
    · simp [ortho.base_ortho_spheroid.inv, ortho.inv_sinc, h3]

/-- Witness for C2: the origin `(0, 0)`, where `hypot = 0 ≤ 1`. -/
theorem ortho_inv_domain_witness :
    ortho.inv_sinc (hypot 0 0) = Except.ok (hypot 0 0) ∧
      ortho.base_ortho_spheroid.inv ⟨pj_consts.init, ⟨0, 0, ortho.Mode.EQUIT⟩⟩ 0 0 =
        Except.ok (ortho.inv_tail ⟨pj_consts.init, ⟨0, 0, ortho.Mode.EQUIT⟩⟩ 0 0
          (hypot 0 0) (hypot 0 0)) :=
  (ortho_inv_domain ⟨pj_consts.init, ⟨0, 0, ortho.Mode.EQUIT⟩⟩ 0 0).2.2.2
    (by simp [hypot])

/-! ## Mode and face selection -/

theorem half_pi_gt_one : 1 < half_pi := by
  unfold half_pi
  have := Real.pi_gt_three
  linarith

/-- C3: the spherical LAEA `fwd` raises `-20` exactly when (a) the mode is EQUIT and
`1 + cos lat * cos lon ≤ EPS10`, or (b) the mode is OBLIQ and
`1 + sinb1 * sin lat + cosb1 * cos lat * cos lon ≤ EPS10`, or (c) the mode is polar and
`|lat + phi0| < EPS10`; in every other case it returns a result. -/
theorem laea_s_fwd_domain {Apa : Type} (P : laea.base_laea_spheroid Apa) (lp_lon lp_lat : ℝ) :
    (P.fwd lp_lon lp_lat = Except.error (-20) ↔
      (P.m_proj_parm.mode = laea.Mode.EQUIT ∧
        1 + Real.cos lp_lat * Real.cos lp_lon ≤ laea.EPS10) ∨
      (P.m_proj_parm.mode = laea.Mode.OBLIQ ∧
        1 + P.m_proj_parm.sinb1 * Real.sin lp_lat +
          P.m_proj_parm.cosb1 * Real.cos lp_lat * Real.cos lp_lon ≤ laea.EPS10) ∨
      ((P.m_proj_parm.mode = laea.Mode.N_POLE ∨ P.m_proj_parm.mode = laea.Mode.S_POLE) ∧
        |lp_lat + P.m_par.phi0| < laea.EPS10)) ∧
    ((∃ r, P.fwd lp_lon lp_lat = Except.ok r) ↔
      ¬ ((P.m_proj_parm.mode = laea.Mode.EQUIT ∧
        1 + Real.cos lp_lat * Real.cos lp_lon ≤ laea.EPS10) ∨
      (P.m_proj_parm.mode = laea.Mode.OBLIQ ∧
        1 + P.m_proj_parm.sinb1 * Real.sin lp_lat +
          P.m_proj_parm.cosb1 * Real.cos lp_lat * Real.cos lp_lon ≤ laea.EPS10) ∨
      ((P.m_proj_parm.mode = laea.Mode.N_POLE ∨ P.m_proj_parm.mode = laea.Mode.S_POLE) ∧
        |lp_lat + P.m_par.phi0| < laea.EPS10))) ∧
    laea.EPS10 = 1 / 10 ^ 10 := by
  refine ⟨?_, ?_, by unfold laea.EPS10; norm_num⟩
  · cases hm : P.m_proj_parm.mode <;>
      simp only [laea.base_laea_spheroid.fwd, hm, fabs] <;>
      split_ifs with h <;> simp [h]
  · cases hm : P.m_proj_parm.mode <;>
      simp only [laea.base_laea_spheroid.fwd, hm, fabs] <;>
      split_ifs with h <;> simp [h]

/-- C4: the ellipsoidal LAEA `fwd` raises `-20` exactly when `|b| < EPS10`, where `b` is
`1 + sinb1*sinb + cosb1*cosb*cos lon` in OBLIQ, `1 + cosb*cos lon` in EQUIT, `pi/2 + lat`
in N_POLE and `lat - pi/2` in S_POLE, with `sinb = qsfn(sin lat)/qp` and
`cosb = sqrt(1 - sinb^2)`; for `|b| ≥ EPS10` it returns a result. -/
theorem laea_e_fwd_domain {Apa : Type} (pj_qsfn : ℝ → ℝ → ℝ → ℝ)
    (P : laea.base_laea_ellipsoid Apa) (lp_lon lp_lat : ℝ) :
    (P.m_proj_parm.mode = laea.Mode.OBLIQ →
      (P.fwd_b pj_qsfn lp_lon lp_lat).2.2.1 =
        1 + P.m_proj_parm.sinb1 *
            (pj_qsfn (Real.sin lp_lat) P.m_par.e P.m_par.one_es / P.m_proj_parm.qp) +
          P.m_proj_parm.cosb1 *
            Real.sqrt (1 -
              (pj_qsfn (Real.sin lp_lat) P.m_par.e P.m_par.one_es / P.m_proj_parm.qp) ^ 2) *
            Real.cos lp_lon) ∧
    (P.m_proj_parm.mode = laea.Mode.EQUIT →
      (P.fwd_b pj_qsfn lp_lon lp_lat).2.2.1 =
        1 + Real.sqrt (1 -
              (pj_qsfn (Real.sin lp_lat) P.m_par.e P.m_par.one_es / P.m_proj_parm.qp) ^ 2) *
            Real.cos lp_lon) ∧
    (P.m_proj_parm.mode = laea.Mode.N_POLE →
      (P.fwd_b pj_qsfn lp_lon lp_lat).2.2.1 = Real.pi / 2 + lp_lat) ∧
    (P.m_proj_parm.mode = laea.Mode.S_POLE →
      (P.fwd_b pj_qsfn lp_lon lp_lat).2.2.1 = lp_lat - Real.pi / 2) ∧
    (P.fwd pj_qsfn lp_lon lp_lat = Except.error (-20) ↔
      |(P.fwd_b pj_qsfn lp_lon lp_lat).2.2.1| < laea.EPS10) ∧
    (laea.EPS10 ≤ |(P.fwd_b pj_qsfn lp_lon lp_lat).2.2.1| ↔
      ∃ r, P.fwd pj_qsfn lp_lon lp_lat = Except.ok r) := by
  refine ⟨?_, ?_, ?_, ?_, ?_, ?_⟩
  · intro hm
    simp [laea.base_laea_ellipsoid.fwd_b, hm, sq]
  · intro hm
    simp [laea.base_laea_ellipsoid.fwd_b, hm, sq]
  · intro hm
    simp [laea.base_laea_ellipsoid.fwd_b, hm, half_pi]
  · intro hm
    simp [laea.base_laea_ellipsoid.fwd_b, hm, half_pi]
  · simp only [laea.base_laea_ellipsoid.fwd, fabs]
    by_cases h : |(P.fwd_b pj_qsfn lp_lon lp_lat).2.2.1| < laea.EPS10
    · simp [h]
    · simp only [h, if_false, iff_false]
      cases hm : P.m_proj_parm.mode <;> simp <;> split_ifs <;> simp
  · simp only [laea.base_laea_ellipsoid.fwd, fabs]
    by_cases h : |(P.fwd_b pj_qsfn lp_lon lp_lat).2.2.1| < laea.EPS10
    · simp [h]
    · simp only [h, if_false]
      have h2 := not_lt.mp h
      simp only [h2, true_iff]
      cases hm : P.m_proj_parm.mode <;> simp only [] <;> (try split_ifs) <;> exact ⟨_, rfl⟩

/-- Witness for C4: a north-polar instance at `(lon, lat) = (0, 0)`, where `b = pi/2`. -/
theorem laea_e_fwd_domain_witness :
    (laea.base_laea_ellipsoid.fwd_b (fun s _ _ => s + s)
      (⟨pj_consts.init, ⟨0, 0, 0, 0, 0, 2, 1, 0, (), laea.Mode.N_POLE⟩⟩ :
        laea.base_laea_ellipsoid Unit) 0 0).2.2.1 = Real.pi / 2 + 0 :=
  (laea_e_fwd_domain (fun s _ _ => s + s)
    (⟨pj_consts.init, ⟨0, 0, 0, 0, 0, 2, 1, 0, (), laea.Mode.N_POLE⟩⟩ :
      laea.base_laea_ellipsoid Unit) 0 0).2.2.1 rfl

/-- C6: for every `phi0` and independently of `es`, `setup_laea` selects N_POLE when
`| |phi0| - pi/2 | < EPS10` and `phi0 ≥ 0`, S_POLE when `| |phi0| - pi/2 | < EPS10` and
`phi0 < 0`, EQUIT when `|phi0| < EPS10`, and OBLIQ for every other `phi0`. -/
theorem laea_setup_mode {Apa : Type} (pj_qsfn : ℝ → ℝ → ℝ → ℝ) (pj_authset : ℝ → Apa)
    (par : pj_consts) (proj_parm : laea.par_laea Apa) :
    (|(|par.phi0| - Real.pi / 2)| < laea.EPS10 → 0 ≤ par.phi0 →
      (laea.setup_laea pj_qsfn pj_authset par proj_parm).2.mode = laea.Mode.N_POLE) ∧
    (|(|par.phi0| - Real.pi / 2)| < laea.EPS10 → par.phi0 < 0 →
      (laea.setup_laea pj_qsfn pj_authset par proj_parm).2.mode = laea.Mode.S_POLE) ∧
    (|par.phi0| < laea.EPS10 →
      (laea.setup_laea pj_qsfn pj_authset par proj_parm).2.mode = laea.Mode.EQUIT) ∧
    (¬ |(|par.phi0| - Real.pi / 2)| < laea.EPS10 → ¬ |par.phi0| < laea.EPS10 →
      (laea.setup_laea pj_qsfn pj_authset par proj_parm).2.mode = laea.Mode.OBLIQ) := by
  have hmode : (laea.setup_laea pj_qsfn pj_authset par proj_parm).2.mode =
      laea.setup_laea_mode par.phi0 := by
    simp only [laea.setup_laea]
    split_ifs
    · cases laea.setup_laea_mode par.phi0 <;> rfl
    · rfl
    · rfl
  have hpos := laea_EPS10_pos
  have hpi := half_pi_gt_one
  have heps : laea.EPS10 < 1 / 2 := by unfold laea.EPS10; norm_num
  rw [hmode]
  unfold laea.setup_laea_mode fabs half_pi
  unfold half_pi at hpi
  refine ⟨?_, ?_, ?_, ?_⟩
  · intro h1 h2
    simp [h1, not_lt.mpr h2]
  · intro h1 h2
    simp [h1, h2]
  · intro h1
    have h2 : ¬ |(|par.phi0| - Real.pi / 2)| < laea.EPS10 := by
      intro h
      rw [abs_lt] at h
      linarith [h.1]
    simp [h2, h1]
  · intro h1 h2
    simp [h1, h2]

/-- Witness for C6: `phi0 = 0` is equatorial. -/
theorem laea_setup_mode_witness :
    (laea.setup_laea (fun s _ _ => s + s) (fun _ => ()) pj_consts.init
      ⟨0, 0, 0, 0, 0, 0, 0, 0, (), laea.Mode.N_POLE⟩).2.mode = laea.Mode.EQUIT :=
  (laea_setup_mode (fun s _ _ => s + s) (fun _ => ()) pj_consts.init
    ⟨0, 0, 0, 0, 0, 0, 0, 0, (), laea.Mode.N_POLE⟩).2.2.1
    (by simpa [pj_consts.init] using laea_EPS10_pos)

/-- C7, as the code has it: `setup_ortho` selects N_POLE (`phi0 ≥ 0`) or S_POLE (`phi0 < 0`)
when `| |phi0| - pi/2 | ≤ EPS10`, EQUIT when `|phi0| ≤ EPS10` (the value `|phi0| = EPS10`
included), and OBLIQ for every other `phi0`, that is when `|phi0| > EPS10` and
`| |phi0| - pi/2 | > EPS10`. -/
theorem ortho_setup_mode (par : pj_consts) (proj_parm : ortho.par_ortho) :
    (|(|par.phi0| - Real.pi / 2)| ≤ ortho.EPS10 → 0 ≤ par.phi0 →
      (ortho.setup_ortho par proj_parm).2.mode = ortho.Mode.N_POLE) ∧
    (|(|par.phi0| - Real.pi / 2)| ≤ ortho.EPS10 → par.phi0 < 0 →
      (ortho.setup_ortho par proj_parm).2.mode = ortho.Mode.S_POLE) ∧
    (|par.phi0| ≤ ortho.EPS10 →
      (ortho.setup_ortho par proj_parm).2.mode = ortho.Mode.EQUIT) ∧
    (ortho.EPS10 < |(|par.phi0| - Real.pi / 2)| → ortho.EPS10 < |par.phi0| →
      (ortho.setup_ortho par proj_parm).2.mode = ortho.Mode.OBLIQ) := by
  have hpos := ortho_EPS10_pos
  have hpi := half_pi_gt_one
  have heps : ortho.EPS10 < 1 / 2 := by unfold ortho.EPS10; norm_num
  unfold half_pi at hpi
  simp only [ortho.setup_ortho, fabs, half_pi]
  refine ⟨?_, ?_, ?_, ?_⟩
  · intro h1 h2
    simp [h1, not_lt.mpr h2]
  · intro h1 h2
    simp [h1, h2]
  · intro h1
    have h2 : ¬ |(|par.phi0| - Real.pi / 2)| ≤ ortho.EPS10 := by
      intro h
      rw [abs_le] at h
      linarith [h.1]
    simp [h2, not_lt.mpr h1]
  · intro h1 h2
    simp [not_le.mpr h1, h2]

/-- Witness for the amended C7: `phi0 = 0` is equatorial. -/
theorem ortho_setup_mode_witness :
    (ortho.setup_ortho pj_consts.init ⟨0, 0, ortho.Mode.N_POLE⟩).2.mode = ortho.Mode.EQUIT :=
  (ortho_setup_mode pj_consts.init ⟨0, 0, ortho.Mode.N_POLE⟩).2.2.1
    (by simpa [pj_consts.init] using ortho_EPS10_pos.le)

/-- C7, as stated, fails at `phi0 = EPS10`: there `|phi0| < EPS10` is false and `phi0` is far
from the poles, so the claim asks for OBLIQ, but `setup_ortho` selects EQUIT. -/
theorem ortho_setup_mode_at_EPS10 :
    |(1e-10 : ℝ)| = ortho.EPS10 ∧
    ¬ |(1e-10 : ℝ)| < ortho.EPS10 ∧
    ¬ |(|(1e-10 : ℝ)| - Real.pi / 2)| ≤ ortho.EPS10 ∧
    (ortho.setup_ortho { pj_consts.init with phi0 := 1e-10 }
      ⟨0, 0, ortho.Mode.N_POLE⟩).2.mode = ortho.Mode.EQUIT ∧
    (ortho.setup_ortho { pj_consts.init with phi0 := 1e-10 }
      ⟨0, 0, ortho.Mode.N_POLE⟩).2.mode ≠ ortho.Mode.OBLIQ := by
  have hpi := half_pi_gt_one
  unfold half_pi at hpi
  have habs : |(1e-10 : ℝ)| = 1e-10 := abs_of_pos (by norm_num)
  have hfar : ¬ |(|(1e-10 : ℝ)| - Real.pi / 2)| ≤ ortho.EPS10 := by
    rw [habs, abs_le]
    unfold ortho.EPS10
    intro h
    have := h.1
    norm_num at this
    linarith
  have hmode : (ortho.setup_ortho { pj_consts.init with phi0 := 1e-10 }
      ⟨0, 0, ortho.Mode.N_POLE⟩).2.mode = ortho.Mode.EQUIT := by
    have hfar2 := hfar
    rw [habs] at hfar2
    simp only [ortho.setup_ortho, fabs, half_pi, habs, hfar2, if_false]
    simp [ortho.EPS10]
  refine ⟨?_, ?_, hfar, hmode, ?_⟩
  · rw [habs]; rfl
  · rw [habs]; unfold ortho.EPS10; exact lt_irrefl _
  · rw [hmode]; decide

/-- C8: `setup_qsc` selects the face by the table, tested in order: TOP if
`phi0 ≥ 3*pi/8`; BOTTOM if `phi0 ≤ -3*pi/8`; FRONT if `|lam0| ≤ pi/4`; RIGHT if
`pi/4 < |lam0| ≤ 3*pi/4` and `lam0 > 0`; LEFT if `pi/4 < |lam0| ≤ 3*pi/4` and `lam0 ≤ 0`;
BACK otherwise. The six documented centres give the documented faces. -/
theorem qsc_setup_face (par : pj_consts) (proj_parm : qsc.par_qsc) :
    (qsc.setup_qsc par proj_parm).face =
      (if par.phi0 ≥ 3 * Real.pi / 8 then qsc.Face.FACE_TOP
       else if par.phi0 ≤ -(3 * Real.pi / 8) then qsc.Face.FACE_BOTTOM
       else if |par.lam0| ≤ Real.pi / 4 then qsc.Face.FACE_FRONT
       else if Real.pi / 4 < |par.lam0| ∧ |par.lam0| ≤ 3 * Real.pi / 4 ∧ par.lam0 > 0 then
         qsc.Face.FACE_RIGHT
       else if Real.pi / 4 < |par.lam0| ∧ |par.lam0| ≤ 3 * Real.pi / 4 ∧ par.lam0 ≤ 0 then
         qsc.Face.FACE_LEFT
       else qsc.Face.FACE_BACK) ∧
    (par.phi0 = 0 → par.lam0 = 0 → (qsc.setup_qsc par proj_parm).face = qsc.Face.FACE_FRONT) ∧
    (par.phi0 = 0 → par.lam0 = Real.pi / 2 →
      (qsc.setup_qsc par proj_parm).face = qsc.Face.FACE_RIGHT) ∧
    (par.phi0 = 0 → par.lam0 = Real.pi →
      (qsc.setup_qsc par proj_parm).face = qsc.Face.FACE_BACK) ∧
    (par.phi0 = 0 → par.lam0 = -(Real.pi / 2) →
      (qsc.setup_qsc par proj_parm).face = qsc.Face.FACE_LEFT) ∧
    (par.phi0 = Real.pi / 2 → (qsc.setup_qsc par proj_parm).face = qsc.Face.FACE_TOP) ∧
    (par.phi0 = -(Real.pi / 2) →
      (qsc.setup_qsc par proj_parm).face = qsc.Face.FACE_BOTTOM) := by
  have hpi := Real.pi_pos
  have hface : (qsc.setup_qsc par proj_parm).face = qsc.setup_qsc_face par.phi0 par.lam0 := by
    simp only [qsc.setup_qsc]
    split_ifs <;> rfl
  have h38 : half_pi - fourth_pi / 2.0 = 3 * Real.pi / 8 := by
    unfold half_pi fourth_pi; norm_num; ring
  have h34 : half_pi + fourth_pi = 3 * Real.pi / 4 := by
    unfold half_pi fourth_pi; ring
  have h0 : (0.0 : ℝ) = 0 := by norm_num
  rw [hface]
  simp only [qsc.setup_qsc_face, fabs, h38, h34, h0]
  unfold fourth_pi
  refine ⟨?_, ?_, ?_, ?_, ?_, ?_, ?_⟩
  · by_cases h1 : par.phi0 ≥ 3 * Real.pi / 8
    · simp [h1]
    · by_cases h2 : par.phi0 ≤ -(3 * Real.pi / 8)
      · simp [h1, h2]
      · by_cases h3 : |par.lam0| ≤ Real.pi / 4
        · simp [h1, h2, h3]
        · by_cases h4 : |par.lam0| ≤ 3 * Real.pi / 4
          · by_cases h5 : par.lam0 > 0
            · simp [h1, h2, h3, h4, h5, not_le.mp h3]
            · simp [h1, h2, h3, h4, h5, not_le.mp h3, not_lt.mp h5]
          · simp [h1, h2, h3, h4]
  · intro hp hl
    have h1 : ¬ (0 : ℝ) ≥ 3 * Real.pi / 8 := by intro h; linarith
    have h2 : ¬ (0 : ℝ) ≤ -(3 * Real.pi / 8) := by intro h; linarith
    have h3 : |(0 : ℝ)| ≤ Real.pi / 4 := by rw [abs_zero]; linarith
    simp only [hp, hl, h1, h2, h3, if_true, if_false]
  · intro hp hl
    have h1 : ¬ (0 : ℝ) ≥ 3 * Real.pi / 8 := by intro h; linarith
    have h2 : ¬ (0 : ℝ) ≤ -(3 * Real.pi / 8) := by intro h; linarith
    have habs : |Real.pi / 2| = Real.pi / 2 := abs_of_pos (by linarith)
    have h3 : ¬ Real.pi / 2 ≤ Real.pi / 4 := by intro h; linarith
    have h4 : Real.pi / 2 ≤ 3 * Real.pi / 4 := by linarith
    have h5 : Real.pi / 2 > 0 := by linarith
    simp only [hp, hl, habs, h1, h2, h3, h4, h5, if_true, if_false]
  · intro hp hl
    have h1 : ¬ (0 : ℝ) ≥ 3 * Real.pi / 8 := by intro h; linarith
    have h2 : ¬ (0 : ℝ) ≤ -(3 * Real.pi / 8) := by intro h; linarith
    have habs : |Real.pi| = Real.pi := abs_of_pos hpi
    have h3 : ¬ Real.pi ≤ Real.pi / 4 := by intro h; linarith
    have h4 : ¬ Real.pi ≤ 3 * Real.pi / 4 := by intro h; linarith
    simp only [hp, hl, habs, h1, h2, h3, h4, if_false]
  · intro hp hl
    have h1 : ¬ (0 : ℝ) ≥ 3 * Real.pi / 8 := by intro h; linarith
    have h2 : ¬ (0 : ℝ) ≤ -(3 * Real.pi / 8) := by intro h; linarith
    have habs : |(-(Real.pi / 2))| = Real.pi / 2 := by
      rw [abs_neg]; exact abs_of_pos (by linarith)
    have h3 : ¬ Real.pi / 2 ≤ Real.pi / 4 := by intro h; linarith
    have h4 : Real.pi / 2 ≤ 3 * Real.pi / 4 := by linarith
    have h5 : ¬ -(Real.pi / 2) > 0 := by intro h; linarith
    simp only [hp, hl, habs, h1, h2, h3, h4, h5, if_true, if_false]
  · intro hp
    have h1 : Real.pi / 2 ≥ 3 * Real.pi / 8 := by linarith
    simp only [hp, h1, if_true]
  · intro hp
    have h1 : ¬ (-(Real.pi / 2)) ≥ 3 * Real.pi / 8 := by intro h; linarith
    have h2 : -(Real.pi / 2) ≤ -(3 * Real.pi / 8) := by linarith
    simp only [hp, h1, h2, if_true, if_false]

/-- Witness for C8: the default block has `phi0 = 0`, `lam0 = 0`, the front face. -/
theorem qsc_setup_face_witness :
    (qsc.setup_qsc pj_consts.init ⟨qsc.Face.FACE_BACK, 0, 0, 0, 0⟩).face =
      qsc.Face.FACE_FRONT :=
  (qsc_setup_face pj_consts.init ⟨qsc.Face.FACE_BACK, 0, 0, 0, 0⟩).2.1 rfl rfl

/-! ## Swiss Oblique Mercator: the iteration of `inv` -/

theorem somerc_inv_loop_converges (P : somerc.base_somerc_ellipsoid) (con : ℝ) :
    ∀ (n : Nat) (p : ℝ) (ks : Nat), ks < n →
      (∀ j, j < ks → somerc.EPS ≤ |P.delp con ((fun q => q - P.delp con q)^[j] p)|) →
      |P.delp con ((fun q => q - P.delp con q)^[ks] p)| < somerc.EPS →
      P.inv_loop con n p = Except.ok ((fun q => q - P.delp con q)^[ks + 1] p) := by
  intro n
  induction n with
  | zero => intro p ks h; exact absurd h (Nat.not_lt_zero _)
  | succ n ih =>
    intro p ks hks hbefore hat
    rw [somerc.base_somerc_ellipsoid.inv_loop]
    cases ks with
    | zero =>
      rw [Function.iterate_zero, id_eq] at hat
      rw [Function.iterate_succ_apply, Function.iterate_zero, id_eq]
      unfold fabs
      rw [if_pos hat]
    | succ k =>
      have h0 : ¬ |P.delp con p| < somerc.EPS := by
        have := hbefore 0 (Nat.succ_pos k)
        rw [Function.iterate_zero, id_eq] at this
        exact not_lt.mpr this
      have hrec := ih (p - P.delp con p) k (Nat.lt_of_succ_lt_succ hks)
        (fun j hj => by
          have := hbefore (j + 1) (Nat.succ_lt_succ hj)
          rw [Function.iterate_succ_apply] at this
          exact this)
        (by
          rw [Function.iterate_succ_apply] at hat
          exact hat)
      unfold fabs
      rw [if_neg h0, hrec, Function.iterate_succ_apply _ (k + 1) _]

theorem somerc_inv_loop_exhausts (P : somerc.base_somerc_ellipsoid) (con : ℝ) :
    ∀ (n : Nat) (p : ℝ),
      (∀ j, j < n → somerc.EPS ≤ |P.delp con ((fun q => q - P.delp con q)^[j] p)|) →
      P.inv_loop con n p = Except.error (-20) := by
  intro n
  induction n with
  | zero => intro p _; rfl
  | succ n ih =>
    intro p hall
    have h0 : ¬ |P.delp con p| < somerc.EPS := by
      have := hall 0 (Nat.succ_pos n)
      rw [Function.iterate_zero, id_eq] at this
      exact not_lt.mpr this
    have hrec := ih (p - P.delp con p) (fun j hj => by
      have := hall (j + 1) (Nat.succ_lt_succ hj)
      rw [Function.iterate_succ_apply] at this
      exact this)
    rw [somerc.base_somerc_ellipsoid.inv_loop]
    unfold fabs
    rw [if_neg h0]
    exact hrec

/-- C5: with `phip_0` the initial estimate and `phip_k = phip_(k-1) - delp_k`, the SOMERC
`inv` performs at most `NITER = 6` steps; if `ks` is the least `k` in `1..6` with
`|delp_k| < EPS = 1e-10` it returns `lat = phip_ks` and `lon = lamp / c`; if
`|delp_k| ≥ EPS` for all six steps it raises `-20`. -/
theorem somerc_inv_iteration (aasin : ℝ → Except Int ℝ) (P : somerc.base_somerc_ellipsoid)
    (xy_x xy_y phip0 lamp : ℝ)
    (hphip : aasin (P.m_proj_parm.cosp0 *
        Real.sin (2 * (Real.arctan (Real.exp (xy_y / P.m_proj_parm.kR)) - fourth_pi)) +
      P.m_proj_parm.sinp0 *
        Real.cos (2 * (Real.arctan (Real.exp (xy_y / P.m_proj_parm.kR)) - fourth_pi)) *
        Real.cos (xy_x / P.m_proj_parm.kR)) = Except.ok phip0)
    (hlamp : aasin (Real.cos (2 * (Real.arctan (Real.exp (xy_y / P.m_proj_parm.kR)) - fourth_pi)) *
        Real.sin (xy_x / P.m_proj_parm.kR) / Real.cos phip0) = Except.ok lamp) :
    somerc.NITER = 6 ∧ somerc.EPS = 1 / 10 ^ 10 ∧
    (∀ ks : Nat, 1 ≤ ks → ks ≤ 6 →
      |P.delp ((P.m_proj_parm.K - Real.log (Real.tan (fourth_pi + 0.5 * phip0))) /
          P.m_proj_parm.c)
        ((fun q => q - P.delp ((P.m_proj_parm.K -
          Real.log (Real.tan (fourth_pi + 0.5 * phip0))) / P.m_proj_parm.c) q)^[ks - 1] phip0)|
        < somerc.EPS →
      (∀ k : Nat, 1 ≤ k → k < ks →
        somerc.EPS ≤ |P.delp ((P.m_proj_parm.K -
            Real.log (Real.tan (fourth_pi + 0.5 * phip0))) / P.m_proj_parm.c)
          ((fun q => q - P.delp ((P.m_proj_parm.K -
            Real.log (Real.tan (fourth_pi + 0.5 * phip0))) / P.m_proj_parm.c) q)^[k - 1] phip0)|) →
      P.inv aasin xy_x xy_y = Except.ok (lamp / P.m_proj_parm.c,
        (fun q => q - P.delp ((P.m_proj_parm.K -
          Real.log (Real.tan (fourth_pi + 0.5 * phip0))) / P.m_proj_parm.c) q)^[ks] phip0)) ∧
    ((∀ k : Nat, 1 ≤ k → k ≤ 6 →
        somerc.EPS ≤ |P.delp ((P.m_proj_parm.K -
            Real.log (Real.tan (fourth_pi + 0.5 * phip0))) / P.m_proj_parm.c)
          ((fun q => q - P.delp ((P.m_proj_parm.K -
            Real.log (Real.tan (fourth_pi + 0.5 * phip0))) / P.m_proj_parm.c) q)^[k - 1] phip0)|) →
      P.inv aasin xy_x xy_y = Except.error (-20)) := by
  refine ⟨rfl, by unfold somerc.EPS; norm_num, ?_, ?_⟩
  · intro ks h1 h6 hat hbefore
    obtain ⟨m, rfl⟩ : ∃ m, ks = m + 1 := ⟨ks - 1, by omega⟩
    have hloop := somerc_inv_loop_converges P
      ((P.m_proj_parm.K - Real.log (Real.tan (fourth_pi + 0.5 * phip0))) / P.m_proj_parm.c)
      somerc.NITER phip0 m (by unfold somerc.NITER; omega)
      (fun j hj => by
        have := hbefore (j + 1) (by omega) (by omega)
        simpa using this)
      (by simpa using hat)
    simp only [somerc.base_somerc_ellipsoid.inv, hphip, hlamp, hloop]
  · intro hall
    have hloop := somerc_inv_loop_exhausts P
      ((P.m_proj_parm.K - Real.log (Real.tan (fourth_pi + 0.5 * phip0))) / P.m_proj_parm.c)
      somerc.NITER phip0
      (fun j hj => by
        have := hall (j + 1) (by omega) (by unfold somerc.NITER at hj; omega)
        simpa using this)
    simp only [somerc.base_somerc_ellipsoid.inv, hphip, hlamp, hloop]

/-- Witness for C5: on a unit sphere centred on the equator (`aasin` taken as `asin`), the
first correction at the origin is `0`, so `inv(0, 0)` converges in one step. -/
theorem somerc_inv_iteration_witness :
    somerc.base_somerc_ellipsoid.inv (fun v => Except.ok (Real.arcsin v))
      ⟨{ pj_consts.init with rone_es := 1 }, ⟨0, 1, 0, 1, 1, 0⟩⟩ 0 0 = Except.ok (0, 0) := by
  have hphipp : 2 * (Real.arctan (Real.exp ((0 : ℝ) / 1)) - fourth_pi) = 0 := by
    simp [fourth_pi]
  have hdelp : somerc.base_somerc_ellipsoid.delp
      ⟨{ pj_consts.init with rone_es := 1 }, ⟨0, 1, 0, 1, 1, 0⟩⟩
      ((0 - Real.log (Real.tan (fourth_pi + 0.5 * 0))) / 1) 0 = 0 := by
    simp [somerc.base_somerc_ellipsoid.delp, fourth_pi, pj_consts.init]
  have h := (somerc_inv_iteration (fun v => Except.ok (Real.arcsin v))
    ⟨{ pj_consts.init with rone_es := 1 }, ⟨0, 1, 0, 1, 1, 0⟩⟩ 0 0 0 0
    (by simp only [hphipp]; simp)
    (by simp only [hphipp]; simp)).2.2.1 1 (le_refl 1) (by norm_num)
    (by
      simp only [Nat.sub_self, Function.iterate_zero, id_eq, hdelp, abs_zero]
      unfold somerc.EPS; norm_num)
    (by intro k h1 h2; omega)
  simp only [Function.iterate_one, hdelp] at h
  simpa using h

/-! ## Round trips: shared trigonometry -/

theorem atan2_mul_sin_cos (R θ : ℝ) (hR : 0 < R) (h1 : -Real.pi < θ) (h2 : θ ≤ Real.pi) :
    atan2 (R * Real.sin θ) (R * Real.cos θ) = θ := by
  unfold atan2
  have h : (⟨R * Real.cos θ, R * Real.sin θ⟩ : ℂ) =
      (R : ℂ) * (Complex.cos θ + Complex.sin θ * Complex.I) := by
    apply Complex.ext
    · simp [← Complex.ofReal_cos, ← Complex.ofReal_sin]
    · simp [← Complex.ofReal_cos, ← Complex.ofReal_sin]
  rw [h]
  exact Complex.arg_mul_cos_add_sin_mul_I hR ⟨h1, h2⟩

theorem atan2_zero_zero : atan2 0 0 = 0 := by
  unfold atan2
  have : (⟨0, 0⟩ : ℂ) = 0 := rfl
  rw [this, Complex.arg_zero]

theorem cos_pos_of_abs_lt (lat : ℝ) (h : |lat| < Real.pi / 2) : 0 < Real.cos lat := by
  rw [abs_lt] at h
  exact Real.cos_pos_of_mem_Ioo ⟨by linarith [h.1], h.2⟩

theorem abs_sin_lt_one (lat : ℝ) (h : |lat| < Real.pi / 2) : |Real.sin lat| < 1 := by
  have hc := cos_pos_of_abs_lt lat h
  have h1 := Real.sin_sq_add_cos_sq lat
  rw [abs_lt]
  constructor <;> nlinarith

/-- The rotation identities behind the oblique and equatorial aspects: with
`x = cos lat * sin lon`, `y = c0 * sin lat - s0 * cos lat * cos lon` and
`d = s0 * sin lat + c0 * cos lat * cos lon` on the unit sphere. -/
theorem rotation_identities (s0 c0 lat lon : ℝ) (h0 : s0 ^ 2 + c0 ^ 2 = 1) :
    (Real.cos lat * Real.sin lon) * (Real.cos lat * Real.sin lon) +
        (c0 * Real.sin lat - s0 * Real.cos lat * Real.cos lon) *
          (c0 * Real.sin lat - s0 * Real.cos lat * Real.cos lon) =
      1 - (s0 * Real.sin lat + c0 * Real.cos lat * Real.cos lon) ^ 2 ∧
    (s0 * Real.sin lat + c0 * Real.cos lat * Real.cos lon) * s0 +
        (c0 * Real.sin lat - s0 * Real.cos lat * Real.cos lon) * c0 = Real.sin lat := by
  have h1 := Real.sin_sq_add_cos_sq lat
  have h2 := Real.sin_sq_add_cos_sq lon
  constructor
  · linear_combination
      ((Real.sin lat) ^ 2 + (Real.cos lat) ^ 2 * (Real.cos lon) ^ 2) * h0 +
      (Real.cos lat) ^ 2 * h2 + h1
  · linear_combination (Real.sin lat) * h0

/-! ## Orthographic round trip -/

theorem ortho_spheroid_cases (par : pj_consts) (proj_parm0 : ortho.par_ortho)
    (hphi0 : |par.phi0| ≤ Real.pi / 2) :
    (ortho.ortho_spheroid par proj_parm0).m_par.phi0 = par.phi0 ∧
    (((ortho.ortho_spheroid par proj_parm0).m_proj_parm.mode = ortho.Mode.N_POLE ∧
        |par.phi0 - Real.pi / 2| ≤ ortho.EPS10) ∨
     ((ortho.ortho_spheroid par proj_parm0).m_proj_parm.mode = ortho.Mode.S_POLE ∧
        |par.phi0 + Real.pi / 2| ≤ ortho.EPS10) ∨
     (ortho.ortho_spheroid par proj_parm0).m_proj_parm.mode = ortho.Mode.EQUIT ∨
     ((ortho.ortho_spheroid par proj_parm0).m_proj_parm.mode = ortho.Mode.OBLIQ ∧
        (ortho.ortho_spheroid par proj_parm0).m_proj_parm.sinph0 = Real.sin par.phi0 ∧
        (ortho.ortho_spheroid par proj_parm0).m_proj_parm.cosph0 = Real.cos par.phi0 ∧
        |par.phi0| < Real.pi / 2)) := by
  have hpos := ortho_EPS10_pos
  refine ⟨rfl, ?_⟩
  simp only [ortho.ortho_spheroid, ortho.setup_ortho, fabs, half_pi]
  by_cases h1 : |(|par.phi0| - Real.pi / 2)| ≤ ortho.EPS10
  · by_cases h2 : par.phi0 < 0
    · right; left
      simp only [h1, h2, if_true, true_and]
      rw [abs_of_neg h2] at h1
      have : par.phi0 + Real.pi / 2 = -(-par.phi0 - Real.pi / 2) := by ring
      rw [this, abs_neg]
      exact h1
    · left
      simp only [h1, h2, if_true, if_false, true_and]
      rw [abs_of_nonneg (not_lt.mp h2)] at h1
      exact h1
  · by_cases h2 : |par.phi0| > ortho.EPS10
    · right; right; right
      simp only [h1, h2, if_true, if_false, true_and]
      rcases lt_or_eq_of_le hphi0 with h | h
      · exact h
      · exfalso
        apply h1
        rw [h, sub_self, abs_zero]
        exact hpos.le
    · right; right; left
      simp only [h1, h2, if_false]

theorem half_lit : (0.5 : ℝ) = 1 / 2 := by norm_num

theorem zero_lit : (0.0 : ℝ) = 0 := by norm_num

theorem laea_s_inv_of_le {Apa : Type} (P : laea.base_laea_spheroid Apa) (x y : ℝ)
    (h1 : hypot x y * 0.5 ≤ 1) :
    P.inv x y = Except.ok
      (match P.m_proj_parm.mode with
        | laea.Mode.EQUIT =>
          (laea.s_inv_lon laea.Mode.EQUIT (x * Real.sin (2 * Real.arcsin (hypot x y * 0.5)))
              (Real.cos (2 * Real.arcsin (hypot x y * 0.5)) * hypot x y),
            if |hypot x y| ≤ laea.EPS10 then 0
            else Real.arcsin (y * Real.sin (2 * Real.arcsin (hypot x y * 0.5)) / hypot x y))
        | laea.Mode.OBLIQ =>
          (laea.s_inv_lon laea.Mode.OBLIQ
              (x * (Real.sin (2 * Real.arcsin (hypot x y * 0.5)) * P.m_proj_parm.cosb1))
              ((Real.cos (2 * Real.arcsin (hypot x y * 0.5)) -
                Real.sin (if |hypot x y| ≤ laea.EPS10 then P.m_par.phi0
                  else Real.arcsin (Real.cos (2 * Real.arcsin (hypot x y * 0.5)) *
                      P.m_proj_parm.sinb1 +
                    y * Real.sin (2 * Real.arcsin (hypot x y * 0.5)) *
                      P.m_proj_parm.cosb1 / hypot x y)) * P.m_proj_parm.sinb1) * hypot x y),
            if |hypot x y| ≤ laea.EPS10 then P.m_par.phi0
            else Real.arcsin (Real.cos (2 * Real.arcsin (hypot x y * 0.5)) * P.m_proj_parm.sinb1 +
              y * Real.sin (2 * Real.arcsin (hypot x y * 0.5)) * P.m_proj_parm.cosb1 / hypot x y))
        | laea.Mode.N_POLE =>
          (laea.s_inv_lon laea.Mode.N_POLE x (-y),
            half_pi - 2 * Real.arcsin (hypot x y * 0.5))
        | laea.Mode.S_POLE =>
          (laea.s_inv_lon laea.Mode.S_POLE x y,
            2 * Real.arcsin (hypot x y * 0.5) - half_pi)) := by
  simp only [laea.base_laea_spheroid.inv, not_lt.mpr h1, if_false, fabs]
  cases hm : P.m_proj_parm.mode <;> simp

theorem laea_spheroid_mode {Apa : Type} (pj_qsfn : ℝ → ℝ → ℝ → ℝ) (pj_authset : ℝ → Apa)
    (par : pj_consts) (proj_parm0 : laea.par_laea Apa) (hes : par.es = 0) :
    (laea.laea_spheroid pj_qsfn pj_authset par proj_parm0).m_proj_parm.mode =
      laea.setup_laea_mode par.phi0 ∧
    (laea.laea_spheroid pj_qsfn pj_authset par proj_parm0).m_par.phi0 = par.phi0 := by
  have hes' : ¬ par.es ≠ 0.0 := by rw [hes, zero_lit]; exact not_not.mpr rfl
  simp only [laea.laea_spheroid, laea.setup_laea, hes', if_false]
  constructor
  · split_ifs <;> rfl
  · split_ifs <;> rfl

theorem laea_setup_mode_zero : laea.setup_laea_mode 0 = laea.Mode.EQUIT := by
  have hpos := laea_EPS10_pos
  have hhalf := half_pi_gt_one
  unfold half_pi at hhalf
  have heps : laea.EPS10 < 1 / 2 := by unfold laea.EPS10; norm_num
  have h1 : ¬ |(|(0 : ℝ)| - Real.pi / 2)| < laea.EPS10 := by
    rw [abs_zero, zero_sub, abs_neg, abs_of_pos (by linarith)]
    intro h; linarith
  have h2 : |(|(0 : ℝ)|)| < laea.EPS10 := by
    rw [abs_zero, abs_zero]; exact hpos
  simp only [laea.setup_laea_mode, fabs, half_pi, h1, h2, if_false, if_true]

/-! ## Scenario values and parameter block -/

/-- C13: on the equatorial spherical LAEA instance (`es = 0`, `phi0 = 0`), for every `lon`
with `|lon| < pi` and `1 + cos lon > EPS10`, `fwd(lon, 0)` succeeds and equals
`(2 * sin(lon/2), 0)`; in particular `fwd(0, 0) = (0, 0)` and `fwd(pi/2, 0) = (sqrt 2, 0)`. -/
theorem laea_s_fwd_equator {Apa : Type} (pj_qsfn : ℝ → ℝ → ℝ → ℝ) (pj_authset : ℝ → Apa)
    (par : pj_consts) (proj_parm0 : laea.par_laea Apa)
    (hes : par.es = 0) (hphi : par.phi0 = 0) :
    (laea.laea_spheroid pj_qsfn pj_authset par proj_parm0).m_proj_parm.mode = laea.Mode.EQUIT ∧
    (∀ lon : ℝ, |lon| < Real.pi → laea.EPS10 < 1 + Real.cos lon →
      (laea.laea_spheroid pj_qsfn pj_authset par proj_parm0).fwd lon 0 =
        Except.ok (2 * Real.sin (lon / 2), 0)) ∧
    (laea.laea_spheroid pj_qsfn pj_authset par proj_parm0).fwd 0 0 = Except.ok (0, 0) ∧
    (laea.laea_spheroid pj_qsfn pj_authset par proj_parm0).fwd (Real.pi / 2) 0 =
      Except.ok (Real.sqrt 2, 0) := by
  have hpi := Real.pi_pos
  have hpos := laea_EPS10_pos
  have heps : laea.EPS10 < 1 / 2 := by unfold laea.EPS10; norm_num
  obtain ⟨hmode, _⟩ := laea_spheroid_mode pj_qsfn pj_authset par proj_parm0 hes
  rw [hphi, laea_setup_mode_zero] at hmode
  have key : ∀ lon : ℝ, |lon| < Real.pi → laea.EPS10 < 1 + Real.cos lon →
      (laea.laea_spheroid pj_qsfn pj_authset par proj_parm0).fwd lon 0 =
        Except.ok (2 * Real.sin (lon / 2), 0) := by
    intro lon hlon hk
    obtain ⟨hl1, hl2⟩ := abs_lt.mp hlon
    have hc : 0 < Real.cos (lon / 2) :=
      Real.cos_pos_of_mem_Ioo ⟨by linarith, by linarith⟩
    have hcos : Real.cos lon = 2 * Real.cos (lon / 2) ^ 2 - 1 := by
      rw [← Real.cos_two_mul]; congr 1; ring
    have hsin : Real.sin lon = 2 * Real.sin (lon / 2) * Real.cos (lon / 2) := by
      rw [← Real.sin_two_mul]; congr 1; ring
    have hb : Real.sqrt (2 / (1 + Real.cos lon)) = 1 / Real.cos (lon / 2) := by
      have h1 : 2 / (1 + Real.cos lon) = (1 / Real.cos (lon / 2)) * (1 / Real.cos (lon / 2)) := by
        rw [hcos]; field_simp; ring
      rw [h1, Real.sqrt_mul_self (by positivity)]
    simp only [laea.base_laea_spheroid.fwd, hmode, Real.cos_zero, Real.sin_zero, one_mul, mul_one,
      mul_zero]
    rw [if_neg (not_le.mpr hk), hb, hsin]
    congr 2
    field_simp
  refine ⟨hmode, key, ?_, ?_⟩
  · have := key 0 (by rw [abs_zero]; exact hpi) (by rw [Real.cos_zero]; linarith)
    simpa using this
  · have := key (Real.pi / 2) (by rw [abs_of_pos (by linarith)]; linarith)
      (by rw [Real.cos_pi_div_two]; linarith)
    rw [this]
    have h4 : Real.pi / 2 / 2 = Real.pi / 4 := by ring
    rw [h4, Real.sin_pi_div_four]
    congr 2
    ring

/-- Witness for C13: the default block (`es = 0`, `phi0 = 0`). -/
theorem laea_s_fwd_equator_witness :
    (laea.laea_spheroid (fun s _ _ => s + s) (fun _ => ()) pj_consts.init
      ⟨0, 0, 0, 0, 0, 0, 0, 0, (), laea.Mode.N_POLE⟩).fwd (Real.pi / 2) 0 =
      Except.ok (Real.sqrt 2, 0) :=
  (laea_s_fwd_equator (fun s _ _ => s + s) (fun _ => ()) pj_consts.init
    ⟨0, 0, 0, 0, 0, 0, 0, 0, (), laea.Mode.N_POLE⟩ rfl rfl).2.2.2

/-- C14: the orthographic `fwd` maps the projection centre to the origin without raising:
with `phi0 = pi/2` (N_POLE) `fwd(lon, pi/2) = (0, 0)` for every `lon`, with `phi0 = -pi/2`
(S_POLE) `fwd(lon, -pi/2) = (0, 0)` for every `lon`, with `phi0 = 0` (EQUIT)
`fwd(0, 0) = (0, 0)`, and in every oblique instance `fwd(0, phi0) = (0, 0)`. -/
theorem ortho_fwd_centre (par : pj_consts) (proj_parm0 : ortho.par_ortho) :
    (par.phi0 = Real.pi / 2 →
      (ortho.ortho_spheroid par proj_parm0).m_proj_parm.mode = ortho.Mode.N_POLE ∧
      ∀ lon : ℝ, (ortho.ortho_spheroid par proj_parm0).fwd lon (Real.pi / 2) =
        Except.ok (0, 0)) ∧
    (par.phi0 = -(Real.pi / 2) →
      (ortho.ortho_spheroid par proj_parm0).m_proj_parm.mode = ortho.Mode.S_POLE ∧
      ∀ lon : ℝ, (ortho.ortho_spheroid par proj_parm0).fwd lon (-(Real.pi / 2)) =
        Except.ok (0, 0)) ∧
    (par.phi0 = 0 →
      (ortho.ortho_spheroid par proj_parm0).m_proj_parm.mode = ortho.Mode.EQUIT ∧
      (ortho.ortho_spheroid par proj_parm0).fwd 0 0 = Except.ok (0, 0)) ∧
    ((ortho.ortho_spheroid par proj_parm0).m_proj_parm.mode = ortho.Mode.OBLIQ →
      (ortho.ortho_spheroid par proj_parm0).fwd 0 par.phi0 = Except.ok (0, 0)) := by
  have hpi := Real.pi_pos
  have hpos := ortho_EPS10_pos
  have heps : ortho.EPS10 < 1 / 2 := by unfold ortho.EPS10; norm_num
  have hphi : (ortho.ortho_spheroid par proj_parm0).m_par.phi0 = par.phi0 := rfl
  refine ⟨?_, ?_, ?_, ?_⟩
  · intro h
    have h1 : |(|Real.pi / 2| - Real.pi / 2)| ≤ ortho.EPS10 := by
      rw [abs_of_pos (by linarith : (0 : ℝ) < Real.pi / 2), sub_self, abs_zero]
      exact hpos.le
    have h2 : ¬ Real.pi / 2 < 0 := by intro hc; linarith
    have hmode : (ortho.ortho_spheroid par proj_parm0).m_proj_parm.mode = ortho.Mode.N_POLE := by
      simp only [ortho.ortho_spheroid, ortho.setup_ortho, fabs, half_pi, h, h1, h2, if_true,
        if_false]
    refine ⟨hmode, fun lon => ?_⟩
    simp only [ortho.base_ortho_spheroid.fwd, hmode, hphi, h, fabs, half_pi, sub_self, abs_zero,
      Real.cos_pi_div_two, zero_mul]
    rw [if_neg (by linarith)]
  · intro h
    have h1 : |(|(-(Real.pi / 2))| - Real.pi / 2)| ≤ ortho.EPS10 := by
      rw [abs_neg, abs_of_pos (by linarith : (0 : ℝ) < Real.pi / 2), sub_self, abs_zero]
      exact hpos.le
    have h2 : -(Real.pi / 2) < 0 := by linarith
    have hmode : (ortho.ortho_spheroid par proj_parm0).m_proj_parm.mode = ortho.Mode.S_POLE := by
      simp only [ortho.ortho_spheroid, ortho.setup_ortho, fabs, half_pi, h, h1, h2, if_true]
    refine ⟨hmode, fun lon => ?_⟩
    simp only [ortho.base_ortho_spheroid.fwd, hmode, hphi, h, fabs, half_pi, sub_self, abs_zero,
      Real.cos_neg, Real.cos_pi_div_two, zero_mul]
    rw [if_neg (by linarith)]
  · intro h
    have h1 : ¬ |(|(0 : ℝ)| - Real.pi / 2)| ≤ ortho.EPS10 := by
      rw [abs_zero, zero_sub, abs_neg, abs_of_pos (by linarith)]
      intro hc; linarith [Real.pi_gt_three]
    have h2 : ¬ |(0 : ℝ)| > ortho.EPS10 := by
      rw [abs_zero]; exact not_lt.mpr hpos.le
    have hmode : (ortho.ortho_spheroid par proj_parm0).m_proj_parm.mode = ortho.Mode.EQUIT := by
      simp only [ortho.ortho_spheroid, ortho.setup_ortho, fabs, half_pi, h, h1, h2, if_false]
    refine ⟨hmode, ?_⟩
    simp only [ortho.base_ortho_spheroid.fwd, hmode, Real.cos_zero, Real.sin_zero, mul_zero,
      mul_one]
    rw [if_neg (by linarith)]
  · intro hmode
    by_cases hp : |par.phi0| ≤ Real.pi / 2
    · obtain ⟨_, hcases⟩ := ortho_spheroid_cases par proj_parm0 hp
      rcases hcases with ⟨hm, _⟩ | ⟨hm, _⟩ | hm | ⟨_, hs, hc, _⟩
      · rw [hm] at hmode; exact absurd hmode (by decide)
      · rw [hm] at hmode; exact absurd hmode (by decide)
      · rw [hm] at hmode; exact absurd hmode (by decide)
      · have h1 := Real.sin_sq_add_cos_sq par.phi0
        simp only [ortho.base_ortho_spheroid.fwd, hmode, hs, hc, Real.cos_zero, Real.sin_zero,
          mul_zero, mul_one]
        rw [if_neg (by nlinarith)]
        congr 2
        ring
    · have hs : (ortho.ortho_spheroid par proj_parm0).m_proj_parm.sinph0 = Real.sin par.phi0 ∧
          (ortho.ortho_spheroid par proj_parm0).m_proj_parm.cosph0 = Real.cos par.phi0 := by
        have h1 : ¬ |(|par.phi0| - Real.pi / 2)| ≤ ortho.EPS10 := by
          intro hc
          simp only [ortho.ortho_spheroid, ortho.setup_ortho, fabs, half_pi, hc, if_true] at hmode
          split_ifs at hmode
        have h2 : |par.phi0| > ortho.EPS10 := by
          by_contra hc
          simp only [ortho.ortho_spheroid, ortho.setup_ortho, fabs, half_pi, h1, hc,
            if_false] at hmode
          exact absurd hmode (by decide)
        simp only [ortho.ortho_spheroid, ortho.setup_ortho, fabs, half_pi, h1, h2, if_true,
          if_false, and_self]
      have h1 := Real.sin_sq_add_cos_sq par.phi0
      simp only [ortho.base_ortho_spheroid.fwd, hmode, hs.1, hs.2, Real.cos_zero, Real.sin_zero,
        mul_zero, mul_one]
      rw [if_neg (by nlinarith)]
      congr 2
      ring

/-- Witness for C14: the default block has `phi0 = 0`. -/
theorem ortho_fwd_centre_witness :
    (ortho.ortho_spheroid pj_consts.init ⟨0, 0, ortho.Mode.N_POLE⟩).m_proj_parm.mode =
        ortho.Mode.EQUIT ∧
      (ortho.ortho_spheroid pj_consts.init ⟨0, 0, ortho.Mode.N_POLE⟩).fwd 0 0 =
        Except.ok (0, 0) :=
  (ortho_fwd_centre pj_consts.init ⟨0, 0, ortho.Mode.N_POLE⟩).2.2.1 rfl

/-- C15: for every mode and every `(x, y)` with `hypot(x, y) ≤ EPS10`, the orthographic `inv`
succeeds and returns exactly `(lon, lat) = (0, phi0)`; in particular at `(0, 0)`. -/
theorem ortho_inv_near_origin (P : ortho.base_ortho_spheroid) (xy_x xy_y : ℝ) :
    (hypot xy_x xy_y ≤ ortho.EPS10 → P.inv xy_x xy_y = Except.ok (0, P.m_par.phi0)) ∧
    P.inv 0 0 = Except.ok (0, P.m_par.phi0) := by
  have hpos := ortho_EPS10_pos
  have heps : ortho.EPS10 < 1 / 2 := by unfold ortho.EPS10; norm_num
  have key : ∀ x y : ℝ, hypot x y ≤ ortho.EPS10 → P.inv x y = Except.ok (0, P.m_par.phi0) := by
    intro x y h
    have h0 : 0 ≤ hypot x y := Real.sqrt_nonneg _
    have h1 : ¬ hypot x y > 1 := by intro hc; linarith
    have h2 : |hypot x y| ≤ ortho.EPS10 := by rw [abs_of_nonneg h0]; exact h
    simp only [ortho.base_ortho_spheroid.inv, ortho.inv_sinc, h1, if_false, ortho.inv_tail, fabs,
      h2, if_true]
  refine ⟨key xy_x xy_y, key 0 0 ?_⟩
  have : hypot 0 0 = 0 := by simp [hypot]
  rw [this]; exact hpos.le

/-- Witness for C15: with `phi0 = pi/2`, `inv(0, 0) = (0, pi/2)`. -/
theorem ortho_inv_near_origin_witness :
    ortho.base_ortho_spheroid.inv
      ⟨{ pj_consts.init with phi0 := Real.pi / 2 }, ⟨0, 0, ortho.Mode.N_POLE⟩⟩ 0 0 =
      Except.ok (0, Real.pi / 2) :=
  (ortho_inv_near_origin
    ⟨{ pj_consts.init with phi0 := Real.pi / 2 }, ⟨0, 0, ortho.Mode.N_POLE⟩⟩ 0 0).1
    (by
      have : hypot 0 0 = 0 := by simp [hypot]
      rw [this]; exact ortho_EPS10_pos.le)

/-- C16, as the code has it: if the block satisfies `es = e^2` and `one_es = 1 - es` (with
`e ≥ 0`; the bounds `0 ≤ es < 1` are not needed) before setup, then the block held by the instance satisfies both
after `setup_laea`, `setup_qsc` and `setup_somerc`; `setup_ortho` sets `es = 0` and leaves
`e` and `one_es` as they were, so after it the two equations hold exactly when the block
was spherical (`es = 0`) before. -/
theorem setup_ellipsoid_invariant (par : pj_consts)
    (h1 : par.es = par.e ^ 2) (h2 : par.one_es = 1 - par.es)
    (he : 0 ≤ par.e) :
    (∀ (Apa : Type) (pj_qsfn : ℝ → ℝ → ℝ → ℝ) (pj_authset : ℝ → Apa)
        (proj_parm0 : laea.par_laea Apa),
      (laea.laea_ellipsoid pj_qsfn pj_authset par proj_parm0).m_par.es =
          (laea.laea_ellipsoid pj_qsfn pj_authset par proj_parm0).m_par.e ^ 2 ∧
        (laea.laea_ellipsoid pj_qsfn pj_authset par proj_parm0).m_par.one_es =
          1 - (laea.laea_ellipsoid pj_qsfn pj_authset par proj_parm0).m_par.es ∧
        (laea.laea_spheroid pj_qsfn pj_authset par proj_parm0).m_par.es =
          (laea.laea_spheroid pj_qsfn pj_authset par proj_parm0).m_par.e ^ 2 ∧
        (laea.laea_spheroid pj_qsfn pj_authset par proj_parm0).m_par.one_es =
          1 - (laea.laea_spheroid pj_qsfn pj_authset par proj_parm0).m_par.es) ∧
    (∀ proj_parm0 : qsc.par_qsc,
      (qsc.qsc_ellipsoid par proj_parm0).m_par.es =
          (qsc.qsc_ellipsoid par proj_parm0).m_par.e ^ 2 ∧
        (qsc.qsc_ellipsoid par proj_parm0).m_par.one_es =
          1 - (qsc.qsc_ellipsoid par proj_parm0).m_par.es) ∧
    (∀ (aasin : ℝ → Except Int ℝ) (P : somerc.base_somerc_ellipsoid),
      somerc.somerc_ellipsoid aasin par = Except.ok P →
        P.m_par.es = P.m_par.e ^ 2 ∧ P.m_par.one_es = 1 - P.m_par.es) ∧
    (∀ proj_parm0 : ortho.par_ortho,
      (ortho.ortho_spheroid par proj_parm0).m_par.es = 0 ∧
        (ortho.ortho_spheroid par proj_parm0).m_par.e = par.e ∧
        (ortho.ortho_spheroid par proj_parm0).m_par.one_es = par.one_es ∧
        (((ortho.ortho_spheroid par proj_parm0).m_par.es =
            (ortho.ortho_spheroid par proj_parm0).m_par.e ^ 2 ∧
          (ortho.ortho_spheroid par proj_parm0).m_par.one_es =
            1 - (ortho.ortho_spheroid par proj_parm0).m_par.es) ↔ par.es = 0)) := by
  have hsetup : ∀ (Apa : Type) (pj_qsfn : ℝ → ℝ → ℝ → ℝ) (pj_authset : ℝ → Apa)
      (proj_parm0 : laea.par_laea Apa),
      (laea.setup_laea pj_qsfn pj_authset par proj_parm0).1.es = par.es ∧
      (laea.setup_laea pj_qsfn pj_authset par proj_parm0).1.one_es = par.one_es ∧
      (laea.setup_laea pj_qsfn pj_authset par proj_parm0).1.e = par.e := by
    intro Apa pj_qsfn pj_authset proj_parm0
    have hsq : Real.sqrt par.es = par.e := by
      rw [h1, Real.sqrt_sq he]
    simp only [laea.setup_laea]
    split_ifs
    · cases laea.setup_laea_mode par.phi0 <;> exact ⟨rfl, rfl, hsq⟩
    · exact ⟨rfl, rfl, rfl⟩
    · exact ⟨rfl, rfl, rfl⟩
  refine ⟨?_, ?_, ?_, ?_⟩
  · intro Apa pj_qsfn pj_authset proj_parm0
    obtain ⟨e1, e2, e3⟩ := hsetup Apa pj_qsfn pj_authset proj_parm0
    simp only [laea.laea_ellipsoid, laea.laea_spheroid, e1, e2, e3]
    exact ⟨h1, h2, h1, h2⟩
  · intro proj_parm0
    exact ⟨h1, h2⟩
  · intro aasin P hP
    simp only [somerc.somerc_ellipsoid] at hP
    cases hs : somerc.setup_somerc aasin par with
    | error c => rw [hs] at hP; exact absurd hP (by simp)
    | ok pp =>
      rw [hs] at hP
      have := Except.ok.inj hP
      rw [← this]
      exact ⟨h1, h2⟩
  · intro proj_parm0
    refine ⟨rfl, rfl, rfl, ?_⟩
    have e1 : (ortho.ortho_spheroid par proj_parm0).m_par.es = 0 := rfl
    have e2 : (ortho.ortho_spheroid par proj_parm0).m_par.e = par.e := rfl
    have e3 : (ortho.ortho_spheroid par proj_parm0).m_par.one_es = par.one_es := rfl
    rw [e1, e2, e3]
    constructor
    · rintro ⟨ha, _⟩
      rw [h1, ← ha]
    · intro h0
      rw [h2, h0, ← h1, h0]
      exact ⟨rfl, rfl⟩

/-- Witness for the amended C16: the unit sphere block `e = 0`, `es = 0`, `one_es = 1`. -/
theorem setup_ellipsoid_invariant_witness :
    (ortho.ortho_spheroid { pj_consts.init with one_es := 1 } ⟨0, 0, ortho.Mode.N_POLE⟩).m_par.es =
      0 :=
  ((setup_ellipsoid_invariant { pj_consts.init with one_es := 1 }
    (by simp [pj_consts.init]) (by simp [pj_consts.init])
    (by simp [pj_consts.init])).2.2.2 ⟨0, 0, ortho.Mode.N_POLE⟩).1

/-- C16, as stated, fails for `setup_ortho` on an ellipsoidal block: `e = 1/2`, `es = 1/4`,
`one_es = 3/4` satisfies `es = e^2` and `one_es = 1 - es`, and after `setup_ortho` the
instance holds `es = 0`, `e = 1/2`, `one_es = 3/4`, so neither equation holds. -/
theorem ortho_setup_breaks_ellipsoid_invariant :
    ({ pj_consts.init with e := 1 / 2, es := 1 / 4, one_es := 3 / 4 } : pj_consts).es =
      ({ pj_consts.init with e := 1 / 2, es := 1 / 4, one_es := 3 / 4 } : pj_consts).e ^ 2 ∧
    ({ pj_consts.init with e := 1 / 2, es := 1 / 4, one_es := 3 / 4 } : pj_consts).one_es =
      1 - ({ pj_consts.init with e := 1 / 2, es := 1 / 4, one_es := 3 / 4 } : pj_consts).es ∧
    (0 : ℝ) ≤ 1 / 2 ∧ (0 : ℝ) ≤ 1 / 4 ∧ (1 / 4 : ℝ) < 1 ∧
    (ortho.ortho_spheroid { pj_consts.init with e := 1 / 2, es := 1 / 4, one_es := 3 / 4 }
      ⟨0, 0, ortho.Mode.N_POLE⟩).m_par.es ≠
      (ortho.ortho_spheroid { pj_consts.init with e := 1 / 2, es := 1 / 4, one_es := 3 / 4 }
        ⟨0, 0, ortho.Mode.N_POLE⟩).m_par.e ^ 2 ∧
    (ortho.ortho_spheroid { pj_consts.init with e := 1 / 2, es := 1 / 4, one_es := 3 / 4 }
      ⟨0, 0, ortho.Mode.N_POLE⟩).m_par.one_es ≠
      1 - (ortho.ortho_spheroid { pj_consts.init with e := 1 / 2, es := 1 / 4, one_es := 3 / 4 }
        ⟨0, 0, ortho.Mode.N_POLE⟩).m_par.es := by
  have e1 : (ortho.ortho_spheroid { pj_consts.init with e := 1 / 2, es := 1 / 4, one_es := 3 / 4 }
      ⟨0, 0, ortho.Mode.N_POLE⟩).m_par.es = 0 := rfl
  have e2 : (ortho.ortho_spheroid { pj_consts.init with e := 1 / 2, es := 1 / 4, one_es := 3 / 4 }
      ⟨0, 0, ortho.Mode.N_POLE⟩).m_par.e = 1 / 2 := rfl
  have e3 : (ortho.ortho_spheroid { pj_consts.init with e := 1 / 2, es := 1 / 4, one_es := 3 / 4 }
      ⟨0, 0, ortho.Mode.N_POLE⟩).m_par.one_es = 3 / 4 := rfl
  rw [e1, e2, e3]
  refine ⟨?_, ?_, ?_, ?_, ?_, ?_, ?_⟩
  · show (1 / 4 : ℝ) = (1 / 2) ^ 2
    norm_num
  · show (3 / 4 : ℝ) = 1 - 1 / 4
    norm_num
  · norm_num
  · norm_num
  · norm_num
  · norm_num
  · norm_num

/-- C17: after `setup_ortho` the block has `es = 0` and every other member has the value
it had before. -/
theorem ortho_setup_frame (par : pj_consts) (proj_parm : ortho.par_ortho) :
    (ortho.setup_ortho par proj_parm).1.es = 0 ∧
    (ortho.setup_ortho par proj_parm).1.a = par.a ∧
    (ortho.setup_ortho par proj_parm).1.ra = par.ra ∧
    (ortho.setup_ortho par proj_parm).1.e = par.e ∧
    (ortho.setup_ortho par proj_parm).1.one_es = par.one_es ∧
    (ortho.setup_ortho par proj_parm).1.rone_es = par.rone_es ∧
    (ortho.setup_ortho par proj_parm).1.es_orig = par.es_orig ∧
    (ortho.setup_ortho par proj_parm).1.a_orig = par.a_orig ∧
    (ortho.setup_ortho par proj_parm).1.over = par.over ∧
    (ortho.setup_ortho par proj_parm).1.geoc = par.geoc ∧
    (ortho.setup_ortho par proj_parm).1.is_latlong = par.is_latlong ∧
    (ortho.setup_ortho par proj_parm).1.is_geocent = par.is_geocent ∧
    (ortho.setup_ortho par proj_parm).1.lam0 = par.lam0 ∧
    (ortho.setup_ortho par proj_parm).1.phi0 = par.phi0 ∧
    (ortho.setup_ortho par proj_parm).1.x0 = par.x0 ∧
    (ortho.setup_ortho par proj_parm).1.y0 = par.y0 ∧
    (ortho.setup_ortho par proj_parm).1.k0 = par.k0 ∧
    (ortho.setup_ortho par proj_parm).1.to_meter = par.to_meter ∧
    (ortho.setup_ortho par proj_parm).1.fr_meter = par.fr_meter ∧
    (ortho.setup_ortho par proj_parm).1.vto_meter = par.vto_meter ∧
    (ortho.setup_ortho par proj_parm).1.vfr_meter = par.vfr_meter ∧
    (ortho.setup_ortho par proj_parm).1.datum_type = par.datum_type ∧
    (ortho.setup_ortho par proj_parm).1.datum_params = par.datum_params ∧
    (ortho.setup_ortho par proj_parm).1.from_greenwich = par.from_greenwich ∧
    (ortho.setup_ortho par proj_parm).1.long_wrap_center = par.long_wrap_center ∧
    (ortho.setup_ortho par proj_parm).1.is_long_wrap_set = par.is_long_wrap_set ∧
    (ortho.ortho_spheroid par proj_parm).m_par = (ortho.setup_ortho par proj_parm).1 :=
  ⟨rfl, rfl, rfl, rfl, rfl, rfl, rfl, rfl, rfl, rfl, rfl, rfl, rfl, rfl, rfl, rfl, rfl, rfl, rfl,
    rfl, rfl, rfl, rfl, rfl, rfl, rfl, rfl⟩

/-- C18: a default-constructed `pj_consts` has every numeric member equal to `0`, every
integer flag equal to `0`, `datum_type = PJD_UNKNOWN = 0` and `is_long_wrap_set = false`. -/
theorem pj_consts_default :
    pj_consts.init.a = 0 ∧ pj_consts.init.ra = 0 ∧ pj_consts.init.e = 0 ∧
    pj_consts.init.es = 0 ∧ pj_consts.init.one_es = 0 ∧ pj_consts.init.rone_es = 0 ∧
    pj_consts.init.es_orig = 0 ∧ pj_consts.init.a_orig = 0 ∧
    pj_consts.init.lam0 = 0 ∧ pj_consts.init.phi0 = 0 ∧
    pj_consts.init.x0 = 0 ∧ pj_consts.init.y0 = 0 ∧ pj_consts.init.k0 = 0 ∧
    pj_consts.init.to_meter = 0 ∧ pj_consts.init.fr_meter = 0 ∧
    pj_consts.init.vto_meter = 0 ∧ pj_consts.init.vfr_meter = 0 ∧
    pj_consts.init.from_greenwich = 0 ∧ pj_consts.init.long_wrap_center = 0 ∧
    (∀ i : Fin 7, pj_consts.init.datum_params i = 0) ∧
    pj_consts.init.over = 0 ∧ pj_consts.init.geoc = 0 ∧
    pj_consts.init.is_latlong = 0 ∧ pj_consts.init.is_geocent = 0 ∧
    pj_consts.init.datum_type = PJD_UNKNOWN ∧ PJD_UNKNOWN = 0 ∧
    pj_consts.init.is_long_wrap_set = false :=
  ⟨rfl, rfl, rfl, rfl, rfl, rfl, rfl, rfl, rfl, rfl, rfl, rfl, rfl, rfl, rfl, rfl, rfl, rfl, rfl,
    fun _ => rfl, rfl, rfl, rfl, rfl, rfl, rfl, rfl⟩

/-- C19: for every parameter block and every input, the QSC `fwd` and `inv` return a result
and raise no projection error; the `cosphi` that `inv` passes on to every `acos` is the
raw value forced into `[-1, 1]`: below `-1` it becomes `-1`, above `+1` it becomes `+1`. -/
theorem qsc_never_raises (P : qsc.base_qsc_ellipsoid) (a b : ℝ) :
    (∃ xy, P.fwd a b = Except.ok xy) ∧
    (∃ lp, P.inv a b = Except.ok lp) ∧
    (∀ mu nu theta : ℝ,
      -1 ≤ qsc.inv_cosphi mu nu theta ∧ qsc.inv_cosphi mu nu theta ≤ 1 ∧
      (1 - Real.cos mu * Real.cos mu * Real.tan nu * Real.tan nu *
          (1 - Real.cos (Real.arctan (1 / Real.cos theta))) < -1 →
        qsc.inv_cosphi mu nu theta = -1) ∧
      (1 < 1 - Real.cos mu * Real.cos mu * Real.tan nu * Real.tan nu *
          (1 - Real.cos (Real.arctan (1 / Real.cos theta))) →
        qsc.inv_cosphi mu nu theta = 1) ∧
      (-1 ≤ 1 - Real.cos mu * Real.cos mu * Real.tan nu * Real.tan nu *
          (1 - Real.cos (Real.arctan (1 / Real.cos theta))) →
        1 - Real.cos mu * Real.cos mu * Real.tan nu * Real.tan nu *
          (1 - Real.cos (Real.arctan (1 / Real.cos theta))) ≤ 1 →
        qsc.inv_cosphi mu nu theta =
          1 - Real.cos mu * Real.cos mu * Real.tan nu * Real.tan nu *
            (1 - Real.cos (Real.arctan (1 / Real.cos theta))))) ∧
    P.inv a b = Except.ok
      ((P.inv_face (qsc.inv_mu_area a b).2 (qsc.inv_theta (qsc.inv_mu_area a b).1)
          (qsc.inv_cosphi (qsc.inv_mu_area a b).1
            (Real.arctan (Real.sqrt (a * a + b * b)))
            (qsc.inv_theta (qsc.inv_mu_area a b).1))).1,
        P.inv_lat (P.inv_face (qsc.inv_mu_area a b).2 (qsc.inv_theta (qsc.inv_mu_area a b).1)
          (qsc.inv_cosphi (qsc.inv_mu_area a b).1
            (Real.arctan (Real.sqrt (a * a + b * b)))
            (qsc.inv_theta (qsc.inv_mu_area a b).1))).2) := by
  have h1 : (1.0 : ℝ) = 1 := by norm_num
  refine ⟨⟨_, rfl⟩, ⟨_, rfl⟩, ?_, rfl⟩
  intro mu nu theta
  simp only [qsc.inv_cosphi, h1]
  generalize 1 - Real.cos mu * Real.cos mu * Real.tan nu * Real.tan nu *
    (1 - Real.cos (Real.arctan (1 / Real.cos theta))) = c
  refine ⟨?_, ?_, ?_, ?_, ?_⟩
  · split_ifs with ha hb
    · exact le_refl _
    · norm_num
    · exact not_lt.mp ha
  · split_ifs with ha hb
    · norm_num
    · exact le_refl _
    · exact not_lt.mp hb
  · intro hc
    rw [if_pos hc]
  · intro hc
    rw [if_neg (by intro h; linarith), if_pos hc]
  · intro hc1 hc2
    rw [if_neg (not_lt.mpr hc1), if_neg (not_lt.mpr hc2)]

/-- Witness for C19: a clamped value, `cosphi = 1` at `mu = nu = theta = 0`. -/
theorem qsc_never_raises_witness : qsc.inv_cosphi 0 0 0 = 1 := by
  have h := ((qsc_never_raises ⟨pj_consts.init, ⟨qsc.Face.FACE_FRONT, 0, 0, 0, 0⟩⟩ 0 0).2.2.1
    0 0 0).2.2.2.2 (by simp) (by simp)
  simpa using h

/-- C20 (on the registry modelled from the spec): for every registry built from the empty
one by registrations only, and every name that none of them registered (for instance
`"bogus"`), `create` fails with `not_found` and returns no instance, whatever the
constructors and the parameter block are. -/
theorem factory_create_unregistered {Entry Instance : Type}
    (create_new : Entry → pj_consts → Instance)
    (regs : List (String × Entry)) (name : String) (par : pj_consts)
    (hname : ∀ e ∈ regs, e.1 ≠ name) :
    factory.Registry.create create_new
        (regs.foldl (fun reg e => reg.add_to_factory e.1 e.2) factory.Registry.empty)
        name par = Except.error factory.FactoryError.not_found ∧
    ∀ inst, factory.Registry.create create_new
        (regs.foldl (fun reg e => reg.add_to_factory e.1 e.2) factory.Registry.empty)
        name par ≠ Except.ok inst := by
  have hgen : ∀ (l : List (String × Entry)) (reg : factory.Registry Entry),
      (∀ e ∈ l, e.1 ≠ name) → (∀ e ∈ reg.entries, e.1 ≠ name) →
      ∀ e ∈ (l.foldl (fun reg e => reg.add_to_factory e.1 e.2) reg).entries, e.1 ≠ name := by
    intro l
    induction l with
    | nil => intro reg _ h; exact h
    | cons x xs ih =>
      intro reg hl hreg
      rw [List.foldl_cons]
      apply ih
      · intro e he
        exact hl e (List.mem_cons_of_mem _ he)
      · intro e he
        simp only [factory.Registry.add_to_factory, List.mem_cons] at he
        rcases he with he | he
        · rw [he]; exact hl x (List.mem_cons_self _ _)
        · exact hreg e he
  have hall := hgen regs factory.Registry.empty hname (by
    intro e he
    simp [factory.Registry.empty] at he)
  have hfind : (regs.foldl (fun reg e => reg.add_to_factory e.1 e.2)
      factory.Registry.empty).find name = none := by
    unfold factory.Registry.find
    have : (regs.foldl (fun reg e => reg.add_to_factory e.1 e.2)
        (factory.Registry.empty : factory.Registry Entry)).entries.find?
        (fun e => e.1 == name) = none := by
      rw [List.find?_eq_none]
      intro e he
      simpa using hall e he
    rw [this]
  have hcreate : factory.Registry.create create_new
      (regs.foldl (fun reg e => reg.add_to_factory e.1 e.2) factory.Registry.empty)
      name par = Except.error factory.FactoryError.not_found := by
    unfold factory.Registry.create
    rw [hfind]
  refine ⟨hcreate, fun inst h => ?_⟩
  rw [hcreate] at h
  exact absurd h (by simp)

/-- Witness for C20: after registering `"laea"` and `"ortho"`, `create "bogus"` fails. -/
theorem factory_create_unregistered_witness :
    factory.Registry.create (fun (e : Nat) (_ : pj_consts) => e)
      ((factory.Registry.empty.add_to_factory "laea" 0).add_to_factory "ortho" 1)
      "bogus" pj_consts.init = Except.error factory.FactoryError.not_found :=
  (factory_create_unregistered (fun (e : Nat) (_ : pj_consts) => e)
    [("laea", 0), ("ortho", 1)] "bogus" pj_consts.init (by decide)).1

/-! ## Swiss Oblique Mercator: the Mercator substitution -/

theorem mercator_inverse (u : ℝ) (hu : |u| < Real.pi / 2) :
    0 < Real.tan (fourth_pi + 0.5 * u) ∧
    2 * (Real.arctan (Real.exp (Real.log (Real.tan (fourth_pi + 0.5 * u)))) - fourth_pi) = u := by
  obtain ⟨h1, h2⟩ := abs_lt.mp hu
  have ha1 : 0 < fourth_pi + 0.5 * u := by rw [half_lit]; unfold fourth_pi; linarith
  have ha2 : fourth_pi + 0.5 * u < Real.pi / 2 := by rw [half_lit]; unfold fourth_pi; linarith
  have ht : 0 < Real.tan (fourth_pi + 0.5 * u) := Real.tan_pos_of_pos_of_lt_pi_div_two ha1 ha2
  refine ⟨ht, ?_⟩
  rw [Real.exp_log ht, Real.arctan_tan (by linarith) ha2, half_lit]
  unfold fourth_pi
  ring

/-! ## Quadrilateralized Spherical Cube: the angles `mu` and `theta` -/

theorem float_lits : (1.0 : ℝ) = 1 ∧ (2.0 : ℝ) = 2 ∧ (12.0 : ℝ) = 12 := by norm_num

/-- Within an eighth of a turn of zero the cosine dominates the sine. -/
theorem sin_le_cos_of_abs_le (θ : ℝ) (h : |θ| ≤ Real.pi / 4) :
    Real.sqrt 2 / 2 ≤ Real.cos θ ∧ Real.sin θ ≤ Real.sqrt 2 / 2 ∧
    -(Real.sqrt 2 / 2) ≤ Real.sin θ ∧
    (θ < Real.pi / 4 → Real.sin θ < Real.sqrt 2 / 2) ∧
    (-(Real.pi / 4) < θ → -(Real.sqrt 2 / 2) < Real.sin θ) := by
  have hpi := Real.pi_pos
  obtain ⟨h1, h2⟩ := abs_le.mp h
  refine ⟨?_, ?_, ?_, ?_, ?_⟩
  · rw [← Real.cos_pi_div_four, ← Real.cos_abs θ]
    exact Real.cos_le_cos_of_nonneg_of_le_pi (abs_nonneg θ) (by linarith) h
  · rw [← Real.sin_pi_div_four]
    exact Real.sin_le_sin_of_le_of_le_pi_div_two (by linarith) (by linarith) h2
  · rw [← Real.sin_pi_div_four, ← Real.sin_neg]
    exact Real.sin_le_sin_of_le_of_le_pi_div_two (by linarith) (by linarith) h1
  · intro hlt
    rw [← Real.sin_pi_div_four]
    exact Real.sin_lt_sin_of_lt_of_le_pi_div_two (by linarith) (by linarith) hlt
  · intro hlt
    rw [← Real.sin_pi_div_four, ← Real.sin_neg]
    exact Real.sin_lt_sin_of_lt_of_le_pi_div_two (by linarith) (by linarith) hlt

/-- The angle `theta - asin (sin theta * sqrt 2 / 2)` of the area of definition stays
within a twelfth of a half turn, strictly inside when `theta` is. -/
theorem qsc_mu_argument_range (θ : ℝ) (h : |θ| ≤ Real.pi / 4) :
    θ - Real.arcsin (Real.sin θ * (Real.sqrt 2 / 2)) ≤ Real.pi / 12 ∧
    -(Real.pi / 12) ≤ θ - Real.arcsin (Real.sin θ * (Real.sqrt 2 / 2)) ∧
    (θ < Real.pi / 4 → θ - Real.arcsin (Real.sin θ * (Real.sqrt 2 / 2)) < Real.pi / 12) ∧
    (-(Real.pi / 4) < θ →
      -(Real.pi / 12) < θ - Real.arcsin (Real.sin θ * (Real.sqrt 2 / 2))) := by
  have cos_sub_sin_pi_div_twelve :
      Real.cos (Real.pi / 12) - Real.sin (Real.pi / 12) = Real.sqrt 2 / 2 ∧
      0 < Real.sin (Real.pi / 12) := by
    have hpi := Real.pi_pos
    have h3 : Real.cos (Real.pi / 12 + Real.pi / 4) = 1 / 2 := by
      rw [show Real.pi / 12 + Real.pi / 4 = Real.pi / 3 by ring, Real.cos_pi_div_three]
    rw [Real.cos_add, Real.cos_pi_div_four, Real.sin_pi_div_four] at h3
    have h22 : Real.sqrt 2 * Real.sqrt 2 = 2 := Real.mul_self_sqrt (by norm_num)
    constructor
    · linear_combination Real.sqrt 2 * h3 +
        (1 / 2 : ℝ) * (Real.sin (Real.pi / 12) - Real.cos (Real.pi / 12)) * h22
    · exact Real.sin_pos_of_pos_of_lt_pi (by linarith) (by linarith)
  have hpi := Real.pi_pos
  obtain ⟨h1, h2⟩ := abs_le.mp h
  obtain ⟨hc, hs1, hs2, hs3, hs4⟩ := sin_le_cos_of_abs_le θ h
  obtain ⟨h12, hs12⟩ := cos_sub_sin_pi_div_twelve
  have h22 : Real.sqrt 2 * Real.sqrt 2 = 2 := Real.mul_self_sqrt (by norm_num)
  have hsq : 0 < Real.sqrt 2 := Real.sqrt_pos.mpr (by norm_num)
  have hsq1 : Real.sqrt 2 / 2 ≤ 1 := by nlinarith
  have hy : Real.sin θ * (Real.sqrt 2 / 2) ∈ Set.Icc (-1 : ℝ) 1 := by
    constructor <;> nlinarith [Real.sin_le_one θ, Real.neg_one_le_sin θ]
  have hup : Real.sin θ * (Real.sqrt 2 / 2) - Real.sin (θ - Real.pi / 12) =
      Real.sin (Real.pi / 12) * (Real.cos θ - Real.sin θ) := by
    rw [Real.sin_sub]
    linear_combination (-Real.sin θ) * h12
  have hlo : Real.sin (θ + Real.pi / 12) - Real.sin θ * (Real.sqrt 2 / 2) =
      Real.sin (Real.pi / 12) * (Real.cos θ + Real.sin θ) := by
    rw [Real.sin_add]
    linear_combination (Real.sin θ) * h12
  have hx1 : θ - Real.pi / 12 ∈ Set.Icc (-(Real.pi / 2)) (Real.pi / 2) := by
    constructor <;> linarith
  have hx2 : θ + Real.pi / 12 ∈ Set.Icc (-(Real.pi / 2)) (Real.pi / 2) := by
    constructor <;> linarith
  refine ⟨?_, ?_, ?_, ?_⟩
  · have : θ - Real.pi / 12 ≤ Real.arcsin (Real.sin θ * (Real.sqrt 2 / 2)) := by
      rw [Real.le_arcsin_iff_sin_le hx1 hy]
      nlinarith
    linarith
  · have : Real.arcsin (Real.sin θ * (Real.sqrt 2 / 2)) ≤ θ + Real.pi / 12 := by
      rw [Real.arcsin_le_iff_le_sin hy hx2]
      nlinarith
    linarith
  · intro hlt
    have : θ - Real.pi / 12 < Real.arcsin (Real.sin θ * (Real.sqrt 2 / 2)) := by
      rw [Real.lt_arcsin_iff_sin_lt hx1 hy]
      have := hs3 hlt
      nlinarith
    linarith
  · intro hlt
    have : Real.arcsin (Real.sin θ * (Real.sqrt 2 / 2)) < θ + Real.pi / 12 := by
      rw [Real.arcsin_lt_iff_lt_sin hy hx2]
      have := hs4 hlt
      nlinarith
    linarith

theorem qsc_fwd_mu_eq (θ : ℝ) :
    qsc.fwd_mu θ =
      Real.arctan (12 / Real.pi * (θ - Real.arcsin (Real.sin θ * (Real.sqrt 2 / 2)))) := by
  unfold qsc.fwd_mu pi half_pi fourth_pi
  rw [float_lits.2.2, Real.cos_pi_div_four, Real.arccos_eq_pi_div_two_sub_arcsin]
  congr 1
  ring

/-- The angle `mu` of `fwd` stays within an eighth of a turn on the area of definition,
strictly inside when `theta` is. -/
theorem qsc_fwd_mu_range (θ : ℝ) (h : |θ| ≤ Real.pi / 4) :
    |qsc.fwd_mu θ| ≤ Real.pi / 4 ∧
    (θ < Real.pi / 4 → qsc.fwd_mu θ < Real.pi / 4) ∧
    (-(Real.pi / 4) < θ → -(Real.pi / 4) < qsc.fwd_mu θ) := by
  have hpi := Real.pi_pos
  obtain ⟨g1, g2, g3, g4⟩ := qsc_mu_argument_range θ h
  rw [qsc_fwd_mu_eq]
  generalize θ - Real.arcsin (Real.sin θ * (Real.sqrt 2 / 2)) = g at g1 g2 g3 g4
  have hk : (0 : ℝ) < 12 / Real.pi := by positivity
  have e1 : 12 / Real.pi * (Real.pi / 12) = 1 := by field_simp
  have hm1 : Real.arctan (-1) = -(Real.pi / 4) := by rw [Real.arctan_neg, Real.arctan_one]
  have u1 : 12 / Real.pi * g ≤ 1 := by
    rw [← e1]; exact mul_le_mul_of_nonneg_left g1 hk.le
  have u2 : -1 ≤ 12 / Real.pi * g := by
    have := mul_le_mul_of_nonneg_left g2 hk.le
    rw [mul_neg, e1] at this
    exact this
  refine ⟨?_, ?_, ?_⟩
  · rw [abs_le]
    constructor
    · rw [← hm1]; exact Real.arctan_strictMono.monotone u2
    · rw [← Real.arctan_one]; exact Real.arctan_strictMono.monotone u1
  · intro hlt
    rw [← Real.arctan_one]
    apply Real.arctan_strictMono
    rw [← e1]
    exact mul_lt_mul_of_pos_left (g3 hlt) hk
  · intro hlt
    rw [← hm1]
    apply Real.arctan_strictMono
    have := mul_lt_mul_of_pos_left (g4 hlt) hk
    rw [mul_neg, e1] at this
    exact this

/-- Lines 353-355 of `inv` undo line 298 of `fwd` on the area of definition. -/
theorem qsc_inv_theta_fwd_mu (θ : ℝ) (h : |θ| ≤ Real.pi / 4) :
    qsc.inv_theta (qsc.fwd_mu θ) = θ := by
  have hpi := Real.pi_pos
  obtain ⟨h1, h2⟩ := abs_le.mp h
  obtain ⟨g1, g2, _, _⟩ := qsc_mu_argument_range θ h
  obtain ⟨hc, hs1, hs2, _, _⟩ := sin_le_cos_of_abs_le θ h
  have h22 : Real.sqrt 2 * Real.sqrt 2 = 2 := Real.mul_self_sqrt (by norm_num)
  have hsq : 0 < Real.sqrt 2 := Real.sqrt_pos.mpr (by norm_num)
  have hinv : 1 / Real.sqrt 2 = Real.sqrt 2 / 2 := by
    rw [div_eq_div_iff hsq.ne.symm (by norm_num)]
    linarith
  have hsa : Real.sin (Real.arcsin (Real.sin θ * (Real.sqrt 2 / 2))) =
      Real.sin θ * (Real.sqrt 2 / 2) := by
    apply Real.sin_arcsin <;> nlinarith [Real.sin_le_one θ, Real.neg_one_le_sin θ]
  have hcθ : 0 < Real.cos θ := lt_of_lt_of_le (by positivity) hc
  unfold qsc.inv_theta
  simp only []
  rw [qsc_fwd_mu_eq, Real.tan_arctan, float_lits.1, float_lits.2.1, float_lits.2.2, hinv]
  unfold pi
  have ht : Real.pi / 12 * (12 / Real.pi *
      (θ - Real.arcsin (Real.sin θ * (Real.sqrt 2 / 2)))) =
      θ - Real.arcsin (Real.sin θ * (Real.sqrt 2 / 2)) := by
    field_simp
    ring
  rw [ht]
  have hcg : Real.sqrt 2 / 2 < Real.cos (θ - Real.arcsin (Real.sin θ * (Real.sqrt 2 / 2))) := by
    have habs : |θ - Real.arcsin (Real.sin θ * (Real.sqrt 2 / 2))| < Real.pi / 4 := by
      rw [abs_lt]
      constructor <;> linarith
    have := Real.cos_lt_cos_of_nonneg_of_le_pi_div_two (abs_nonneg _) (by linarith) habs
    rwa [Real.cos_abs, Real.cos_pi_div_four] at this
  have hkey : Real.sin (θ - Real.arcsin (Real.sin θ * (Real.sqrt 2 / 2))) /
      (Real.cos (θ - Real.arcsin (Real.sin θ * (Real.sqrt 2 / 2))) - Real.sqrt 2 / 2) =
      Real.tan θ := by
    rw [Real.tan_eq_sin_div_cos, div_eq_div_iff (by linarith) hcθ.ne.symm, Real.sin_sub,
      Real.cos_sub, hsa]
    have := Real.sin_sq_add_cos_sq θ
    linear_combination (-(Real.sin θ * (Real.sqrt 2 / 2))) * this
  rw [hkey]
  exact Real.arctan_tan (by linarith) (by linarith)

theorem atan2_range (y x : ℝ) : -Real.pi < atan2 y x ∧ atan2 y x ≤ Real.pi :=
  ⟨Complex.neg_pi_lt_arg _, Complex.arg_le_pi _⟩

theorem atan2_polar (y x : ℝ) :
    Real.sqrt (x * x + y * y) * Real.cos (atan2 y x) = x ∧
    Real.sqrt (x * x + y * y) * Real.sin (atan2 y x) = y := by
  have habs : Complex.abs ⟨x, y⟩ = Real.sqrt (x * x + y * y) := by
    rw [Complex.abs_apply, Complex.normSq_mk]
  unfold atan2
  rw [← habs]
  exact ⟨Complex.abs_mul_cos_arg _, Complex.abs_mul_sin_arg _⟩

/-- On the four equatorial faces `fwd` works with the same angles: `phi` is the angle
between the point and the centre `(0, 0)`, and `theta` comes from
`qsc_fwd_equat_face_theta` on `(sin lat, cos lat * sin lon)`. -/
theorem qsc_equat_fwd (P : qsc.base_qsc_ellipsoid)
    (hT : P.m_proj_parm.face ≠ qsc.Face.FACE_TOP)
    (hB : P.m_proj_parm.face ≠ qsc.Face.FACE_BOTTOM) (lon lat : ℝ) :
    P.fwd_theta_phi lon lat =
      ((qsc.qsc_fwd_equat_face_theta (Real.arccos (Real.cos lat * Real.cos lon))
          (Real.sin lat) (Real.cos lat * Real.sin lon)).1,
        Real.arccos (Real.cos lat * Real.cos lon),
        (qsc.qsc_fwd_equat_face_theta (Real.arccos (Real.cos lat * Real.cos lon))
          (Real.sin lat) (Real.cos lat * Real.sin lon)).2) := by
  have qsc_shift_lon_origin_trig : ∀ (lon offset : ℝ),
      Real.cos (qsc.qsc_shift_lon_origin lon offset) = Real.cos (lon + offset) ∧
      Real.sin (qsc.qsc_shift_lon_origin lon offset) = Real.sin (lon + offset) := by
    intro lon offset
    unfold qsc.qsc_shift_lon_origin two_pi
    simp only []
    by_cases h1 : lon + offset < -pi
    · rw [if_pos h1, Real.cos_add_two_pi, Real.sin_add_two_pi]
      exact ⟨rfl, rfl⟩
    · rw [if_neg h1]
      by_cases h2 : lon + offset > pi
      · rw [if_pos h2, Real.cos_sub_two_pi, Real.sin_sub_two_pi]
        exact ⟨rfl, rfl⟩
      · rw [if_neg h2]
        exact ⟨rfl, rfl⟩
  cases hf : P.m_proj_parm.face with
  | FACE_TOP => exact absurd hf hT
  | FACE_BOTTOM => exact absurd hf hB
  | FACE_FRONT =>
    unfold qsc.base_qsc_ellipsoid.fwd_theta_phi
    rw [hf]
  | FACE_RIGHT =>
    obtain ⟨hc, hs⟩ := qsc_shift_lon_origin_trig lon half_pi
    unfold half_pi at hc hs
    rw [Real.cos_add_pi_div_two] at hc
    rw [Real.sin_add_pi_div_two] at hs
    unfold qsc.base_qsc_ellipsoid.fwd_theta_phi
    rw [hf]
    show ((qsc.qsc_fwd_equat_face_theta
        (Real.arccos (Real.cos lat * Real.sin (qsc.qsc_shift_lon_origin lon (Real.pi / 2))))
        (Real.sin lat) (-(Real.cos lat * Real.cos (qsc.qsc_shift_lon_origin lon (Real.pi / 2))))).1,
      Real.arccos (Real.cos lat * Real.sin (qsc.qsc_shift_lon_origin lon (Real.pi / 2))),
      (qsc.qsc_fwd_equat_face_theta
        (Real.arccos (Real.cos lat * Real.sin (qsc.qsc_shift_lon_origin lon (Real.pi / 2))))
        (Real.sin lat)
        (-(Real.cos lat * Real.cos (qsc.qsc_shift_lon_origin lon (Real.pi / 2))))).2) = _
    rw [hc, hs, mul_neg, neg_neg]
  | FACE_BACK =>
    obtain ⟨hc, hs⟩ := qsc_shift_lon_origin_trig lon pi
    unfold pi at hc hs
    rw [Real.cos_add_pi] at hc
    rw [Real.sin_add_pi] at hs
    unfold qsc.base_qsc_ellipsoid.fwd_theta_phi
    rw [hf]
    show ((qsc.qsc_fwd_equat_face_theta
        (Real.arccos (-(Real.cos lat * Real.cos (qsc.qsc_shift_lon_origin lon Real.pi))))
        (Real.sin lat) (-(Real.cos lat * Real.sin (qsc.qsc_shift_lon_origin lon Real.pi)))).1,
      Real.arccos (-(Real.cos lat * Real.cos (qsc.qsc_shift_lon_origin lon Real.pi))),
      (qsc.qsc_fwd_equat_face_theta
        (Real.arccos (-(Real.cos lat * Real.cos (qsc.qsc_shift_lon_origin lon Real.pi))))
        (Real.sin lat)
        (-(Real.cos lat * Real.sin (qsc.qsc_shift_lon_origin lon Real.pi)))).2) = _
    rw [hc, hs, mul_neg, neg_neg, mul_neg, neg_neg]
  | FACE_LEFT =>
    obtain ⟨hc, hs⟩ := qsc_shift_lon_origin_trig lon (-half_pi)
    unfold half_pi at hc hs
    rw [← sub_eq_add_neg, Real.cos_sub_pi_div_two] at hc
    rw [← sub_eq_add_neg, Real.sin_sub_pi_div_two] at hs
    unfold qsc.base_qsc_ellipsoid.fwd_theta_phi
    rw [hf]
    show ((qsc.qsc_fwd_equat_face_theta
        (Real.arccos (-(Real.cos lat * Real.sin (qsc.qsc_shift_lon_origin lon (-(Real.pi / 2))))))
        (Real.sin lat) (Real.cos lat * Real.cos (qsc.qsc_shift_lon_origin lon (-(Real.pi / 2))))).1,
      Real.arccos (-(Real.cos lat * Real.sin (qsc.qsc_shift_lon_origin lon (-(Real.pi / 2))))),
      (qsc.qsc_fwd_equat_face_theta
        (Real.arccos (-(Real.cos lat * Real.sin (qsc.qsc_shift_lon_origin lon (-(Real.pi / 2))))))
        (Real.sin lat)
        (Real.cos lat * Real.cos (qsc.qsc_shift_lon_origin lon (-(Real.pi / 2))))).2) = _
    rw [hc, hs, mul_neg, neg_neg]

/-! ## Factory entries -/

/-- C21 (on the registry modelled from the spec): each of `laea_init`, `ortho_init`,
`qsc_init` and `somerc_init` adds exactly one entry to the registry, the object of its own
entry class, under the key `"laea"`, `"ortho"`, `"qsc"`, `"somerc"`; the four keys are
pairwise distinct; after the four functions have run on the empty registry each key finds
the entry of its own family; and the same holds in whichever order the four
registrations are made. -/
theorem factory_init_keys (reg : factory.Registry factory.Entry) :
    (factory.laea_init reg).entries = ("laea", factory.Entry.laea_entry) :: reg.entries ∧
    (factory.ortho_init reg).entries = ("ortho", factory.Entry.ortho_entry) :: reg.entries ∧
    (factory.qsc_init reg).entries = ("qsc", factory.Entry.qsc_entry) :: reg.entries ∧
    (factory.somerc_init reg).entries =
      ("somerc", factory.Entry.somerc_entry) :: reg.entries ∧
    ("laea" ≠ "ortho" ∧ "laea" ≠ "qsc" ∧ "laea" ≠ "somerc" ∧ "ortho" ≠ "qsc" ∧
      "ortho" ≠ "somerc" ∧ "qsc" ≠ "somerc") ∧
    ((factory.somerc_init (factory.qsc_init (factory.ortho_init
        (factory.laea_init factory.Registry.empty)))).find "laea" =
          some factory.Entry.laea_entry ∧
      (factory.somerc_init (factory.qsc_init (factory.ortho_init
        (factory.laea_init factory.Registry.empty)))).find "ortho" =
          some factory.Entry.ortho_entry ∧
      (factory.somerc_init (factory.qsc_init (factory.ortho_init
        (factory.laea_init factory.Registry.empty)))).find "qsc" =
          some factory.Entry.qsc_entry ∧
      (factory.somerc_init (factory.qsc_init (factory.ortho_init
        (factory.laea_init factory.Registry.empty)))).find "somerc" =
          some factory.Entry.somerc_entry) ∧
    (∀ regs : List (String × factory.Entry),
      regs.Perm [("laea", factory.Entry.laea_entry), ("ortho", factory.Entry.ortho_entry),
        ("qsc", factory.Entry.qsc_entry), ("somerc", factory.Entry.somerc_entry)] →
      ∀ p ∈ [("laea", factory.Entry.laea_entry), ("ortho", factory.Entry.ortho_entry),
        ("qsc", factory.Entry.qsc_entry), ("somerc", factory.Entry.somerc_entry)],
      (regs.foldl (fun r e => r.add_to_factory e.1 e.2) factory.Registry.empty).find p.1 =
        some p.2) := by
  refine ⟨rfl, rfl, rfl, rfl, by decide, ⟨by decide, by decide, by decide, by decide⟩, ?_⟩
  intro regs hperm p hp
  have hentries : ∀ (l : List (String × factory.Entry)) (r : factory.Registry factory.Entry),
      (l.foldl (fun r e => r.add_to_factory e.1 e.2) r).entries = l.reverse ++ r.entries := by
    intro l
    induction l with
    | nil => intro r; rfl
    | cons x xs ih =>
      intro r
      rw [List.foldl_cons, ih, List.reverse_cons, List.append_assoc]
      rfl
  have hrev : regs.reverse.Perm [("laea", factory.Entry.laea_entry),
      ("ortho", factory.Entry.ortho_entry), ("qsc", factory.Entry.qsc_entry),
      ("somerc", factory.Entry.somerc_entry)] := (List.reverse_perm regs).trans hperm
  have hnodup : (regs.reverse.map Prod.fst).Nodup :=
    ((hrev.map Prod.fst).nodup_iff).mpr (by decide)
  have hmem : p ∈ regs.reverse := hrev.mem_iff.mpr hp
  unfold factory.Registry.find
  rw [hentries, List.append_nil]
  cases hfind : regs.reverse.find? (fun e => e.1 == p.1) with
  | none =>
    have := List.find?_eq_none.mp hfind p hmem
    simp at this
  | some x =>
    have hx : x ∈ regs.reverse := List.mem_of_find?_eq_some hfind
    have hk : x.1 = p.1 := by
      have := List.find?_some hfind
      simpa using this
    have hxp : x = p := List.inj_on_of_nodup_map hnodup hx hmem hk
    rw [hxp]

/-- C22: `laea_entry::create_new` builds the ellipsoidal LAEA kernel when `es ≠ 0` and the
spherical LAEA kernel when `es = 0`, for every parameter block; and the instance it
builds from a block with `es = 0`, `phi0 = 0` is the spherical kernel on which
`fwd(0, 0) = (0, 0)` and `fwd(pi/2, 0) = (sqrt 2, 0)`. -/
theorem laea_entry_dispatch {Apa : Type} (pj_qsfn : ℝ → ℝ → ℝ → ℝ) (pj_authset : ℝ → Apa)
    (par : pj_consts) (proj_parm0 : laea.par_laea Apa) :
    (par.es ≠ 0 → laea.laea_entry.create_new pj_qsfn pj_authset par proj_parm0 =
      Sum.inl (laea.laea_ellipsoid pj_qsfn pj_authset par proj_parm0)) ∧
    (par.es = 0 → laea.laea_entry.create_new pj_qsfn pj_authset par proj_parm0 =
      Sum.inr (laea.laea_spheroid pj_qsfn pj_authset par proj_parm0)) ∧
    (par.es = 0 → par.phi0 = 0 →
      ∃ P, laea.laea_entry.create_new pj_qsfn pj_authset par proj_parm0 = Sum.inr P ∧
        P.fwd 0 0 = Except.ok (0, 0) ∧
        P.fwd (Real.pi / 2) 0 = Except.ok (Real.sqrt 2, 0)) := by
  have h1 : par.es ≠ 0 → laea.laea_entry.create_new pj_qsfn pj_authset par proj_parm0 =
      Sum.inl (laea.laea_ellipsoid pj_qsfn pj_authset par proj_parm0) := by
    intro h
    unfold laea.laea_entry.create_new
    rw [if_pos h]
  have h2 : par.es = 0 → laea.laea_entry.create_new pj_qsfn pj_authset par proj_parm0 =
      Sum.inr (laea.laea_spheroid pj_qsfn pj_authset par proj_parm0) := by
    intro h
    unfold laea.laea_entry.create_new
    rw [if_neg (not_not.mpr h)]
  refine ⟨h1, h2, fun hes hphi => ?_⟩
  have hpos := laea_EPS10_pos
  have heps : laea.EPS10 < 1 / 2 := by unfold laea.EPS10; norm_num
  obtain ⟨hmode, _⟩ := laea_spheroid_mode pj_qsfn pj_authset par proj_parm0 hes
  rw [hphi, laea_setup_mode_zero] at hmode
  refine ⟨_, h2 hes, ?_, ?_⟩
  · have hk : ¬ 1 + Real.cos 0 * Real.cos 0 ≤ laea.EPS10 := by
      rw [Real.cos_zero]
      intro h; linarith
    simp only [laea.base_laea_spheroid.fwd, hmode, if_neg hk]
    rw [Real.cos_zero, Real.sin_zero]
    norm_num
  · have hk : ¬ 1 + Real.cos 0 * Real.cos (Real.pi / 2) ≤ laea.EPS10 := by
      rw [Real.cos_zero, Real.cos_pi_div_two]
      intro h; linarith
    simp only [laea.base_laea_spheroid.fwd, hmode, if_neg hk]
    rw [Real.cos_zero, Real.cos_pi_div_two, Real.sin_zero, Real.sin_pi_div_two]
    norm_num

/-! ## Quadrilateralized Spherical Cube: the areas -/

/-- C23: `qsc_fwd_equat_face_theta` returns `theta = 0` on `AREA_0` when `phi < EPS10`.
Otherwise, with `theta0 = atan2(y, x)` in `(-pi, pi]`, it returns an area `k` and a
`theta` in `[-pi/4, pi/4]` with `theta0 = theta + k * pi/2` modulo `2 * pi` (`k` the
number of the area), where `k = 0` iff `|theta0| ≤ pi/4`, `k = 1` iff
`pi/4 < theta0 ≤ 3*pi/4`, `k = 2` iff `theta0 > 3*pi/4` or `theta0 ≤ -3*pi/4`, and
`k = 3` in every other case. -/
theorem qsc_equat_theta_split (φ y x : ℝ) :
    (φ < qsc.EPS10 → qsc.qsc_fwd_equat_face_theta φ y x = (0, qsc.Area.AREA_0)) ∧
    (¬ φ < qsc.EPS10 →
      (-Real.pi < atan2 y x ∧ atan2 y x ≤ Real.pi) ∧
      |(qsc.qsc_fwd_equat_face_theta φ y x).1| ≤ Real.pi / 4 ∧
      (∃ n : ℤ, atan2 y x = (qsc.qsc_fwd_equat_face_theta φ y x).1 +
        ((qsc.qsc_fwd_equat_face_theta φ y x).2.toCtorIdx : ℝ) * (Real.pi / 2) +
        n * (2 * Real.pi)) ∧
      ((qsc.qsc_fwd_equat_face_theta φ y x).2 = qsc.Area.AREA_0 ↔
        |atan2 y x| ≤ Real.pi / 4) ∧
      ((qsc.qsc_fwd_equat_face_theta φ y x).2 = qsc.Area.AREA_1 ↔
        Real.pi / 4 < atan2 y x ∧ atan2 y x ≤ 3 * Real.pi / 4) ∧
      ((qsc.qsc_fwd_equat_face_theta φ y x).2 = qsc.Area.AREA_2 ↔
        3 * Real.pi / 4 < atan2 y x ∨ atan2 y x ≤ -(3 * Real.pi / 4)) ∧
      ((qsc.qsc_fwd_equat_face_theta φ y x).2 = qsc.Area.AREA_3 ↔
        ¬ |atan2 y x| ≤ Real.pi / 4 ∧
        ¬ (Real.pi / 4 < atan2 y x ∧ atan2 y x ≤ 3 * Real.pi / 4) ∧
        ¬ (3 * Real.pi / 4 < atan2 y x ∨ atan2 y x ≤ -(3 * Real.pi / 4)))) := by
  have hpi := Real.pi_pos
  constructor
  · intro hφ
    unfold qsc.qsc_fwd_equat_face_theta
    rw [if_pos hφ, zero_lit]
  intro hφ
  obtain ⟨ha1, ha2⟩ := atan2_range y x
  have hdef : qsc.qsc_fwd_equat_face_theta φ y x =
      if |atan2 y x| ≤ Real.pi / 4 then (atan2 y x, qsc.Area.AREA_0)
      else if atan2 y x > Real.pi / 4 ∧ atan2 y x ≤ Real.pi / 2 + Real.pi / 4 then
        (atan2 y x - Real.pi / 2, qsc.Area.AREA_1)
      else if atan2 y x > Real.pi / 2 + Real.pi / 4 ∨
          atan2 y x ≤ -(Real.pi / 2 + Real.pi / 4) then
        ((if atan2 y x ≥ 0 then atan2 y x - Real.pi else atan2 y x + Real.pi),
          qsc.Area.AREA_2)
      else (atan2 y x + Real.pi / 2, qsc.Area.AREA_3) := by
    unfold qsc.qsc_fwd_equat_face_theta
    rw [if_neg hφ, ← zero_lit]
    rfl
  rw [hdef]
  generalize atan2 y x = a at ha1 ha2
  refine ⟨⟨ha1, ha2⟩, ?_⟩
  have e34 : Real.pi / 2 + Real.pi / 4 = 3 * Real.pi / 4 := by ring
  rw [e34]
  by_cases c0 : |a| ≤ Real.pi / 4
  · obtain ⟨b1, b2⟩ := abs_le.mp c0
    rw [if_pos c0]
    refine ⟨c0, ⟨0, ?_⟩, ⟨fun _ => c0, fun _ => rfl⟩, ⟨fun h => qsc.Area.noConfusion h, ?_⟩,
      ⟨fun h => qsc.Area.noConfusion h, ?_⟩, ⟨fun h => qsc.Area.noConfusion h, ?_⟩⟩
    · show a = a + ((0 : ℕ) : ℝ) * (Real.pi / 2) + ((0 : ℤ) : ℝ) * (2 * Real.pi)
      push_cast; ring
    · intro h; linarith [h.1]
    · intro h; rcases h with h | h <;> linarith
    · intro h; exact absurd c0 h.1
  rw [if_neg c0]
  by_cases c1 : a > Real.pi / 4 ∧ a ≤ 3 * Real.pi / 4
  · rw [if_pos c1]
    refine ⟨?_, ⟨0, ?_⟩, ⟨fun h => qsc.Area.noConfusion h, fun h => absurd h c0⟩,
      ⟨fun _ => c1, fun _ => rfl⟩, ⟨fun h => qsc.Area.noConfusion h, ?_⟩,
      ⟨fun h => qsc.Area.noConfusion h, ?_⟩⟩
    · show |a - Real.pi / 2| ≤ _
      rw [abs_le]; constructor <;> linarith [c1.1, c1.2]
    · show a = a - Real.pi / 2 + ((1 : ℕ) : ℝ) * (Real.pi / 2) + ((0 : ℤ) : ℝ) * (2 * Real.pi)
      push_cast; ring
    · intro h; rcases h with h | h <;> linarith [c1.1, c1.2]
    · intro h; exact absurd c1 h.2.1
  rw [if_neg c1]
  by_cases c2 : a > 3 * Real.pi / 4 ∨ a ≤ -(3 * Real.pi / 4)
  · rw [if_pos c2]
    have hrest : ((if a ≥ 0 then a - Real.pi else a + Real.pi, qsc.Area.AREA_2).2 =
        qsc.Area.AREA_0 ↔ |a| ≤ Real.pi / 4) ∧
        ((if a ≥ 0 then a - Real.pi else a + Real.pi, qsc.Area.AREA_2).2 =
        qsc.Area.AREA_1 ↔ Real.pi / 4 < a ∧ a ≤ 3 * Real.pi / 4) ∧
        ((if a ≥ 0 then a - Real.pi else a + Real.pi, qsc.Area.AREA_2).2 =
        qsc.Area.AREA_2 ↔ 3 * Real.pi / 4 < a ∨ a ≤ -(3 * Real.pi / 4)) ∧
        ((if a ≥ 0 then a - Real.pi else a + Real.pi, qsc.Area.AREA_2).2 =
        qsc.Area.AREA_3 ↔ ¬ |a| ≤ Real.pi / 4 ∧ ¬ (Real.pi / 4 < a ∧ a ≤ 3 * Real.pi / 4) ∧
          ¬ (3 * Real.pi / 4 < a ∨ a ≤ -(3 * Real.pi / 4))) :=
      ⟨⟨fun h => qsc.Area.noConfusion h, fun h => absurd h c0⟩,
        ⟨fun h => qsc.Area.noConfusion h, fun h => absurd h c1⟩,
        ⟨fun _ => c2, fun _ => rfl⟩,
        ⟨fun h => qsc.Area.noConfusion h, fun h => absurd c2 h.2.2⟩⟩
    rcases c2 with c | c
    · have hge : a ≥ 0 := by linarith
      refine ⟨?_, ⟨0, ?_⟩, hrest⟩
      · show |if a ≥ 0 then a - Real.pi else a + Real.pi| ≤ _
        rw [if_pos hge, abs_le]; constructor <;> linarith
      · show a = (if a ≥ 0 then a - Real.pi else a + Real.pi) +
          ((2 : ℕ) : ℝ) * (Real.pi / 2) + ((0 : ℤ) : ℝ) * (2 * Real.pi)
        rw [if_pos hge]; push_cast; ring
    · have hge : ¬ a ≥ 0 := by linarith
      refine ⟨?_, ⟨-1, ?_⟩, hrest⟩
      · show |if a ≥ 0 then a - Real.pi else a + Real.pi| ≤ _
        rw [if_neg hge, abs_le]; constructor <;> linarith
      · show a = (if a ≥ 0 then a - Real.pi else a + Real.pi) +
          ((2 : ℕ) : ℝ) * (Real.pi / 2) + ((-1 : ℤ) : ℝ) * (2 * Real.pi)
        rw [if_neg hge]; push_cast; ring
  rw [if_neg c2]
  have h1 : a < -(Real.pi / 4) := by
    rcases not_and_or.mp c1 with h | h
    · by_contra hh
      exact c0 (abs_le.mpr ⟨le_of_not_lt hh, le_of_not_lt h⟩)
    · rw [not_or] at c2
      exact absurd (lt_of_not_le h) c2.1
  have h2 : -(3 * Real.pi / 4) < a := by
    rw [not_or] at c2
    exact lt_of_not_le c2.2
  refine ⟨?_, ⟨-1, ?_⟩, ⟨fun h => qsc.Area.noConfusion h, fun h => absurd h c0⟩,
    ⟨fun h => qsc.Area.noConfusion h, fun h => absurd h c1⟩,
    ⟨fun h => qsc.Area.noConfusion h, fun h => absurd h c2⟩,
    ⟨fun _ => ⟨c0, c1, c2⟩, fun _ => rfl⟩⟩
  · show |a + Real.pi / 2| ≤ _
    rw [abs_le]; constructor <;> linarith
  · show a = a + Real.pi / 2 + ((3 : ℕ) : ℝ) * (Real.pi / 2) + ((-1 : ℤ) : ℝ) * (2 * Real.pi)
    push_cast; ring

/-- C24: for every `lon` in `[-pi, pi]` the TOP and BOTTOM branches of `fwd` assign an
area `k` and a local `theta` in `[-pi/4, pi/4]` such that, modulo `2 * pi`,
`lon = theta + pi/2 + k * pi/2` on the TOP face and `lon = pi/2 - theta - k * pi/2` on the
BOTTOM face (`k` the number of the area). -/
theorem qsc_polar_area_split (P : qsc.base_qsc_ellipsoid) (lon lat : ℝ)
    (hlon : |lon| ≤ Real.pi) :
    (P.m_proj_parm.face = qsc.Face.FACE_TOP →
      |(P.fwd_theta_phi lon lat).1| ≤ Real.pi / 4 ∧
      ∃ n : ℤ, lon = (P.fwd_theta_phi lon lat).1 + Real.pi / 2 +
        ((P.fwd_theta_phi lon lat).2.2.toCtorIdx : ℝ) * (Real.pi / 2) +
        n * (2 * Real.pi)) ∧
    (P.m_proj_parm.face = qsc.Face.FACE_BOTTOM →
      |(P.fwd_theta_phi lon lat).1| ≤ Real.pi / 4 ∧
      ∃ n : ℤ, lon = Real.pi / 2 - (P.fwd_theta_phi lon lat).1 -
        ((P.fwd_theta_phi lon lat).2.2.toCtorIdx : ℝ) * (Real.pi / 2) +
        n * (2 * Real.pi)) := by
  have hpi := Real.pi_pos
  obtain ⟨hl1, hl2⟩ := abs_le.mp hlon
  constructor
  · intro hface
    have hfwd : P.fwd_theta_phi lon lat =
        if lon ≥ Real.pi / 4 ∧ lon ≤ Real.pi / 2 + Real.pi / 4 then
          (lon - Real.pi / 2, Real.pi / 2 - lat, qsc.Area.AREA_0)
        else if lon > Real.pi / 2 + Real.pi / 4 ∨ lon ≤ -(Real.pi / 2 + Real.pi / 4) then
          ((if lon > 0 then lon - Real.pi else lon + Real.pi), Real.pi / 2 - lat,
            qsc.Area.AREA_1)
        else if lon > -(Real.pi / 2 + Real.pi / 4) ∧ lon ≤ -(Real.pi / 4) then
          (lon + Real.pi / 2, Real.pi / 2 - lat, qsc.Area.AREA_2)
        else (lon, Real.pi / 2 - lat, qsc.Area.AREA_3) := by
      unfold qsc.base_qsc_ellipsoid.fwd_theta_phi
      rw [hface, ← zero_lit]
      rfl
    rw [hfwd]
    by_cases c0 : lon ≥ Real.pi / 4 ∧ lon ≤ Real.pi / 2 + Real.pi / 4
    · rw [if_pos c0]
      refine ⟨?_, 0, ?_⟩
      · show |lon - Real.pi / 2| ≤ _
        rw [abs_le]; constructor <;> linarith [c0.1, c0.2]
      · show lon = lon - Real.pi / 2 + Real.pi / 2 + ((0 : ℕ) : ℝ) * (Real.pi / 2) +
          ((0 : ℤ) : ℝ) * (2 * Real.pi)
        push_cast; ring
    rw [if_neg c0]
    by_cases c1 : lon > Real.pi / 2 + Real.pi / 4 ∨ lon ≤ -(Real.pi / 2 + Real.pi / 4)
    · rw [if_pos c1]
      rcases c1 with c | c
      · have hpos : lon > 0 := by linarith
        refine ⟨?_, 0, ?_⟩
        · show |if lon > 0 then lon - Real.pi else lon + Real.pi| ≤ _
          rw [if_pos hpos, abs_le]; constructor <;> linarith
        · show lon = (if lon > 0 then lon - Real.pi else lon + Real.pi) + Real.pi / 2 +
            ((1 : ℕ) : ℝ) * (Real.pi / 2) + ((0 : ℤ) : ℝ) * (2 * Real.pi)
          rw [if_pos hpos]; push_cast; ring
      · have hpos : ¬ lon > 0 := by linarith
        refine ⟨?_, -1, ?_⟩
        · show |if lon > 0 then lon - Real.pi else lon + Real.pi| ≤ _
          rw [if_neg hpos, abs_le]; constructor <;> linarith
        · show lon = (if lon > 0 then lon - Real.pi else lon + Real.pi) + Real.pi / 2 +
            ((1 : ℕ) : ℝ) * (Real.pi / 2) + ((-1 : ℤ) : ℝ) * (2 * Real.pi)
          rw [if_neg hpos]; push_cast; ring
    rw [if_neg c1]
    by_cases c2 : lon > -(Real.pi / 2 + Real.pi / 4) ∧ lon ≤ -(Real.pi / 4)
    · rw [if_pos c2]
      refine ⟨?_, -1, ?_⟩
      · show |lon + Real.pi / 2| ≤ _
        rw [abs_le]; constructor <;> linarith [c2.1, c2.2]
      · show lon = lon + Real.pi / 2 + Real.pi / 2 + ((2 : ℕ) : ℝ) * (Real.pi / 2) +
          ((-1 : ℤ) : ℝ) * (2 * Real.pi)
        push_cast; ring
    rw [if_neg c2]
    have h1 : -(Real.pi / 4) < lon := by
      rw [not_or] at c1
      rcases not_and_or.mp c2 with h | h
      · exact absurd (lt_of_not_le c1.2) h
      · exact lt_of_not_le h
    have h2 : lon < Real.pi / 4 := by
      rcases not_and_or.mp c0 with h | h
      · exact lt_of_not_le h
      · rw [not_or] at c1
        exact absurd (le_of_not_lt c1.1) h
    refine ⟨?_, -1, ?_⟩
    · show |lon| ≤ _
      rw [abs_le]; constructor <;> linarith
    · show lon = lon + Real.pi / 2 + ((3 : ℕ) : ℝ) * (Real.pi / 2) +
        ((-1 : ℤ) : ℝ) * (2 * Real.pi)
      push_cast; ring
  · intro hface
    have hfwd : P.fwd_theta_phi lon lat =
        if lon ≥ Real.pi / 4 ∧ lon ≤ Real.pi / 2 + Real.pi / 4 then
          (-lon + Real.pi / 2, Real.pi / 2 + lat, qsc.Area.AREA_0)
        else if lon < Real.pi / 4 ∧ lon ≥ -(Real.pi / 4) then
          (-lon, Real.pi / 2 + lat, qsc.Area.AREA_1)
        else if lon < -(Real.pi / 4) ∧ lon ≥ -(Real.pi / 2 + Real.pi / 4) then
          (-lon - Real.pi / 2, Real.pi / 2 + lat, qsc.Area.AREA_2)
        else ((if lon > 0 then -lon + Real.pi else -lon - Real.pi), Real.pi / 2 + lat,
          qsc.Area.AREA_3) := by
      unfold qsc.base_qsc_ellipsoid.fwd_theta_phi
      rw [hface, ← zero_lit]
      rfl
    rw [hfwd]
    by_cases c0 : lon ≥ Real.pi / 4 ∧ lon ≤ Real.pi / 2 + Real.pi / 4
    · rw [if_pos c0]
      refine ⟨?_, 0, ?_⟩
      · show |-lon + Real.pi / 2| ≤ _
        rw [abs_le]; constructor <;> linarith [c0.1, c0.2]
      · show lon = Real.pi / 2 - (-lon + Real.pi / 2) - ((0 : ℕ) : ℝ) * (Real.pi / 2) +
          ((0 : ℤ) : ℝ) * (2 * Real.pi)
        push_cast; ring
    rw [if_neg c0]
    by_cases c1 : lon < Real.pi / 4 ∧ lon ≥ -(Real.pi / 4)
    · rw [if_pos c1]
      refine ⟨?_, 0, ?_⟩
      · show |-lon| ≤ _
        rw [abs_le]; constructor <;> linarith [c1.1, c1.2]
      · show lon = Real.pi / 2 - -lon - ((1 : ℕ) : ℝ) * (Real.pi / 2) +
          ((0 : ℤ) : ℝ) * (2 * Real.pi)
        push_cast; ring
    rw [if_neg c1]
    by_cases c2 : lon < -(Real.pi / 4) ∧ lon ≥ -(Real.pi / 2 + Real.pi / 4)
    · rw [if_pos c2]
      refine ⟨?_, 0, ?_⟩
      · show |-lon - Real.pi / 2| ≤ _
        rw [abs_le]; constructor <;> linarith [c2.1, c2.2]
      · show lon = Real.pi / 2 - (-lon - Real.pi / 2) - ((2 : ℕ) : ℝ) * (Real.pi / 2) +
          ((0 : ℤ) : ℝ) * (2 * Real.pi)
        push_cast; ring
    rw [if_neg c2]
    by_cases c3 : lon > 0
    · have h3 : lon > Real.pi / 2 + Real.pi / 4 := by
        rcases not_and_or.mp c0 with h | h
        · rcases not_and_or.mp c1 with h' | h'
          · exact absurd (lt_of_not_le h) h'
          · linarith [lt_of_not_le h']
        · exact lt_of_not_le h
      refine ⟨?_, 1, ?_⟩
      · show |if lon > 0 then -lon + Real.pi else -lon - Real.pi| ≤ _
        rw [if_pos c3, abs_le]; constructor <;> linarith
      · show lon = Real.pi / 2 - (if lon > 0 then -lon + Real.pi else -lon - Real.pi) -
          ((3 : ℕ) : ℝ) * (Real.pi / 2) + ((1 : ℤ) : ℝ) * (2 * Real.pi)
        rw [if_pos c3]; push_cast; ring
    · have h1 : lon < -(Real.pi / 4) := by
        rcases not_and_or.mp c1 with h | h
        · linarith [le_of_not_lt h]
        · exact lt_of_not_le h
      have h3 : lon < -(Real.pi / 2 + Real.pi / 4) := by
        rcases not_and_or.mp c2 with h | h
        · exact absurd h1 h
        · exact lt_of_not_le h
      refine ⟨?_, 0, ?_⟩
      · show |if lon > 0 then -lon + Real.pi else -lon - Real.pi| ≤ _
        rw [if_neg c3, abs_le]; constructor <;> linarith
      · show lon = Real.pi / 2 - (if lon > 0 then -lon + Real.pi else -lon - Real.pi) -
          ((3 : ℕ) : ℝ) * (Real.pi / 2) + ((0 : ℤ) : ℝ) * (2 * Real.pi)
        rw [if_neg c3]; push_cast; ring

/-- Witness for C24: the top face at `lon = 1`, which lies on `AREA_0`. -/
theorem qsc_polar_area_split_witness :
    |(qsc.base_qsc_ellipsoid.fwd_theta_phi
        ⟨pj_consts.init, ⟨qsc.Face.FACE_TOP, 0, 0, 0, 0⟩⟩ 1 0).1| ≤ Real.pi / 4 :=
  ((qsc_polar_area_split ⟨pj_consts.init, ⟨qsc.Face.FACE_TOP, 0, 0, 0, 0⟩⟩ 1 0
    (by rw [abs_one]; linarith [Real.pi_gt_three])).1 rfl).1

/-- C25: for every `(x, y)` the inverse assigns exactly one area `k`: `k = 0` iff `x ≥ 0`
and `x ≥ |y|`; else `k = 1` iff `y ≥ 0` and `y ≥ |x|`; else `k = 2` iff `x < 0` and
`-x ≥ |y|`; else `k = 3`. The un-rotated angle `mu` lies in `[-pi/4, pi/4]` and
`atan2(y, x) = mu + k * pi/2` modulo `2 * pi`; so `t = (pi/12) * tan mu` lies in
`[-pi/12, pi/12]` and the divisor `cos t - 1/sqrt 2` is positive. -/
theorem qsc_inv_area_unrotation (x y : ℝ) :
    ((qsc.inv_mu_area x y).2 = qsc.Area.AREA_0 ↔ x ≥ 0 ∧ x ≥ |y|) ∧
    ((qsc.inv_mu_area x y).2 = qsc.Area.AREA_1 ↔
      ¬ (x ≥ 0 ∧ x ≥ |y|) ∧ y ≥ 0 ∧ y ≥ |x|) ∧
    ((qsc.inv_mu_area x y).2 = qsc.Area.AREA_2 ↔
      ¬ (x ≥ 0 ∧ x ≥ |y|) ∧ ¬ (y ≥ 0 ∧ y ≥ |x|) ∧ x < 0 ∧ -x ≥ |y|) ∧
    ((qsc.inv_mu_area x y).2 = qsc.Area.AREA_3 ↔
      ¬ (x ≥ 0 ∧ x ≥ |y|) ∧ ¬ (y ≥ 0 ∧ y ≥ |x|) ∧ ¬ (x < 0 ∧ -x ≥ |y|)) ∧
    |(qsc.inv_mu_area x y).1| ≤ Real.pi / 4 ∧
    (∃ n : ℤ, atan2 y x = (qsc.inv_mu_area x y).1 +
      ((qsc.inv_mu_area x y).2.toCtorIdx : ℝ) * (Real.pi / 2) + n * (2 * Real.pi)) ∧
    |Real.pi / 12 * Real.tan (qsc.inv_mu_area x y).1| ≤ Real.pi / 12 ∧
    0 < Real.cos (Real.pi / 12 * Real.tan (qsc.inv_mu_area x y).1) - 1 / Real.sqrt 2 := by
  have atan2_sectors : ∀ (x y : ℝ),
      (x ≥ 0 → x ≥ |y| → |atan2 y x| ≤ Real.pi / 4) ∧
      (y ≥ 0 → y ≥ |x| → ¬ (x ≥ 0 ∧ x ≥ |y|) → |atan2 y x - Real.pi / 2| ≤ Real.pi / 4) ∧
      (x < 0 → -x ≥ |y| → (0 ≤ atan2 y x → |atan2 y x - Real.pi| ≤ Real.pi / 4) ∧
      (atan2 y x < 0 → |atan2 y x + Real.pi| ≤ Real.pi / 4)) ∧
      (y < 0 → -y ≥ |x| → |atan2 y x + Real.pi / 2| ≤ Real.pi / 4) := by
    intro x y
    have abs_le_of_sin_le_cos : ∀ (u : ℝ) (h1 : -(5 * Real.pi / 4) < u)
        (h2 : u < 5 * Real.pi / 4) (h : |Real.sin u| ≤ Real.cos u), |u| ≤ Real.pi / 4 := by
      intro u h1 h2 h
      have hpi := Real.pi_pos
      obtain ⟨hs1, hs2⟩ := abs_le.mp h
      have hsq : 0 < Real.sqrt 2 := Real.sqrt_pos.mpr (by norm_num)
      have hp : 0 ≤ Real.cos (u + Real.pi / 4) := by
        rw [Real.cos_add, Real.cos_pi_div_four, Real.sin_pi_div_four]
        nlinarith
      have hm : 0 ≤ Real.cos (u - Real.pi / 4) := by
        rw [Real.cos_sub, Real.cos_pi_div_four, Real.sin_pi_div_four]
        nlinarith
      rw [abs_le]
      constructor
      · by_contra hc
        have := Real.cos_neg_of_pi_div_two_lt_of_lt (x := -(u - Real.pi / 4)) (by linarith)
          (by linarith)
        rw [Real.cos_neg] at this
        linarith
      · by_contra hc
        have := Real.cos_neg_of_pi_div_two_lt_of_lt (x := u + Real.pi / 4) (by linarith)
          (by linarith)
        linarith
    have hpi := Real.pi_pos
    obtain ⟨px, py⟩ := atan2_polar y x
    obtain ⟨ha1, ha2⟩ := atan2_range y x
    have hρ0 : 0 ≤ Real.sqrt (x * x + y * y) := Real.sqrt_nonneg _
    have hρpos : x ≠ 0 ∨ y ≠ 0 → 0 < Real.sqrt (x * x + y * y) := by
      intro h
      apply Real.sqrt_pos.mpr
      rcases h with h | h
      · nlinarith [mul_self_nonneg y, mul_self_pos.mpr h]
      · nlinarith [mul_self_nonneg x, mul_self_pos.mpr h]
    have hzero : x = 0 → y = 0 → atan2 y x = 0 := by
      intro hx hy
      rw [hx, hy]
      exact atan2_zero_zero
    generalize atan2 y x = a at px py ha1 ha2 hzero
    generalize Real.sqrt (x * x + y * y) = ρ at px py hρ0 hρpos
    have hdiv : ∀ c s : ℝ, 0 < ρ → |ρ * s| ≤ ρ * c → |s| ≤ c := by
      intro c s hρ h
      rw [abs_mul, abs_of_pos hρ] at h
      exact le_of_mul_le_mul_left h hρ
    refine ⟨?_, ?_, ?_, ?_⟩
    · intro hx hxy
      by_cases h0 : x = 0
      · have hy : y = 0 := by
          rw [h0] at hxy
          exact abs_eq_zero.mp (le_antisymm hxy (abs_nonneg y))
        rw [hzero h0 hy, abs_zero]
        positivity
      · have hρ := hρpos (Or.inl h0)
        apply abs_le_of_sin_le_cos a (by linarith) (by linarith)
        apply hdiv _ _ hρ
        rw [px, py]
        exact hxy
    · intro hy hyx hn
      have hy0 : y ≠ 0 := by
        intro h0
        apply hn
        rw [h0] at hyx
        have hx : x = 0 := abs_eq_zero.mp (le_antisymm hyx (abs_nonneg x))
        rw [hx, h0, abs_zero]
        exact ⟨le_refl 0, le_refl 0⟩
      have hρ := hρpos (Or.inr hy0)
      have hypos : 0 < y := lt_of_le_of_ne hy (Ne.symm hy0)
      have hsin : 0 < Real.sin a := by
        by_contra h
        have := mul_nonpos_of_nonneg_of_nonpos hρ0 (le_of_not_lt h)
        linarith
      have ha0 : 0 < a := by
        by_contra h
        have := Real.sin_nonpos_of_nonnpos_of_neg_pi_le (le_of_not_lt h) ha1.le
        linarith
      apply abs_le_of_sin_le_cos _ (by linarith) (by linarith)
      rw [Real.sin_sub_pi_div_two, Real.cos_sub_pi_div_two, abs_neg]
      apply hdiv _ _ hρ
      rw [px, py]
      exact hyx
    · intro hx hxy
      have hρ := hρpos (Or.inl hx.ne)
      have hc : |Real.sin a| ≤ -Real.cos a := by
        apply hdiv _ _ hρ
        rw [mul_neg, px, py]
        exact hxy
      constructor
      · intro h0
        apply abs_le_of_sin_le_cos _ (by linarith) (by linarith)
        rw [Real.sin_sub_pi, Real.cos_sub_pi, abs_neg]
        exact hc
      · intro h0
        apply abs_le_of_sin_le_cos _ (by linarith) (by linarith)
        rw [Real.sin_add_pi, Real.cos_add_pi, abs_neg]
        exact hc
    · intro hy hyx
      have hρ := hρpos (Or.inr hy.ne)
      have hsin : Real.sin a < 0 := by
        by_contra h
        have := mul_nonneg hρ0 (le_of_not_lt h)
        linarith
      have ha0 : a < 0 := by
        by_contra h
        have := Real.sin_nonneg_of_nonneg_of_le_pi (le_of_not_lt h) ha2
        linarith
      apply abs_le_of_sin_le_cos _ (by linarith) (by linarith)
      rw [Real.sin_add_pi_div_two, Real.cos_add_pi_div_two]
      apply hdiv _ _ hρ
      rw [mul_neg, px, py]
      exact hyx
  have hpi := Real.pi_pos
  obtain ⟨s0, s1, s2, s3⟩ := atan2_sectors x y
  have hdef : qsc.inv_mu_area x y =
      if x ≥ 0 ∧ x ≥ |y| then (atan2 y x, qsc.Area.AREA_0)
      else if y ≥ 0 ∧ y ≥ |x| then (atan2 y x - Real.pi / 2, qsc.Area.AREA_1)
      else if x < 0 ∧ -x ≥ |y| then
        ((if atan2 y x < 0 then atan2 y x + Real.pi else atan2 y x - Real.pi),
          qsc.Area.AREA_2)
      else (atan2 y x + Real.pi / 2, qsc.Area.AREA_3) := by
    unfold qsc.inv_mu_area
    rw [← zero_lit]
    rfl
  have htail : ∀ mu : ℝ, |mu| ≤ Real.pi / 4 →
      |Real.pi / 12 * Real.tan mu| ≤ Real.pi / 12 ∧
      0 < Real.cos (Real.pi / 12 * Real.tan mu) - 1 / Real.sqrt 2 := by
    intro mu hmu
    obtain ⟨hc, hs1, hs2, _, _⟩ := sin_le_cos_of_abs_le mu hmu
    have hsq : 0 < Real.sqrt 2 := Real.sqrt_pos.mpr (by norm_num)
    have h22 : Real.sqrt 2 * Real.sqrt 2 = 2 := Real.mul_self_sqrt (by norm_num)
    have hcpos : 0 < Real.cos mu := lt_of_lt_of_le (by positivity) hc
    have htan : |Real.tan mu| ≤ 1 := by
      rw [Real.tan_eq_sin_div_cos, abs_div, abs_of_pos hcpos, div_le_one hcpos, abs_le]
      constructor <;> linarith
    have ht : |Real.pi / 12 * Real.tan mu| ≤ Real.pi / 12 := by
      rw [abs_mul, abs_of_pos (by positivity : (0 : ℝ) < Real.pi / 12)]
      exact mul_le_of_le_one_right (by positivity) htan
    refine ⟨ht, ?_⟩
    have hlt : |Real.pi / 12 * Real.tan mu| < Real.pi / 4 := by linarith
    have := Real.cos_lt_cos_of_nonneg_of_le_pi_div_two (abs_nonneg _) (by linarith) hlt
    rw [Real.cos_abs, Real.cos_pi_div_four] at this
    have hinv : 1 / Real.sqrt 2 = Real.sqrt 2 / 2 := by
      rw [div_eq_div_iff hsq.ne.symm (by norm_num)]
      linarith
    rw [hinv]
    linarith
  have hmain : ((qsc.inv_mu_area x y).2 = qsc.Area.AREA_0 ↔ x ≥ 0 ∧ x ≥ |y|) ∧
      ((qsc.inv_mu_area x y).2 = qsc.Area.AREA_1 ↔
        ¬ (x ≥ 0 ∧ x ≥ |y|) ∧ y ≥ 0 ∧ y ≥ |x|) ∧
      ((qsc.inv_mu_area x y).2 = qsc.Area.AREA_2 ↔
        ¬ (x ≥ 0 ∧ x ≥ |y|) ∧ ¬ (y ≥ 0 ∧ y ≥ |x|) ∧ x < 0 ∧ -x ≥ |y|) ∧
      ((qsc.inv_mu_area x y).2 = qsc.Area.AREA_3 ↔
        ¬ (x ≥ 0 ∧ x ≥ |y|) ∧ ¬ (y ≥ 0 ∧ y ≥ |x|) ∧ ¬ (x < 0 ∧ -x ≥ |y|)) ∧
      |(qsc.inv_mu_area x y).1| ≤ Real.pi / 4 ∧
      (∃ n : ℤ, atan2 y x = (qsc.inv_mu_area x y).1 +
        ((qsc.inv_mu_area x y).2.toCtorIdx : ℝ) * (Real.pi / 2) + n * (2 * Real.pi)) := by
    rw [hdef]
    generalize atan2 y x = a at s0 s1 s2 s3
    by_cases c0 : x ≥ 0 ∧ x ≥ |y|
    · rw [if_pos c0]
      refine ⟨⟨fun _ => c0, fun _ => rfl⟩, ⟨fun h => qsc.Area.noConfusion h, fun h => absurd c0 h.1⟩,
        ⟨fun h => qsc.Area.noConfusion h, fun h => absurd c0 h.1⟩,
        ⟨fun h => qsc.Area.noConfusion h, fun h => absurd c0 h.1⟩, s0 c0.1 c0.2, 0, ?_⟩
      show a = a + ((0 : ℕ) : ℝ) * (Real.pi / 2) + ((0 : ℤ) : ℝ) * (2 * Real.pi)
      push_cast; ring
    rw [if_neg c0]
    by_cases c1 : y ≥ 0 ∧ y ≥ |x|
    · rw [if_pos c1]
      refine ⟨⟨fun h => qsc.Area.noConfusion h, fun h => absurd h c0⟩,
        ⟨fun _ => ⟨c0, c1⟩, fun _ => rfl⟩,
        ⟨fun h => qsc.Area.noConfusion h, fun h => absurd c1 h.2.1⟩,
        ⟨fun h => qsc.Area.noConfusion h, fun h => absurd c1 h.2.1⟩, s1 c1.1 c1.2 c0, 0, ?_⟩
      show a = a - Real.pi / 2 + ((1 : ℕ) : ℝ) * (Real.pi / 2) + ((0 : ℤ) : ℝ) * (2 * Real.pi)
      push_cast; ring
    rw [if_neg c1]
    by_cases c2 : x < 0 ∧ -x ≥ |y|
    · rw [if_pos c2]
      obtain ⟨t1, t2⟩ := s2 c2.1 c2.2
      refine ⟨⟨fun h => qsc.Area.noConfusion h, fun h => absurd h c0⟩,
        ⟨fun h => qsc.Area.noConfusion h, fun h => absurd h.2 c1⟩,
        ⟨fun _ => ⟨c0, c1, c2⟩, fun _ => rfl⟩,
        ⟨fun h => qsc.Area.noConfusion h, fun h => absurd c2 h.2.2⟩, ?_⟩
      by_cases hneg : a < 0
      · refine ⟨?_, -1, ?_⟩
        · show |if a < 0 then a + Real.pi else a - Real.pi| ≤ _
          rw [if_pos hneg]; exact t2 hneg
        · show a = (if a < 0 then a + Real.pi else a - Real.pi) +
            ((2 : ℕ) : ℝ) * (Real.pi / 2) + ((-1 : ℤ) : ℝ) * (2 * Real.pi)
          rw [if_pos hneg]; push_cast; ring
      · refine ⟨?_, 0, ?_⟩
        · show |if a < 0 then a + Real.pi else a - Real.pi| ≤ _
          rw [if_neg hneg]; exact t1 (le_of_not_lt hneg)
        · show a = (if a < 0 then a + Real.pi else a - Real.pi) +
            ((2 : ℕ) : ℝ) * (Real.pi / 2) + ((0 : ℤ) : ℝ) * (2 * Real.pi)
          rw [if_neg hneg]; push_cast; ring
    rw [if_neg c2]
    have hy : y < 0 ∧ -y ≥ |x| := by
      by_cases hxy : |y| ≤ |x|
      · exfalso
        rcases le_or_lt 0 x with hx | hx
        · exact c0 ⟨hx, by rw [abs_of_nonneg hx] at hxy; exact hxy⟩
        · exact c2 ⟨hx, by rw [abs_of_neg hx] at hxy; exact hxy⟩
      · have hlt : |x| < |y| := lt_of_not_le hxy
        rcases le_or_lt 0 y with hy | hy
        · exact absurd ⟨hy, by rw [abs_of_nonneg hy] at hlt; exact hlt.le⟩ c1
        · exact ⟨hy, by rw [abs_of_neg hy] at hlt; exact hlt.le⟩
    refine ⟨⟨fun h => qsc.Area.noConfusion h, fun h => absurd h c0⟩,
      ⟨fun h => qsc.Area.noConfusion h, fun h => absurd h.2 c1⟩,
      ⟨fun h => qsc.Area.noConfusion h, fun h => absurd h.2.2 c2⟩,
      ⟨fun _ => ⟨c0, c1, c2⟩, fun _ => rfl⟩, s3 hy.1 hy.2, -1, ?_⟩
    show a = a + Real.pi / 2 + ((3 : ℕ) : ℝ) * (Real.pi / 2) + ((-1 : ℤ) : ℝ) * (2 * Real.pi)
    push_cast; ring
  obtain ⟨m0, m1, m2, m3, m4, m5⟩ := hmain
  obtain ⟨t1, t2⟩ := htail _ m4
  exact ⟨m0, m1, m2, m3, m4, m5, t1, t2⟩

/-- C26: for every `theta` in `[-pi/4, pi/4]`, the `mu` of `fwd`,
`atan((12/pi) * (theta + acos(sin theta * cos(pi/4)) - pi/2))`, lies in `[-pi/4, pi/4]`,
is `0` at `theta = 0` and `±pi/4` at `theta = ±pi/4`, and the recovery of `inv`,
`atan(sin t / (cos t - 1/sqrt 2))` with `t = (pi/12) * tan mu`, gives `theta` back. -/
theorem qsc_mu_theta_inverse (θ : ℝ) (hθ : |θ| ≤ Real.pi / 4) :
    qsc.fwd_mu θ = Real.arctan (12 / Real.pi *
      (θ + Real.arccos (Real.sin θ * Real.cos (Real.pi / 4)) - Real.pi / 2)) ∧
    |qsc.fwd_mu θ| ≤ Real.pi / 4 ∧
    qsc.fwd_mu 0 = 0 ∧ qsc.fwd_mu (Real.pi / 4) = Real.pi / 4 ∧
    qsc.fwd_mu (-(Real.pi / 4)) = -(Real.pi / 4) ∧
    qsc.inv_theta (qsc.fwd_mu θ) =
      Real.arctan (Real.sin (Real.pi / 12 * Real.tan (qsc.fwd_mu θ)) /
        (Real.cos (Real.pi / 12 * Real.tan (qsc.fwd_mu θ)) - 1 / Real.sqrt 2)) ∧
    qsc.inv_theta (qsc.fwd_mu θ) = θ := by
  have hpi := Real.pi_pos
  have h22 : Real.sqrt 2 * Real.sqrt 2 = 2 := Real.mul_self_sqrt (by norm_num)
  have hk : 12 / Real.pi * (Real.pi / 4 - Real.pi / 6) = 1 := by field_simp; ring
  have h6 : Real.arcsin (1 / 2) = Real.pi / 6 := by
    have := Real.arcsin_sin (x := Real.pi / 6) (by linarith) (by linarith)
    rwa [Real.sin_pi_div_six] at this
  have hhalf : Real.sqrt 2 / 2 * (Real.sqrt 2 / 2) = 1 / 2 := by
    linear_combination (1 / 4 : ℝ) * h22
  refine ⟨?_, (qsc_fwd_mu_range θ hθ).1, ?_, ?_, ?_, ?_, qsc_inv_theta_fwd_mu θ hθ⟩
  · unfold qsc.fwd_mu pi half_pi fourth_pi
    rw [float_lits.2.2]
  · rw [qsc_fwd_mu_eq, Real.sin_zero, zero_mul, Real.arcsin_zero, sub_zero, mul_zero,
      Real.arctan_zero]
  · rw [qsc_fwd_mu_eq, Real.sin_pi_div_four, hhalf, h6, hk, Real.arctan_one]
  · rw [qsc_fwd_mu_eq, Real.sin_neg, Real.sin_pi_div_four, neg_mul, hhalf, Real.arcsin_neg,
      h6, show 12 / Real.pi * (-(Real.pi / 4) - -(Real.pi / 6)) =
        -(12 / Real.pi * (Real.pi / 4 - Real.pi / 6)) by ring, hk, Real.arctan_neg,
      Real.arctan_one]
  · unfold qsc.inv_theta pi
    rw [float_lits.1, float_lits.2.1, float_lits.2.2]

/-- Witness for C26: `theta = pi/8`. -/
theorem qsc_mu_theta_inverse_witness :
    qsc.inv_theta (qsc.fwd_mu (Real.pi / 8)) = Real.pi / 8 :=
  (qsc_mu_theta_inverse (Real.pi / 8) (by
    have := Real.pi_pos
    rw [abs_of_pos (by positivity)]
    linarith)).2.2.2.2.2.2

/-- C28: in the modes N_POLE and S_POLE the orthographic `fwd` raises `-20` exactly when
`|lat - phi0| - EPS10 > pi/2`, and otherwise returns `x = cos lat * sin lon` with
`y = -cos lat * cos lon` (N_POLE) or `y = cos lat * cos lon` (S_POLE). -/
theorem ortho_fwd_polar (P : ortho.base_ortho_spheroid) (lp_lon lp_lat : ℝ) :
    (P.m_proj_parm.mode = ortho.Mode.N_POLE →
      (P.fwd lp_lon lp_lat = Except.error (-20) ↔
        |lp_lat - P.m_par.phi0| - ortho.EPS10 > Real.pi / 2) ∧
      (¬ |lp_lat - P.m_par.phi0| - ortho.EPS10 > Real.pi / 2 →
        P.fwd lp_lon lp_lat =
          Except.ok (Real.cos lp_lat * Real.sin lp_lon,
            -(Real.cos lp_lat * Real.cos lp_lon)))) ∧
    (P.m_proj_parm.mode = ortho.Mode.S_POLE →
      (P.fwd lp_lon lp_lat = Except.error (-20) ↔
        |lp_lat - P.m_par.phi0| - ortho.EPS10 > Real.pi / 2) ∧
      (¬ |lp_lat - P.m_par.phi0| - ortho.EPS10 > Real.pi / 2 →
        P.fwd lp_lon lp_lat =
          Except.ok (Real.cos lp_lat * Real.sin lp_lon,
            Real.cos lp_lat * Real.cos lp_lon))) := by
  constructor
  · intro hm
    constructor
    · simp only [ortho.base_ortho_spheroid.fwd, hm, fabs, half_pi]
      split_ifs with h <;> simp [h]
    · intro hd
      simp only [ortho.base_ortho_spheroid.fwd, hm, fabs, half_pi]
      rw [if_neg hd, mul_neg]
  · intro hm
    constructor
    · simp only [ortho.base_ortho_spheroid.fwd, hm, fabs, half_pi]
      split_ifs with h <;> simp [h]
    · intro hd
      simp only [ortho.base_ortho_spheroid.fwd, hm, fabs, half_pi]
      rw [if_neg hd]

/-- C29: wherever the orthographic `fwd` succeeds, its output `(x, y)` has `x^2 + y^2 ≤ 1`:
in OBLIQ, with `sinph0 = sin phi0` and `cosph0 = cos phi0`, `x^2 + y^2 = 1 - d^2` for the
visibility dot product `d`; in EQUIT `x^2 + y^2 = 1 - (cos lat * cos lon)^2`; in the polar
modes `x^2 + y^2 = cos lat ^ 2`. Hence `hypot(x, y) ≤ 1` and `inv` returns on `(x, y)`. -/
theorem ortho_fwd_unit_disk (P : ortho.base_ortho_spheroid) (lp_lon lp_lat x y : ℝ)
    (hobl : P.m_proj_parm.mode = ortho.Mode.OBLIQ →
      P.m_proj_parm.sinph0 = Real.sin P.m_par.phi0 ∧
      P.m_proj_parm.cosph0 = Real.cos P.m_par.phi0)
    (hfwd : P.fwd lp_lon lp_lat = Except.ok (x, y)) :
    x ^ 2 + y ^ 2 ≤ 1 ∧
    (P.m_proj_parm.mode = ortho.Mode.OBLIQ →
      x ^ 2 + y ^ 2 = 1 - (P.m_proj_parm.sinph0 * Real.sin lp_lat +
        P.m_proj_parm.cosph0 * Real.cos lp_lat * Real.cos lp_lon) ^ 2) ∧
    (P.m_proj_parm.mode = ortho.Mode.EQUIT →
      x ^ 2 + y ^ 2 = 1 - (Real.cos lp_lat * Real.cos lp_lon) ^ 2) ∧
    (P.m_proj_parm.mode = ortho.Mode.N_POLE ∨ P.m_proj_parm.mode = ortho.Mode.S_POLE →
      x ^ 2 + y ^ 2 = Real.cos lp_lat ^ 2) ∧
    hypot x y ≤ 1 ∧
    ∃ lp, P.inv x y = Except.ok lp := by
  have h1 := Real.sin_sq_add_cos_sq lp_lat
  have h2 := Real.sin_sq_add_cos_sq lp_lon
  have hO : P.m_proj_parm.mode = ortho.Mode.OBLIQ →
      x ^ 2 + y ^ 2 = 1 - (P.m_proj_parm.sinph0 * Real.sin lp_lat +
        P.m_proj_parm.cosph0 * Real.cos lp_lat * Real.cos lp_lon) ^ 2 := by
    intro hm
    obtain ⟨hs, hc⟩ := hobl hm
    have h0 : P.m_proj_parm.sinph0 ^ 2 + P.m_proj_parm.cosph0 ^ 2 = 1 := by
      rw [hs, hc]; exact Real.sin_sq_add_cos_sq _
    have hrot := (rotation_identities P.m_proj_parm.sinph0 P.m_proj_parm.cosph0 lp_lat lp_lon
      h0).1
    simp only [ortho.base_ortho_spheroid.fwd, hm] at hfwd
    split_ifs at hfwd
    cases hfwd
    rw [← hrot]; ring
  have hE : P.m_proj_parm.mode = ortho.Mode.EQUIT →
      x ^ 2 + y ^ 2 = 1 - (Real.cos lp_lat * Real.cos lp_lon) ^ 2 := by
    intro hm
    simp only [ortho.base_ortho_spheroid.fwd, hm] at hfwd
    split_ifs at hfwd
    cases hfwd
    linear_combination (Real.cos lp_lat) ^ 2 * h2 + h1
  have hP : P.m_proj_parm.mode = ortho.Mode.N_POLE ∨ P.m_proj_parm.mode = ortho.Mode.S_POLE →
      x ^ 2 + y ^ 2 = Real.cos lp_lat ^ 2 := by
    rintro (hm | hm)
    · simp only [ortho.base_ortho_spheroid.fwd, hm] at hfwd
      split_ifs at hfwd
      cases hfwd
      linear_combination (Real.cos lp_lat) ^ 2 * h2
    · simp only [ortho.base_ortho_spheroid.fwd, hm] at hfwd
      split_ifs at hfwd
      cases hfwd
      linear_combination (Real.cos lp_lat) ^ 2 * h2
  have hle : x ^ 2 + y ^ 2 ≤ 1 := by
    rcases hmode : P.m_proj_parm.mode with _ | _ | _ | _
    all_goals first
      | (rw [hE hmode]; nlinarith [sq_nonneg (Real.cos lp_lat * Real.cos lp_lon)])
      | (rw [hO hmode]; nlinarith [sq_nonneg (P.m_proj_parm.sinph0 * Real.sin lp_lat +
          P.m_proj_parm.cosph0 * Real.cos lp_lat * Real.cos lp_lon)])
      | (rw [hP (Or.inl hmode)]; exact Real.cos_sq_le_one _)
      | (rw [hP (Or.inr hmode)]; exact Real.cos_sq_le_one _)
  have hhyp : hypot x y ≤ 1 := by
    unfold hypot
    refine Real.sqrt_le_one.mpr ?_
    rw [← sq, ← sq]; exact hle
  refine ⟨hle, hO, hE, hP, hhyp, ortho.inv_tail P x y (hypot x y) (hypot x y), ?_⟩
  have h3 : ¬ hypot x y > 1 := not_lt.mpr hhyp
  simp only [ortho.base_ortho_spheroid.inv, ortho.inv_sinc, h3, if_false]

/-- Witness for C29: the oblique instance of `phi0 = 1` at `(lon, lat) = (0, 1)`, the
centre of the projection. -/
theorem ortho_fwd_unit_disk_witness :
    (Real.cos 1 * Real.sin 0) ^ 2 +
        (Real.cos 1 * Real.sin 1 - Real.sin 1 * Real.cos 1 * Real.cos 0) ^ 2 ≤ 1 ∧
      ∃ lp, ortho.base_ortho_spheroid.inv
        ⟨{ pj_consts.init with phi0 := 1 }, ⟨Real.sin 1, Real.cos 1, ortho.Mode.OBLIQ⟩⟩
        (Real.cos 1 * Real.sin 0)
        (Real.cos 1 * Real.sin 1 - Real.sin 1 * Real.cos 1 * Real.cos 0) = Except.ok lp := by
  have h := ortho_fwd_unit_disk
    ⟨{ pj_consts.init with phi0 := 1 }, ⟨Real.sin 1, Real.cos 1, ortho.Mode.OBLIQ⟩⟩ 0 1
    (Real.cos 1 * Real.sin 0)
    (Real.cos 1 * Real.sin 1 - Real.sin 1 * Real.cos 1 * Real.cos 0)
    (fun _ => ⟨rfl, rfl⟩)
    (by
      have hpos := ortho_EPS10_pos
      have hd : ¬ Real.sin 1 * Real.sin 1 + Real.cos 1 * Real.cos 1 * Real.cos 0 <
          -ortho.EPS10 := by
        have := Real.sin_sq_add_cos_sq 1
        rw [Real.cos_zero]
        intro hlt
        nlinarith
      show (if Real.sin 1 * Real.sin 1 + Real.cos 1 * Real.cos 1 * Real.cos 0 < -ortho.EPS10
        then Except.error (-20)
        else Except.ok (Real.cos 1 * Real.sin 0,
          Real.cos 1 * Real.sin 1 - Real.sin 1 * Real.cos 1 * Real.cos 0)) = _
      rw [if_neg hd])
  exact ⟨h.1, h.2.2.2.2.2⟩

/-! ## Domains and ranges of the inverses -/

/-- C31: in every mode and for every `(x, y)` the spherical LAEA `inv` raises `-20` exactly
when `hypot(x, y) / 2 > 1`; for `hypot(x, y) ≤ 2` it returns a result; and it raises no
other code. -/
theorem laea_s_inv_domain {Apa : Type} (P : laea.base_laea_spheroid Apa) (x y : ℝ) :
    (P.inv x y = Except.error (-20) ↔ hypot x y / 2 > 1) ∧
    (hypot x y ≤ 2 → ∃ lp, P.inv x y = Except.ok lp) ∧
    (∀ c, P.inv x y = Except.error c → c = -20) := by
  have hhalf : hypot x y * 0.5 = hypot x y / 2 := by rw [half_lit]; ring
  by_cases h : hypot x y / 2 > 1
  · have herr : P.inv x y = Except.error (-20) := by
      show (if hypot x y * 0.5 > 1 then Except.error (-20) else _) = _
      rw [hhalf, if_pos h]
    refine ⟨⟨fun _ => h, fun _ => herr⟩, fun h2 => ?_, fun c hc => ?_⟩
    · exfalso; linarith
    · rw [herr] at hc
      exact (Except.error.inj hc).symm
  · have hok := laea_s_inv_of_le P x y (by rw [hhalf]; exact not_lt.mp h)
    refine ⟨⟨fun he => ?_, fun h2 => absurd h2 h⟩, fun _ => ⟨_, hok⟩, fun c hc => ?_⟩
    · rw [hok] at he
      exact Except.noConfusion he
    · rw [hok] at hc
      exact Except.noConfusion hc

/-- C35: for a central latitude `phi0` in `[-pi/2, pi/2]`, in every mode, whenever the
orthographic `inv` returns `(lon, lat)` the latitude lies in `[-pi/2, pi/2]`; and for
`hypot(x, y) > EPS10` it is `≥ 0` in N_POLE and `≤ 0` in S_POLE. -/
theorem ortho_inv_lat_range (P : ortho.base_ortho_spheroid) (x y lon lat : ℝ)
    (hphi0 : |P.m_par.phi0| ≤ Real.pi / 2)
    (hinv : P.inv x y = Except.ok (lon, lat)) :
    |lat| ≤ Real.pi / 2 ∧
    (ortho.EPS10 < hypot x y →
      (P.m_proj_parm.mode = ortho.Mode.N_POLE → 0 ≤ lat) ∧
      (P.m_proj_parm.mode = ortho.Mode.S_POLE → lat ≤ 0)) := by
  have hpi := Real.pi_pos
  have hpos := ortho_EPS10_pos
  have hrh0 : 0 ≤ hypot x y := Real.sqrt_nonneg _
  have hchk : ∀ v : ℝ, |ortho.sinchk v| ≤ Real.pi / 2 := by
    intro v
    unfold ortho.sinchk half_pi
    split_ifs
    · rw [abs_neg, abs_of_pos (by linarith)]
    · rw [abs_of_pos (by linarith)]
    · exact abs_le.mpr ⟨Real.neg_pi_div_two_le_arcsin v, Real.arcsin_le_pi_div_two v⟩
  have hsinc : ∃ sinc : ℝ, 0 ≤ sinc ∧ (lon, lat) = ortho.inv_tail P x y (hypot x y) sinc := by
    by_cases h1 : hypot x y > 1
    · by_cases h2 : hypot x y - 1 > ortho.EPS10
      · simp only [ortho.base_ortho_spheroid.inv, ortho.inv_sinc, h1, h2, if_true] at hinv
        exact Except.noConfusion hinv
      · simp only [ortho.base_ortho_spheroid.inv, ortho.inv_sinc, h1, h2, if_true,
          if_false] at hinv
        exact ⟨1, zero_le_one, (Except.ok.inj hinv).symm⟩
    · simp only [ortho.base_ortho_spheroid.inv, ortho.inv_sinc, h1, if_false] at hinv
      exact ⟨hypot x y, hrh0, (Except.ok.inj hinv).symm⟩
  obtain ⟨sinc, hs0, htail⟩ := hsinc
  have hacos1 : 0 ≤ Real.arccos sinc := Real.arccos_nonneg _
  have hacos2 : Real.arccos sinc ≤ Real.pi / 2 := Real.arccos_le_pi_div_two.mpr hs0
  by_cases hsmall : fabs (hypot x y) ≤ ortho.EPS10
  · simp only [ortho.inv_tail, hsmall, if_true] at htail
    have hlat : lat = P.m_par.phi0 := (Prod.mk.inj htail).2
    refine ⟨by rw [hlat]; exact hphi0, fun hfar => ?_⟩
    unfold fabs at hsmall
    rw [abs_of_nonneg hrh0] at hsmall
    exact absurd hfar (not_lt.mpr hsmall)
  · simp only [ortho.inv_tail, hsmall, if_false] at htail
    rcases hmode : P.m_proj_parm.mode with _ | _ | _ | _
    all_goals
      rw [hmode] at htail
      have hlat := (Prod.mk.inj htail).2
      simp only [] at hlat
      refine ⟨?_, fun _ => ⟨fun hm => ?_, fun hm => ?_⟩⟩
    all_goals first
      | exact ortho.Mode.noConfusion hm
      | (rw [hlat]; exact hchk _)
      | (rw [hlat]; exact abs_le.mpr ⟨by linarith, by linarith⟩)
      | (rw [hlat]; exact hacos1)
      | (rw [hlat]; linarith)

/-- Witness for C35: the north-polar instance (`phi0 = pi/2`) at `(x, y) = (0, 0)`, where
`inv` returns `(0, pi/2)`. -/
theorem ortho_inv_lat_range_witness :
    ortho.base_ortho_spheroid.inv
        ⟨{ pj_consts.init with phi0 := Real.pi / 2 }, ⟨0, 0, ortho.Mode.N_POLE⟩⟩ 0 0 =
      Except.ok (0, Real.pi / 2) ∧
    |Real.pi / 2| ≤ Real.pi / 2 := by
  have hpi := Real.pi_pos
  have hpos := ortho_EPS10_pos
  have h0 : hypot 0 0 = 0 := by simp [hypot]
  have h3 : ¬ (0 : ℝ) > 1 := by norm_num
  have h4 : |(0 : ℝ)| ≤ ortho.EPS10 := by rw [abs_zero]; exact hpos.le
  have hinv : ortho.base_ortho_spheroid.inv
      ⟨{ pj_consts.init with phi0 := Real.pi / 2 }, ⟨0, 0, ortho.Mode.N_POLE⟩⟩ 0 0 =
      Except.ok (0, Real.pi / 2) := by
    simp only [ortho.base_ortho_spheroid.inv, h0, ortho.inv_sinc, h3, if_false, ortho.inv_tail,
      fabs, h4, if_true]
  exact ⟨hinv, (ortho_inv_lat_range
    ⟨{ pj_consts.init with phi0 := Real.pi / 2 }, ⟨0, 0, ortho.Mode.N_POLE⟩⟩ 0 0 0 (Real.pi / 2)
    (by show |Real.pi / 2| ≤ Real.pi / 2; rw [abs_of_pos (by linarith)]) hinv).1⟩

/-- C36: the ellipsoidal LAEA `inv` returns `(lon, lat) = (0, phi0)`, whatever the series
`pj_authlat` is, in EQUIT and OBLIQ for every `(x, y)` with `hypot(x / dd, y * dd) < EPS10`,
and in N_POLE and S_POLE at `(x, y) = (0, 0)`. -/
theorem laea_e_inv_origin {Apa : Type} (pj_authlat : ℝ → Apa → ℝ)
    (P : laea.base_laea_ellipsoid Apa) (x y : ℝ) :
    (P.m_proj_parm.mode = laea.Mode.EQUIT ∨ P.m_proj_parm.mode = laea.Mode.OBLIQ →
      hypot (x / P.m_proj_parm.dd) (y * P.m_proj_parm.dd) < laea.EPS10 →
      P.inv pj_authlat x y = Except.ok (0, P.m_par.phi0)) ∧
    (P.m_proj_parm.mode = laea.Mode.N_POLE ∨ P.m_proj_parm.mode = laea.Mode.S_POLE →
      P.inv pj_authlat 0 0 = Except.ok (0, P.m_par.phi0)) := by
  constructor
  · rintro (hm | hm) hrho
    · simp only [laea.base_laea_ellipsoid.inv, hm, hrho, if_true]
    · simp only [laea.base_laea_ellipsoid.inv, hm, hrho, if_true]
  · rintro (hm | hm)
    · simp only [laea.base_laea_ellipsoid.inv, hm, neg_zero, mul_zero, add_zero, zero_lit,
        if_true]
    · simp only [laea.base_laea_ellipsoid.inv, hm, mul_zero, add_zero, zero_lit, if_true]

/-! ## Swiss Oblique Mercator: the origin and the sphere -/

/-- C32: for every parameter block with `0 ≤ es < 1`, `one_es = 1 - es`,
`rone_es = 1 / one_es` and `|phi0| < pi/2` (whatever `e` is, so in particular for
`e = sqrt es`), with `aasin` the arc sine on `[-1, 1]`, `setup_somerc` succeeds and `fwd`
maps the origin `(lon, lat) = (0, phi0)` of the projection to `(0, 0)`. -/
theorem somerc_fwd_origin (aasin : ℝ → Except Int ℝ) (par : pj_consts)
    (haasin : ∀ v : ℝ, |v| ≤ 1 → aasin v = Except.ok (Real.arcsin v))
    (hes0 : 0 ≤ par.es) (hes1 : par.es < 1)
    (hone : par.one_es = 1 - par.es) (hrone : par.rone_es = 1 / par.one_es)
    (hphi0 : |par.phi0| < Real.pi / 2) :
    ∃ P, somerc.somerc_ellipsoid aasin par = Except.ok P ∧
      P.fwd aasin 0 par.phi0 = Except.ok (0, 0) := by
  have hpi := Real.pi_pos
  have key : ∀ (P : somerc.base_somerc_ellipsoid) (φ0 phip0 : ℝ), |phip0| < Real.pi / 2 →
      P.m_proj_parm.cosp0 = Real.cos phip0 → P.m_proj_parm.sinp0 = Real.sin phip0 →
      P.m_proj_parm.c * (Real.log (Real.tan (fourth_pi + 0.5 * φ0)) -
        P.m_proj_parm.hlf_e * Real.log ((1 + P.m_par.e * Real.sin φ0) /
          (1 - P.m_par.e * Real.sin φ0))) + P.m_proj_parm.K =
        Real.log (Real.tan (fourth_pi + 0.5 * phip0)) →
      P.fwd aasin 0 φ0 = Except.ok (0, 0) := by
    intro P φ0 phip0 hφ hc hs hexp
    obtain ⟨_, hmerc⟩ := mercator_inverse phip0 hφ
    have hphip : P.fwd_phip φ0 = phip0 := by
      unfold somerc.base_somerc_ellipsoid.fwd_phip
      simp only []
      rw [hexp]
      have h2 : half_pi = 2 * fourth_pi := by unfold half_pi fourth_pi; ring
      rw [h2]
      linarith
    have e : P.fwd aasin 0 φ0 =
        (match aasin (P.m_proj_parm.cosp0 * Real.sin (P.fwd_phip φ0) -
            P.m_proj_parm.sinp0 * Real.cos (P.fwd_phip φ0) *
              Real.cos (P.m_proj_parm.c * 0)) with
          | Except.error code => Except.error code
          | Except.ok phipp =>
            match aasin (Real.cos (P.fwd_phip φ0) * Real.sin (P.m_proj_parm.c * 0) /
                Real.cos phipp) with
            | Except.error code => Except.error code
            | Except.ok lampp =>
              Except.ok (P.m_proj_parm.kR * lampp,
                P.m_proj_parm.kR * Real.log (Real.tan (fourth_pi + 0.5 * phipp)))) := rfl
    have harg1 : P.m_proj_parm.cosp0 * Real.sin (P.fwd_phip φ0) -
        P.m_proj_parm.sinp0 * Real.cos (P.fwd_phip φ0) * Real.cos (P.m_proj_parm.c * 0) = 0 := by
      rw [hphip, hc, hs, mul_zero, Real.cos_zero]
      ring
    have harg2 : Real.cos (P.fwd_phip φ0) * Real.sin (P.m_proj_parm.c * 0) / Real.cos 0 = 0 := by
      rw [mul_zero, Real.sin_zero, mul_zero, zero_div]
    have h0 : aasin 0 = Except.ok 0 := by
      have := haasin 0 (by rw [abs_zero]; exact zero_le_one)
      rwa [Real.arcsin_zero] at this
    have htan : fourth_pi + 0.5 * 0 = Real.pi / 4 := by unfold fourth_pi; ring
    rw [e, harg1, h0]
    simp only []
    rw [harg2, h0]
    simp only []
    rw [htan, Real.tan_pi_div_four, Real.log_one, mul_zero]
  have hone_pos : 0 < par.one_es := by rw [hone]; linarith
  have hrone_pos : 0 < par.rone_es := by rw [hrone]; positivity
  have hc1 : 1 ≤ Real.sqrt (1 + par.es * (Real.cos par.phi0 * Real.cos par.phi0) *
      (Real.cos par.phi0 * Real.cos par.phi0) * par.rone_es) := by
    have hnn : 0 ≤ par.es * (Real.cos par.phi0 * Real.cos par.phi0) *
        (Real.cos par.phi0 * Real.cos par.phi0) * par.rone_es :=
      mul_nonneg (mul_nonneg (mul_nonneg hes0 (mul_self_nonneg _)) (mul_self_nonneg _))
        hrone_pos.le
    calc (1 : ℝ) = Real.sqrt 1 := Real.sqrt_one.symm
      _ ≤ _ := Real.sqrt_le_sqrt (by linarith)
  have hs : |Real.sin par.phi0 / Real.sqrt (1 + par.es * (Real.cos par.phi0 * Real.cos par.phi0) *
      (Real.cos par.phi0 * Real.cos par.phi0) * par.rone_es)| < 1 := by
    rw [abs_div, abs_of_pos (by linarith : (0 : ℝ) < Real.sqrt _), div_lt_one (by linarith)]
    exact lt_of_lt_of_le (abs_sin_lt_one _ hphi0) hc1
  obtain ⟨hs1, hs2⟩ := abs_lt.mp hs
  have hφ : |Real.arcsin (Real.sin par.phi0 /
      Real.sqrt (1 + par.es * (Real.cos par.phi0 * Real.cos par.phi0) *
        (Real.cos par.phi0 * Real.cos par.phi0) * par.rone_es))| < Real.pi / 2 :=
    abs_lt.mpr ⟨Real.neg_pi_div_two_lt_arcsin.mpr hs1, Real.arcsin_lt_pi_div_two.mpr hs2⟩
  obtain ⟨P, hP⟩ : ∃ P, somerc.somerc_ellipsoid aasin par = Except.ok P := by
    simp only [somerc.somerc_ellipsoid, somerc.setup_somerc, haasin _ hs.le]
    exact ⟨_, rfl⟩
  refine ⟨P, hP, ?_⟩
  simp only [somerc.somerc_ellipsoid, somerc.setup_somerc, haasin _ hs.le] at hP
  have hP' := Except.ok.inj hP
  rw [← hP']
  refine key _ par.phi0 _ hφ rfl ?_ ?_
  · exact (Real.sin_arcsin hs1.le hs2.le).symm
  · simp only []
    rw [mul_comm (Real.sin par.phi0) par.e]
    ring

/-- Witness for C32: the unit sphere with `phi0 = 0`. -/
theorem somerc_fwd_origin_witness :
    ∃ P, somerc.somerc_ellipsoid (fun v => Except.ok (Real.arcsin v))
        { pj_consts.init with one_es := 1, rone_es := 1, k0 := 1 } = Except.ok P ∧
      P.fwd (fun v => Except.ok (Real.arcsin v)) 0 0 = Except.ok (0, 0) :=
  somerc_fwd_origin (fun v => Except.ok (Real.arcsin v))
    { pj_consts.init with one_es := 1, rone_es := 1, k0 := 1 } (fun _ _ => rfl)
    (le_refl (0 : ℝ)) (one_pos : (0 : ℝ) < 1)
    (by norm_num : (1 : ℝ) = 1 - 0) (by norm_num : (1 : ℝ) = 1 / 1)
    (by
      show |(0 : ℝ)| < Real.pi / 2
      rw [abs_zero]
      exact div_pos Real.pi_pos two_pos)

/-- C37: on the sphere (`es = 0`), on FRONT, RIGHT, BACK and LEFT `fwd(0, 0) = (0, 0)` and
`inv(0, 0) = (0, 0)` (longitudes relative to the centre of the face); on TOP
`fwd(lon, pi/2) = (0, 0)` for every `lon` and `inv(0, 0) = (pi/2, pi/2)`; on BOTTOM
`fwd(lon, -pi/2) = (0, 0)` for every `lon` and `inv(0, 0) = (pi/2, -pi/2)`. -/
theorem qsc_face_centre (P : qsc.base_qsc_ellipsoid) (hes : P.m_par.es = 0) :
    (P.m_proj_parm.face = qsc.Face.FACE_FRONT ∨ P.m_proj_parm.face = qsc.Face.FACE_RIGHT ∨
      P.m_proj_parm.face = qsc.Face.FACE_BACK ∨ P.m_proj_parm.face = qsc.Face.FACE_LEFT →
      P.fwd 0 0 = Except.ok (0, 0) ∧ P.inv 0 0 = Except.ok (0, 0)) ∧
    (P.m_proj_parm.face = qsc.Face.FACE_TOP →
      (∀ lon : ℝ, P.fwd lon (Real.pi / 2) = Except.ok (0, 0)) ∧
      P.inv 0 0 = Except.ok (Real.pi / 2, Real.pi / 2)) ∧
    (P.m_proj_parm.face = qsc.Face.FACE_BOTTOM →
      (∀ lon : ℝ, P.fwd lon (-(Real.pi / 2)) = Except.ok (0, 0)) ∧
      P.inv 0 0 = Except.ok (Real.pi / 2, -(Real.pi / 2))) := by
  have hpi := Real.pi_pos
  obtain ⟨l1, l2, l12⟩ := float_lits
  have hes' : ¬ P.m_par.es ≠ 0.0 := by rw [hes, zero_lit]; exact not_not.mpr rfl
  have hflat : ∀ lat : ℝ, P.fwd_lat lat = lat := by
    intro lat
    unfold qsc.base_qsc_ellipsoid.fwd_lat
    rw [if_neg hes']
  have hilat : ∀ lat : ℝ, P.inv_lat lat = lat := by
    intro lat
    unfold qsc.base_qsc_ellipsoid.inv_lat
    rw [if_neg hes']
  have hfwd : ∀ lon lat : ℝ, (P.fwd_theta_phi lon lat).2.1 = 0 →
      P.fwd lon lat = Except.ok (0, 0) := by
    intro lon lat h
    unfold qsc.base_qsc_ellipsoid.fwd
    simp only []
    rw [hflat, h, Real.cos_zero, l1, sub_self, zero_div, zero_div, Real.sqrt_zero, zero_mul,
      zero_mul]
  have hinv : P.inv 0 0 = Except.ok ((P.inv_face qsc.Area.AREA_0 0 1).1,
      (P.inv_face qsc.Area.AREA_0 0 1).2) := by
    have hma : qsc.inv_mu_area 0 0 = (0, qsc.Area.AREA_0) := by
      unfold qsc.inv_mu_area
      simp only []
      rw [if_pos ⟨by rw [zero_lit], by unfold fabs; rw [abs_zero]⟩, atan2_zero_zero]
    have hth : qsc.inv_theta 0 = 0 := by
      unfold qsc.inv_theta
      simp only []
      rw [Real.tan_zero, mul_zero, Real.sin_zero, zero_div, Real.arctan_zero]
    have hcp : qsc.inv_cosphi 0 (Real.arctan (Real.sqrt (0 * 0 + 0 * 0))) 0 = 1 := by
      unfold qsc.inv_cosphi
      simp only []
      rw [mul_zero, add_zero, Real.sqrt_zero, Real.arctan_zero, Real.tan_zero, mul_zero,
        zero_mul, sub_zero, l1, if_neg (by norm_num), if_neg (by norm_num)]
    unfold qsc.base_qsc_ellipsoid.inv
    simp only []
    rw [hma]
    simp only []
    rw [hth, hcp, hilat]
  have hs : (if (1 : ℝ) * 1 ≥ 1.0 then (0.0 : ℝ)
      else Real.sqrt (1.0 - 1 * 1) * Real.sin 0) = 0 := by
    rw [l1, if_pos (by norm_num), zero_lit]
  have hr : (if (1 : ℝ) * 1 + 0 * 0 ≥ 1.0 then (0.0 : ℝ)
      else Real.sqrt (1.0 - (1 * 1 + 0 * 0))) = 0 := by
    rw [l1, if_pos (by norm_num), zero_lit]
  have hat : ∀ θ : ℝ, -Real.pi < θ → θ ≤ Real.pi →
      atan2 (Real.sin θ) (Real.cos θ) = θ := by
    intro θ h1 h2
    have := atan2_mul_sin_cos 1 θ one_pos h1 h2
    rwa [one_mul, one_mul] at this
  have hat0 : atan2 0 1 = 0 := by
    have := hat 0 (by linarith) (by linarith)
    rwa [Real.sin_zero, Real.cos_zero] at this
  have hat1 : atan2 1 0 = Real.pi / 2 := by
    have := hat (Real.pi / 2) (by linarith) (by linarith)
    rwa [Real.sin_pi_div_two, Real.cos_pi_div_two] at this
  have hat2 : atan2 0 (-1) = Real.pi := by
    have := hat Real.pi (by linarith) (le_refl _)
    rwa [Real.sin_pi, Real.cos_pi] at this
  have hat3 : atan2 (-1) 0 = -(Real.pi / 2) := by
    have := hat (-(Real.pi / 2)) (by linarith) (by linarith)
    rwa [Real.sin_neg, Real.cos_neg, Real.sin_pi_div_two, Real.cos_pi_div_two] at this
  have hsh : ∀ a b : ℝ, a + b = 0 → qsc.qsc_shift_lon_origin a b = 0 := by
    intro a b hab
    unfold qsc.qsc_shift_lon_origin
    simp only []
    rw [hab, if_neg (by unfold pi; linarith), if_neg (by unfold pi; linarith)]
  have hlat0 : Real.arccos 0 - half_pi = 0 := by
    rw [Real.arccos_zero]; unfold half_pi; ring
  have hequat : P.m_proj_parm.face ≠ qsc.Face.FACE_TOP →
      P.m_proj_parm.face ≠ qsc.Face.FACE_BOTTOM → P.fwd 0 0 = Except.ok (0, 0) := by
    intro hT hB
    apply hfwd
    rw [qsc_equat_fwd P hT hB 0 0]
    show Real.arccos (Real.cos 0 * Real.cos 0) = 0
    rw [Real.cos_zero, one_mul, Real.arccos_one]
  refine ⟨?_, ?_, ?_⟩
  · intro hface
    rcases hface with hf | hf | hf | hf
    · refine ⟨hequat (by rw [hf]; decide) (by rw [hf]; decide), ?_⟩
      rw [hinv]
      unfold qsc.base_qsc_ellipsoid.inv_face
      rw [hf]
      simp only [reduceCtorEq, if_true, if_false, hs, hr, neg_zero, hat0, hlat0]
    · refine ⟨hequat (by rw [hf]; decide) (by rw [hf]; decide), ?_⟩
      rw [hinv]
      unfold qsc.base_qsc_ellipsoid.inv_face
      rw [hf]
      simp only [reduceCtorEq, if_true, if_false, hs, hr, neg_zero, hat1, hlat0]
      rw [hsh _ _ (by unfold half_pi; ring)]
    · refine ⟨hequat (by rw [hf]; decide) (by rw [hf]; decide), ?_⟩
      rw [hinv]
      unfold qsc.base_qsc_ellipsoid.inv_face
      rw [hf]
      simp only [reduceCtorEq, if_true, if_false, hs, hr, neg_zero, hat2, hlat0]
      rw [hsh _ _ (by unfold pi; ring)]
    · refine ⟨hequat (by rw [hf]; decide) (by rw [hf]; decide), ?_⟩
      rw [hinv]
      unfold qsc.base_qsc_ellipsoid.inv_face
      rw [hf]
      simp only [reduceCtorEq, if_true, if_false, hs, hr, neg_zero, hat3, hlat0]
      rw [hsh _ _ (by unfold half_pi; ring)]
  · intro hf
    constructor
    · intro lon
      apply hfwd
      unfold qsc.base_qsc_ellipsoid.fwd_theta_phi
      rw [hf]
      simp only []
      split_ifs <;> (show half_pi - Real.pi / 2 = 0; unfold half_pi; ring)
    · rw [hinv]
      unfold qsc.base_qsc_ellipsoid.inv_face
      rw [hf]
      simp only [Real.arccos_one, sub_zero, zero_add]
      rfl
  · intro hf
    constructor
    · intro lon
      apply hfwd
      unfold qsc.base_qsc_ellipsoid.fwd_theta_phi
      rw [hf]
      simp only []
      split_ifs <;> (show half_pi + -(Real.pi / 2) = 0; unfold half_pi; ring)
    · rw [hinv]
      unfold qsc.base_qsc_ellipsoid.inv_face
      rw [hf]
      simp only [Real.arccos_one, zero_sub, neg_zero, zero_add]
      rfl

/-- Witness for C37: the front face on the default block (`es = 0`). -/
theorem qsc_face_centre_witness :
    qsc.base_qsc_ellipsoid.fwd ⟨pj_consts.init, ⟨qsc.Face.FACE_FRONT, 0, 0, 0, 0⟩⟩ 0 0 =
      Except.ok (0, 0) ∧
    qsc.base_qsc_ellipsoid.inv ⟨pj_consts.init, ⟨qsc.Face.FACE_FRONT, 0, 0, 0, 0⟩⟩ 0 0 =
      Except.ok (0, 0) :=
  (qsc_face_centre ⟨pj_consts.init, ⟨qsc.Face.FACE_FRONT, 0, 0, 0, 0⟩⟩ rfl).1 (Or.inl rfl)

end Projections

end
